import Mathlib

/-!
Shallow embedding of the warehouse simulation core of this repository
(`src/agents/warehouse/state_store.py`, `src/agents/warehouse/commands.py`,
`src/agents/warehouse/direct_commands.py`), together with theorems settling
the frozen claims about it.

Modelling conventions:

* Python floats are modelled as exact rationals (`ℚ`).  All arithmetic the
  code performs (addition, subtraction, multiplication, halving, comparison)
  is exact on the values the program manipulates, so no rounding behaviour
  is lost.  The float literals `5.0`, `0.5`, `2.0`, `0.01` of the source
  become the rationals `5`, `1/2`, `2`, `1/100`.
* The Euclidean-distance test `((dx)**2+(dy)**2+(dz)**2) ** 0.5 < tol` of
  `position_occupied_by_other` is modelled as `dx^2+dy^2+dz^2 < tol^2`,
  which is equivalent for `tol ≥ 0` since squaring is monotone on
  nonnegative reals.
* Python dictionaries holding the robot and item records become structures;
  the mutable module-level store becomes explicit state passing: each
  mutating operation takes and returns a `WState`.
* `execute_warehouse_command` raises `ValueError` with a message on
  validation failure.  The embedding returns `WState × Option WErr`:
  on success `(s', none)` and on a raised error `(s, some e)` where `s` is
  the state at the moment of the raise.  The constructors of `WErr` are in
  one-to-one correspondence with the `raise ValueError(...)` sites and
  carry the dynamic data interpolated into the message text.
* `verify_warehouse_state_after_command` returns `(True, "")` or
  `(False, reason)`; the embedding returns `Option VErr` where `none`
  stands for `(True, "")` and `some e` identifies the failing check that
  produced the reason string.
* Python strings are Lean `String`s; `.strip()`, `.lower()`, `.replace()`
  and `startswith` are re-implemented on `List Char` below.  `str.replace`
  is given fuel equal to the length of the subject string, which is enough
  for the left-to-right non-overlapping replacement Python performs.
* Python truthiness tests on optional strings (`if not item_id`,
  `if carried`, `if item.get("stack_id")`) are `truthy` below: a value is
  truthy when it is present and not the empty string.
-/

/-- A 3-vector of coordinates `(x, y, z)`; the source stores positions as
`[x, y, z]` lists with `y` the height. -/
structure V3 where
  x : ℚ
  y : ℚ
  z : ℚ
deriving DecidableEq, Repr

/-- A robot record, mirroring the dictionaries created in
`state_store._init_default_state` and `state_store.upsert_robot`. -/
structure Robot where
  id : String
  rtype : String
  position : V3
  orientation : V3
  status : Option String
  current_task : Option String
deriving DecidableEq, Repr

/-- An item record, mirroring the dictionaries of `state_store`. -/
structure Item where
  id : String
  position : V3
  stack_id : Option String
deriving DecidableEq, Repr

/-- The warehouse world state: the `robots` and `items` lists of the
module-level `_state` dictionary.  The `warehouse` bounds entry is fixed
for the life of the process and is modelled by the constants below. -/
structure WState where
  robots : List Robot
  items : List Item
deriving DecidableEq, Repr

/-- Warehouse width (`_state["warehouse"]["width"] = 50.0`). -/
def warehouseW : ℚ := 50

/-- Warehouse depth (`_state["warehouse"]["depth"] = 30.0`). -/
def warehouseD : ℚ := 30

/-- Warehouse height (`_state["warehouse"]["height"] = 10.0`). -/
def warehouseH : ℚ := 10

/-- Characters stripped by Python `str.strip()` / matched by `\s`. -/
def trimChars (s : List Char) : List Char :=
  ((s.dropWhile Char.isWhitespace).reverse.dropWhile Char.isWhitespace).reverse

/-- Python `s.strip()`. -/
def pyStrip (s : String) : String :=
  String.mk (trimChars s.data)

/-- Python `s.lower()` (the identifiers involved are ASCII). -/
def pyLower (s : String) : String :=
  String.mk (s.data.map Char.toLower)

/-- Python `s.startswith(p)`. -/
def pyStartsWith (s p : String) : Bool :=
  p.data.isPrefixOf s.data

/-- One fuel-indexed step of Python `s.replace(pat, "")`: left-to-right,
non-overlapping removal of every occurrence of `pat`.  The fuel is the
length of the subject, which bounds the number of recursive calls. -/
def removeAllF (pat : List Char) : Nat → List Char → List Char
  | 0, s => s
  | _ + 1, [] => []
  | fuel + 1, c :: rest =>
    if pat ≠ [] ∧ pat.isPrefixOf (c :: rest) then
      removeAllF pat fuel ((c :: rest).drop pat.length)
    else
      c :: removeAllF pat fuel rest

/-- Python `s.replace(pat, "")`. -/
def removeAll (pat s : List Char) : List Char :=
  removeAllF pat s.length s

/-- Python `pat in s` (substring test). -/
def containsSub (pat : List Char) : List Char → Bool
  | [] => pat.isEmpty
  | c :: rest => pat.isPrefixOf (c :: rest) || containsSub pat rest

/-- Python truthiness of an optional string: `None` and `""` are falsy. -/
def truthy : Option String → Bool
  | some s => s ≠ ""
  | none => false

example : pyStrip "  item-1 " = "item-1" := by decide
example : pyLower " Move " = " move " := by decide
example : String.mk (removeAll "carrying_".data "carrying_item-1".data) = "item-1" := by decide
example : String.mk (removeAll "carrying_".data "carrying_carrying_x".data) = "x" := by decide
example : containsSub "toward".data "move towards arm".data = true := by decide

/-! ## World state store (`src/agents/warehouse/state_store.py`) -/

/-- Update the first list entry whose `id` matches (the Python store locates
`_find_robot_index` and mutates `robots[idx]` in place); `none` when no
entry matches. -/
def updateFirstRobot (rid : String) (f : Robot → Robot) : List Robot → Option (List Robot)
  | [] => none
  | r :: rest =>
    if r.id == rid then some (f r :: rest)
    else (updateFirstRobot rid f rest).map (r :: ·)

/-- Field merge of `upsert_robot` on an existing robot: a `none` in
`rtype`/`pos`/`orient` means the argument was `None` (leave unchanged); a
`none` in `status`/`task` means the argument was the `_UNSET` sentinel
(leave unchanged) while `some v` assigns `v` (which may itself be `none`,
i.e. Python `None`). -/
def mergeRobot (rtype : Option String) (pos orient : Option V3)
    (status task : Option (Option String)) (r : Robot) : Robot :=
  { r with
    rtype := rtype.getD r.rtype
    position := pos.getD r.position
    orientation := orient.getD r.orientation
    status := status.getD r.status
    current_task := task.getD r.current_task }

/-- Robot record created by `upsert_robot` when the id is absent;
`robot_type or "unknown"` makes both `None` and `""` default to
`"unknown"`. -/
def newRobot (rid : String) (rtype : Option String) (pos orient : Option V3)
    (status task : Option (Option String)) : Robot :=
  { id := rid
    rtype := match rtype with
      | some t => if t = "" then "unknown" else t
      | none => "unknown"
    position := pos.getD ⟨0, 0, 0⟩
    orientation := orient.getD ⟨0, 0, 0⟩
    status := status.getD (some "idle")
    current_task := task.getD none }

/-- `state_store.upsert_robot`. -/
def upsertRobot (s : WState) (rid : String) (rtype : Option String)
    (pos orient : Option V3) (status task : Option (Option String)) : WState :=
  match updateFirstRobot rid (mergeRobot rtype pos orient status task) s.robots with
  | some rs => { s with robots := rs }
  | none => { s with robots := s.robots ++ [newRobot rid rtype pos orient status task] }

/-- `state_store.update_robot_position`. -/
def updateRobotPosition (s : WState) (rid : String) (p : V3) : WState :=
  upsertRobot s rid none (some p) none none none

/-- `state_store.update_robot_status`; `task = none` is the omitted
(`_UNSET`) argument, `task = some none` explicitly clears the field. -/
def updateRobotStatus (s : WState) (rid : String) (status : String)
    (task : Option (Option String)) : WState :=
  upsertRobot s rid none none none (some (some status)) task

/-- Update the first item whose `id` matches; `none` when absent. -/
def updateFirstItem (iid : String) (f : Item → Item) : List Item → Option (List Item)
  | [] => none
  | it :: rest =>
    if it.id == iid then some (f it :: rest)
    else (updateFirstItem iid f rest).map (it :: ·)

/-- `state_store.upsert_item`: always a full position and stack update,
appending a fresh record when the id is absent. -/
def upsertItem (s : WState) (iid : String) (p : V3) (sid : Option String) : WState :=
  match updateFirstItem iid (fun it => { it with position := p, stack_id := sid }) s.items with
  | some its => { s with items := its }
  | none => { s with items := s.items ++ [{ id := iid, position := p, stack_id := sid }] }

/-- `state_store.is_within_bounds`. -/
def isWithinBounds (x y z : ℚ) : Bool :=
  decide (0 ≤ x ∧ x ≤ warehouseW ∧ 0 ≤ z ∧ z ≤ warehouseD ∧ 0 ≤ y ∧ y ≤ warehouseH)

/-- Squared Euclidean distance between a point and a robot's position. -/
def distSq (x y z : ℚ) (p : V3) : ℚ :=
  (x - p.x) ^ 2 + (y - p.y) ^ 2 + (z - p.z) ^ 2

/-- `state_store.position_occupied_by_other` (all call sites use the
default `tolerance=2.0`): the first robot other than `rid` whose Euclidean
distance to `(x,y,z)` is strictly below `tol`, phrased on squares. -/
def positionOccupiedByOther (s : WState) (rid : String) (x y z : ℚ) (tol : ℚ) : Option Robot :=
  s.robots.find? (fun r => !(r.id == rid) && decide (distSq x y z r.position < tol ^ 2))

/-! ## Command executor helpers (`src/agents/warehouse/commands.py`) -/

/-- First robot with the given id. -/
def findRobot (s : WState) (rid : String) : Option Robot :=
  s.robots.find? (fun r => r.id == rid)

/-- `commands._get_robot_position`: `[0,0,0]` when the robot is absent. -/
def getRobotPosition (s : WState) (rid : String) : V3 :=
  match findRobot s rid with
  | some r => r.position
  | none => ⟨0, 0, 0⟩

/-- First item with the given id. -/
def findItem (s : WState) (iid : String) : Option Item :=
  s.items.find? (fun it => it.id == iid)

/-- `commands._get_item_position`. -/
def getItemPosition (s : WState) (iid : String) : Option V3 :=
  (findItem s iid).map (·.position)

/-- `commands._stack_height`: the number of items carrying this `stack_id`. -/
def stackHeight (s : WState) (sid : String) : Nat :=
  s.items.countP (fun it => it.stack_id == some sid)

/-- The held-item decoding shared by `_get_robot_carried_item`,
`_get_robot_holding_item` and the inline copy in the move branch:
`task.replace(prefix, "").strip()` guarded by `startswith`. -/
def taskCarried (task : String) : Option String :=
  if pyStartsWith task "carrying_" then
    some (String.mk (trimChars (removeAll "carrying_".data task.data)))
  else if pyStartsWith task "holding_" then
    some (String.mk (trimChars (removeAll "holding_".data task.data)))
  else none

/-- `commands._get_robot_carried_item`. -/
def getRobotCarriedItem (s : WState) (rid : String) : Option String :=
  let task := match findRobot s rid with
    | some r => r.current_task.getD ""
    | none => ""
  taskCarried task

/-- `commands._get_robot_holding_item`: the id of the first robot whose
decoded task equals `iid`. -/
def getRobotHoldingItem (s : WState) (iid : String) : Option String :=
  (s.robots.find? (fun r => taskCarried (r.current_task.getD "") == some iid)).map (·.id)

/-- `commands._get_stack_base_position`: the `(x, z)` of the first item of
the stack, or the fixed default `(25, 10)` when the stack is empty. -/
def getStackBasePosition (s : WState) (sid : String) : ℚ × ℚ :=
  match s.items.find? (fun it => it.stack_id == some sid) with
  | some it => (it.position.x, it.position.z)
  | none => (25, 10)

/-! ## Command executor (`execute_warehouse_command`) -/

/-- Validation errors of `execute_warehouse_command`, one constructor per
`raise ValueError(...)` site, carrying the dynamic data of the message. -/
inductive WErr where
  | unknownRobot
  | onlyUgvPick
  | itemIdRequiredPick
  | alreadyCarrying (carried : String)
  | itemNotFound (iid : String)
  | itemOnStack (iid : String)
  | itemHeldByOther (iid holder : String)
  | onlyUgvDrop
  | itemIdRequiredDrop
  | xzRequiredDrop
  | notCarrying (iid : String) (carried : Option String)
  | dropOutOfBounds (x z : ℚ)
  | dropCollision (occupant : String) (x z : ℚ)
  | onlyArmPickStack
  | stackIdRequired
  | armAlreadyHolding (holding : String)
  | emptyStack (sid : String)
  | pickStackCollision (occupant : String)
  | onlyArmPlace
  | stackAndItemRequired
  | armNotHolding (iid : String) (holding : Option String)
  | placeOutOfBounds (x y z : ℚ)
  | placeCollision (occupant : String)
  | badDirection
  | moveNoTarget
  | moveOutOfBounds (x y z : ℚ)
  | moveCollision (occupant : String) (pos : V3)
deriving DecidableEq, Repr

/-- The `{"uav": "uav-1", "ugv": "ugv-1", "arm": "arm-1"}` id map. -/
def robotIdMap (k : String) : Option String :=
  if k = "uav" then some "uav-1"
  else if k = "ugv" then some "ugv-1"
  else if k = "arm" then some "arm-1"
  else none

/-- The three store mutations committed by a successful `pick`. -/
def pickCommit (s : WState) (robot_id iid : String) (p : V3) : WState :=
  let s1 := updateRobotPosition s robot_id ⟨p.x, 0, p.z⟩
  let s2 := upsertItem s1 iid ⟨p.x, 0, p.z⟩ none
  updateRobotStatus s2 robot_id "working" (some (some ("carrying_" ++ iid)))

/-- The `pick` branch (`commands.py` lines 108–130); validations in source
order, then the three store mutations. -/
def execPick (s : WState) (robot_key robot_id : String) (item_id : Option String) :
    WState × Option WErr :=
  if robot_key ≠ "ugv" then (s, some .onlyUgvPick)
  else if ¬ truthy item_id then (s, some .itemIdRequiredPick)
  else
    let carried := getRobotCarriedItem s robot_id
    if truthy carried then (s, some (.alreadyCarrying (carried.getD "")))
    else
      let iid := pyStrip (item_id.getD "")
      match findItem s iid with
      | none => (s, some (.itemNotFound iid))
      | some item =>
        if truthy item.stack_id then (s, some (.itemOnStack iid))
        else
          let held_by := getRobotHoldingItem s iid
          if truthy held_by ∧ held_by ≠ some robot_id then
            (s, some (.itemHeldByOther iid (held_by.getD "")))
          else
            let p := (getItemPosition s iid).getD ⟨0, 0, 0⟩
            (pickCommit s robot_id iid p, none)

/-- The three store mutations committed by a successful `drop`. -/
def dropCommit (s : WState) (robot_id iid : String) (tx tz : ℚ) : WState :=
  let s1 := updateRobotPosition s robot_id ⟨tx, 0, tz⟩
  let s2 := upsertItem s1 iid ⟨tx, 0, tz⟩ none
  updateRobotStatus s2 robot_id "idle" (some none)

/-- The `drop` branch (`commands.py` lines 132–155). -/
def execDrop (s : WState) (robot_key robot_id : String) (item_id : Option String)
    (x z : Option ℚ) : WState × Option WErr :=
  if robot_key ≠ "ugv" then (s, some .onlyUgvDrop)
  else if ¬ truthy item_id then (s, some .itemIdRequiredDrop)
  else if x = none ∨ z = none then (s, some .xzRequiredDrop)
  else
    let carried := getRobotCarriedItem s robot_id
    let iid := pyStrip (item_id.getD "")
    if carried ≠ some iid then (s, some (.notCarrying iid carried))
    else
      let tx := x.getD 0
      let tz := z.getD 0
      if ¬ isWithinBounds tx 0 tz then (s, some (.dropOutOfBounds tx tz))
      else
        match positionOccupiedByOther s robot_id tx 0 tz 2 with
        | some occ => (s, some (.dropCollision occ.id tx tz))
        | none => (dropCommit s robot_id iid tx tz, none)

/-- The three store mutations committed by a successful `pick_from_stack`. -/
def pfsCommit (s : WState) (robot_id top_id : String) (p : V3) : WState :=
  let s1 := updateRobotPosition s robot_id p
  let s2 := upsertItem s1 top_id p none
  updateRobotStatus s2 robot_id "working" (some (some ("holding_" ++ top_id)))

/-- The `pick_from_stack` branch (`commands.py` lines 157–180); the "top"
of a stack is the last item of the list carrying this `stack_id`. -/
def execPickFromStack (s : WState) (robot_key robot_id : String)
    (stack_id : Option String) : WState × Option WErr :=
  if robot_key ≠ "arm" then (s, some .onlyArmPickStack)
  else if ¬ truthy stack_id then (s, some .stackIdRequired)
  else
    let holding := getRobotCarriedItem s robot_id
    if truthy holding then (s, some (.armAlreadyHolding (holding.getD "")))
    else
      let sid := pyStrip (stack_id.getD "")
      let stack_items := s.items.filter (fun it => it.stack_id == some sid)
      match stack_items.getLast? with
      | none => (s, some (.emptyStack sid))
      | some top =>
        let p := top.position
        match positionOccupiedByOther s robot_id p.x p.y p.z 2 with
        | some occ => (s, some (.pickStackCollision occ.id))
        | none => (pfsCommit s robot_id top.id p, none)

/-- The three store mutations committed by a successful `place_on_stack`. -/
def placeCommit (s : WState) (robot_id iid sid : String) (p : V3) : WState :=
  let s1 := updateRobotPosition s robot_id p
  let s2 := upsertItem s1 iid p (some sid)
  updateRobotStatus s2 robot_id "idle" (some none)

/-- The `place_on_stack` branch (`commands.py` lines 182–206);
`y = 0.5 * (stack_height + 1)`. -/
def execPlaceOnStack (s : WState) (robot_key robot_id : String)
    (item_id stack_id : Option String) : WState × Option WErr :=
  if robot_key ≠ "arm" then (s, some .onlyArmPlace)
  else if ¬ truthy stack_id ∨ ¬ truthy item_id then (s, some .stackAndItemRequired)
  else
    let holding := getRobotCarriedItem s robot_id
    let iid := pyStrip (item_id.getD "")
    if holding ≠ some iid then (s, some (.armNotHolding iid holding))
    else
      let sid := pyStrip (stack_id.getD "")
      let level := stackHeight s sid
      let base := getStackBasePosition s sid
      let y_val : ℚ := (1 / 2) * (level + 1)
      if ¬ isWithinBounds base.1 y_val base.2 then
        (s, some (.placeOutOfBounds base.1 y_val base.2))
      else
        match positionOccupiedByOther s robot_id base.1 y_val base.2 2 with
        | some occ => (s, some (.placeCollision occ.id))
        | none => (placeCommit s robot_id iid sid ⟨base.1, y_val, base.2⟩, none)

/-- Target computation of the `move` branch: absolute coordinates when
both `x` and `z` are given (default height: ground 0, aerial 5, otherwise
the current height unless `y` is given), else a 5-unit directional step
(north = −z, south = +z, east = +x, west = −x), else an error. -/
def moveTarget (robot_key : String) (c : V3) (direction : Option String)
    (x y z : Option ℚ) : (ℚ × ℚ × ℚ) ⊕ WErr :=
  if x ≠ none ∧ z ≠ none then
    let tx := x.getD 0
    let tz := z.getD 0
    let ty := match y with
      | some v => v
      | none => if robot_key = "ugv" then 0 else if robot_key = "uav" then 5 else c.y
    .inl (tx, ty, tz)
  else if truthy direction then
    let d := pyLower (pyStrip (direction.getD ""))
    let step : ℚ := 5
    let delta : Option (ℚ × ℚ) :=
      if d = "north" then some (0, -step)
      else if d = "south" then some (0, step)
      else if d = "east" then some (step, 0)
      else if d = "west" then some (-step, 0)
      else none
    match delta with
    | none => .inr .badDirection
    | some (dx, dz) =>
      if robot_key = "uav" then .inl (c.x + dx, 5, c.z + dz)
      else if robot_key = "ugv" then .inl (c.x + dx, 0, c.z + dz)
      else .inl (c.x + dx, c.y, c.z + dz)
  else .inr .moveNoTarget

/-- The store mutations committed by a successful `move`: the robot moves
to the target; a carried item follows (a ground robot keeps it at height
0), re-asserting the working status; otherwise status becomes idle with
the task cleared.  `task` is the robot's task string read from the
pre-command snapshot. -/
def moveCommit (s : WState) (robot_key robot_id : String) (task : String)
    (tx ty tz : ℚ) : WState :=
  let s1 := updateRobotPosition s robot_id ⟨tx, ty, tz⟩
  let carried_id := taskCarried task
  if truthy carried_id then
    let cid := carried_id.getD ""
    let s2 :=
      if robot_key = "ugv" then upsertItem s1 cid ⟨tx, 0, tz⟩ none
      else upsertItem s1 cid ⟨tx, ty, tz⟩ none
    updateRobotStatus s2 robot_id "working" (some (some task))
  else
    updateRobotStatus s1 robot_id "idle" (some none)

/-- The fall-through `move` branch (`commands.py` lines 208–258).  `c` is
the robot's position read from the pre-command snapshot. -/
def execMove (s : WState) (robot_key robot_id : String) (c : V3)
    (direction : Option String) (x y z : Option ℚ) : WState × Option WErr :=
  match moveTarget robot_key c direction x y z with
  | .inr e => (s, some e)
  | .inl (tx, ty, tz) =>
    if ¬ isWithinBounds tx ty tz then (s, some (.moveOutOfBounds tx ty tz))
    else
      match positionOccupiedByOther s robot_id tx ty tz 2 with
      | some occ => (s, some (.moveCollision occ.id occ.position))
      | none =>
        let task := match findRobot s robot_id with
          | some r => r.current_task.getD ""
          | none => ""
        (moveCommit s robot_key robot_id task tx ty tz, none)

/-- Normalisation of the `action` argument:
`(action or "").strip().lower() or "move"`. -/
def normAct (action : String) : String :=
  let a := pyLower (pyStrip action)
  if a = "" then "move" else a

/-- `execute_warehouse_command`.  Returns the final state and `none` on
success, or the untouched state and the raised error. -/
def execute (s : WState) (robot action : String)
    (direction item_id stack_id : Option String) (x y z : Option ℚ) :
    WState × Option WErr :=
  let robot_key := pyLower (pyStrip robot)
  match robotIdMap robot_key with
  | none => (s, some .unknownRobot)
  | some robot_id =>
    let c := getRobotPosition s robot_id
    let act := normAct action
    if act = "pick" then execPick s robot_key robot_id item_id
    else if act = "drop" then execDrop s robot_key robot_id item_id x z
    else if act = "pick_from_stack" then execPickFromStack s robot_key robot_id stack_id
    else if act = "place_on_stack" then execPlaceOnStack s robot_key robot_id item_id stack_id
    else execMove s robot_key robot_id c direction x y z

/-! ## Post-condition verifier (`verify_warehouse_state_after_command`) -/

/-- The failing checks of `verify_warehouse_state_after_command`, one
constructor per `return False, reason` site. -/
inductive VErr where
  | unknownRobot
  | robotNotInState
  | moveOutOfBounds
  | moveTargetMismatch
  | directionalMismatch
  | notCarryingAfterPick
  | carryingWrongItem
  | pickItemMissing
  | pickItemPosMismatch
  | pickItemStillStacked
  | stillCarryingAfterDrop
  | dropItemMissing
  | dropItemNotOnFloor
  | dropItemOnStack
  | dropItemWrongPos
  | notHoldingAfterPickStack
  | heldItemMissing
  | heldItemStillStacked
  | placeItemMissing
  | placeItemNotOnStack
  | placeItemYNotPositive
  | stillHoldingAfterPlace
deriving DecidableEq, Repr

/-- Normalisation of `action` in the verifier:
`(action or "move").strip().lower()` (note: unlike the executor, a
whitespace-only action normalises to `""` here, not to `"move"`). -/
def normActV (action : String) : String :=
  pyLower (pyStrip (if action = "" then "move" else action))

/-- The verifier's tolerance `0.01`. -/
def vTol : ℚ := 1 / 100

/-- Tolerance comparison `abs(a - b) > 0.01` of the verifier. -/
def offBy (a b : ℚ) : Bool :=
  decide (|a - b| > vTol)

/-- The `move` checks of the verifier (source lines 305–339). -/
def verifyMove (robot_id : String) (pos : V3) (prev_pos : Option V3)
    (direction : Option String) (x y z : Option ℚ) : Option VErr :=
  if ¬ isWithinBounds pos.x pos.y pos.z then some .moveOutOfBounds
  else
    let absFail : Bool :=
      if x ≠ none ∧ z ≠ none then
        let exp_x := x.getD 0
        let exp_z := z.getD 0
        let exp_y := match y with
          | some v => v
          | none =>
            if robot_id = "ugv-1" then 0
            else if robot_id = "uav-1" then 5
            else match prev_pos with
              | some pp => pp.y
              | none => pos.y
        offBy pos.x exp_x || offBy pos.y exp_y || offBy pos.z exp_z
      else false
    if absFail then some .moveTargetMismatch
    else
      let dirFail : Bool :=
        match prev_pos with
        | some pp =>
          if truthy direction then
            let step : ℚ := 5
            let d := pyLower (pyStrip (direction.getD ""))
            let dx : ℚ := if d = "east" then step else if d = "west" then -step else 0
            let dz : ℚ := if d = "north" then -step else if d = "south" then step else 0
            let exp_x := pp.x + dx
            let exp_z := pp.z + dz
            let exp_y := if robot_id = "arm-1" then pp.y else if robot_id = "ugv-1" then 0 else 5
            offBy pos.x exp_x || offBy pos.y exp_y || offBy pos.z exp_z
          else false
        | none => false
      if dirFail then some .directionalMismatch else none

/-- `verify_warehouse_state_after_command`: `none` models `(True, "")`. -/
def verifyCmd (robot_key action : String) (s : WState) (prev : Option WState)
    (direction item_id stack_id : Option String) (x y z : Option ℚ) : Option VErr :=
  match robotIdMap (pyLower (pyStrip robot_key)) with
  | none => some .unknownRobot
  | some robot_id =>
    match findRobot s robot_id with
    | none => some .robotNotInState
    | some r =>
      let pos := r.position
      let task := r.current_task.getD ""
      let act := normActV action
      let prev_pos : Option V3 := match prev with
        | some ps => (findRobot ps robot_id).map (·.position)
        | none => none
      if act = "move" then
        verifyMove robot_id pos prev_pos direction x y z
      else if act = "pick" then
        if ¬ truthy item_id then none
        else if ¬ pyStartsWith task "carrying_" then some .notCarryingAfterPick
        else
          let carried := String.mk (trimChars (removeAll "carrying_".data task.data))
          if carried ≠ item_id.getD "" then some .carryingWrongItem
          else match findItem s (item_id.getD "") with
            | none => some .pickItemMissing
            | some it =>
              if offBy pos.x it.position.x || offBy pos.y it.position.y ||
                  offBy pos.z it.position.z then some .pickItemPosMismatch
              else if it.stack_id ≠ none then some .pickItemStillStacked
              else none
      else if act = "drop" then
        if truthy item_id ∧ task ≠ "" ∧ pyStartsWith task "carrying_" then
          some .stillCarryingAfterDrop
        else if truthy item_id ∧ x ≠ none ∧ z ≠ none then
          match findItem s (item_id.getD "") with
          | none => some .dropItemMissing
          | some it =>
            if offBy it.position.y 0 then some .dropItemNotOnFloor
            else if it.stack_id ≠ none then some .dropItemOnStack
            else if offBy it.position.x (x.getD 0) || offBy it.position.z (z.getD 0) then
              some .dropItemWrongPos
            else none
        else none
      else if act = "pick_from_stack" then
        if ¬ pyStartsWith task "holding_" then some .notHoldingAfterPickStack
        else
          let held := String.mk (trimChars (removeAll "holding_".data task.data))
          match findItem s held with
          | none => some .heldItemMissing
          | some it =>
            if it.stack_id ≠ none then some .heldItemStillStacked else none
      else if act = "place_on_stack" then
        let itemFail : Option VErr :=
          if truthy item_id ∧ truthy stack_id then
            match findItem s (item_id.getD "") with
            | none => some .placeItemMissing
            | some it =>
              if it.stack_id ≠ stack_id then some .placeItemNotOnStack
              else if it.position.y ≤ 0 then some .placeItemYNotPositive
              else none
          else none
        match itemFail with
        | some e => some e
        | none =>
          if task ≠ "" ∧ pyStartsWith task "holding_" then some .stillHoldingAfterPlace
          else none
      else none

/-! ## Seed state (`state_store._init_default_state`) -/

/-- The default robots and items created at process start. -/
def seedState : WState :=
  { robots :=
      [ { id := "uav-1", rtype := "uav", position := ⟨10, 5, 5⟩,
          orientation := ⟨0, 0, 0⟩, status := some "idle", current_task := none },
        { id := "ugv-1", rtype := "ugv", position := ⟨5, 0, 5⟩,
          orientation := ⟨0, 0, 0⟩, status := some "idle", current_task := none },
        { id := "arm-1", rtype := "arm", position := ⟨25, 0, 10⟩,
          orientation := ⟨0, 0, 0⟩, status := some "idle", current_task := none } ]
    items :=
      [ { id := "item-1", position := ⟨8, 0, 6⟩, stack_id := none },
        { id := "item-2", position := ⟨12, 0, 12⟩, stack_id := none },
        { id := "item-3", position := ⟨25, 0, 10⟩, stack_id := some "stack-1" } ] }

/-- Spec example scenario 1: `move(ground, direction="north")` from
`(5,0,5)` lands at `(5,0,0)`. -/
example :
    (execute seedState "ugv" "move" (some "north") none none none none none).2 = none ∧
    getRobotPosition (execute seedState "ugv" "move" (some "north") none none none none none).1
      "ugv-1" = ⟨5, 0, 0⟩ := by
  with_unfolding_all decide

/-- Spec example scenario 2 (first half): picking `item-1` teleports the
ground robot to `(8,0,6)` and records `carrying_item-1`. -/
example :
    (execute seedState "ugv" "pick" none (some "item-1") none none none none).2 = none ∧
    getRobotPosition (execute seedState "ugv" "pick" none (some "item-1") none none none none).1
      "ugv-1" = ⟨8, 0, 6⟩ ∧
    (findRobot (execute seedState "ugv" "pick" none (some "item-1") none none none none).1
      "ugv-1").map Robot.current_task = some (some "carrying_item-1") := by
  with_unfolding_all decide

/-- Spec example scenario 4: an invalid direction is rejected. -/
example :
    execute seedState "uav" "move" (some "up") none none none none none =
      (seedState, some .badDirection) := by
  with_unfolding_all decide

/-! ## Direct-command parser (`src/agents/warehouse/direct_commands.py`)

The regexes of the source are realised as deterministic matchers over the
normalised message.  After `re.sub(r"\s+", " ", msg.strip().lower())` the
message contains only single interior spaces, so splitting on `' '`
(keeping empty segments) is a lossless view of the string and the
token-aligned patterns are matched on that view; the `drop` pattern, whose
separators are not token-aligned (`\s*`, optional parentheses and commas),
is matched on the character list directly.  The optional regex groups
(`(?:from\s+)?` etc.) are realised as ordered alternatives that prefer the
consumed variant, exactly like the backtracking of `re.match`; for the
groups whose skipped variant can never rescue a failed consumed variant
(leading `move`/`the` before a robot name, first-set disjointness), a
plain conditional strip is used. -/

/-- The structured result of `parse_direct_warehouse_command`: the kwargs
dictionary for `execute_warehouse_command`. -/
structure ParsedCmd where
  robot : String
  action : String
  direction : Option String
  item_id : Option String
  stack_id : Option String
  x : Option ℚ
  y : Option ℚ
  z : Option ℚ
deriving DecidableEq, Repr

/-- `direct_commands.normalize_robot`. -/
def normalizeRobot (token : String) : Option String :=
  let t := pyLower (pyStrip token)
  if t = "ugv" ∨ t = "ugv-1" ∨ t = "ugx" ∨ t = "ugx-1" ∨ t = "agv" ∨ t = "agv-1" then some "ugv"
  else if t = "uav" ∨ t = "uav-1" then some "uav"
  else if t = "arm" ∨ t = "arm-1" then some "arm"
  else none

/-- Replace each maximal whitespace run by a single `' '`
(`re.sub(r"\s+", " ", ...)`); `prevSpace` tracks a pending run. -/
def collapseWsAux (prevSpace : Bool) : List Char → List Char
  | [] => []
  | c :: rest =>
    if c.isWhitespace then
      if prevSpace then collapseWsAux true rest
      else ' ' :: collapseWsAux true rest
    else c :: collapseWsAux false rest

/-- Literal prefix matcher: consume `w` or fail. -/
def matchLit (w cs : List Char) : Option (List Char) :=
  if w.isPrefixOf cs then some (cs.drop w.length) else none

/-- `re.sub(r"^(please|kindly)\s+", "", msg)` on the collapsed message. -/
def stripPolite (cs : List Char) : List Char :=
  match matchLit "please ".data cs with
  | some r => r
  | none =>
    match matchLit "kindly ".data cs with
    | some r => r
    | none => cs

/-- `re.sub(r"[.!?]+$", "", msg)`. -/
def dropTrailingPunct (cs : List Char) : List Char :=
  (cs.reverse.dropWhile (fun c => c = '.' || c = '!' || c = '?')).reverse

/-- Split on `' '` keeping empty segments (lossless on the collapsed
message). -/
def splitSp : List Char → List (List Char)
  | [] => [[]]
  | c :: rest =>
    let r := splitSp rest
    if c = ' ' then [] :: r
    else match r with
      | t :: ts => (c :: t) :: ts
      | [] => [[c]]

/-- A character of the `_ID_RE` class `[a-z0-9._-]`. -/
def idChar (c : Char) : Bool :=
  ('a' ≤ c && c ≤ 'z') || c.isDigit || c = '.' || c = '_' || c = '-'

/-- A full token matching `_ID_RE` (`[a-z0-9._-]+`). -/
def idTok (t : String) : Bool :=
  t ≠ "" && t.data.all idChar

/-- Value of a digit run. -/
def digitsToNat (ds : List Char) : Nat :=
  ds.foldl (fun n c => 10 * n + (c.toNat - 48)) 0

/-- Maximal-munch parse of `_NUM_RE` (`-?\d+(?:\.\d+)?`) from the front of
a character list, returning the exact rational value (`float(...)` of the
source idealised to exact decimal arithmetic) and the rest. -/
def parseNum (cs : List Char) : Option (ℚ × List Char) :=
  let neg := match cs with
    | '-' :: _ => true
    | _ => false
  let cs1 := if neg then cs.drop 1 else cs
  let intDigits := cs1.takeWhile Char.isDigit
  let cs2 := cs1.dropWhile Char.isDigit
  if intDigits = [] then none
  else
    let ipart : ℚ := digitsToNat intDigits
    let vr : ℚ × List Char :=
      match cs2 with
      | '.' :: cs3 =>
        let fracDigits := cs3.takeWhile Char.isDigit
        if fracDigits = [] then (ipart, cs2)
        else (ipart + (digitsToNat fracDigits : ℚ) / ((10 : ℚ) ^ fracDigits.length),
          cs3.dropWhile Char.isDigit)
      | _ => (ipart, cs2)
    some (if neg then -vr.1 else vr.1, vr.2)

/-- A full token matching `_NUM_RE`, with its value. -/
def numVal (t : String) : Option ℚ :=
  match parseNum t.data with
  | some (q, []) => some q
  | _ => none

/-- The robot alternation `(ugv|ugx|agv|uav|arm)` of the move patterns. -/
def isRobotTok (t : String) : Bool :=
  t = "ugv" || t = "ugx" || t = "agv" || t = "uav" || t = "arm"

/-- The direction alternation `(north|south|east|west)`. -/
def isDirTok (t : String) : Bool :=
  t = "north" || t = "south" || t = "east" || t = "west"

/-- Strip one optional leading literal token (for the `(?:move\s+)?` and
`(?:the\s+)?` groups, whose word never doubles as a robot name, so
skipping can never rescue a failed consumed variant). -/
def stripOptTok (w : String) : List String → List String
  | [] => []
  | t :: rest => if t = w then rest else t :: rest

/-- Tail `(?:\s+move(?:\s+to)?|\s+to)?\s+(north|south|east|west)$` of the
first move pattern. -/
def p1dirTail : List String → Option String
  | [d] => if isDirTok d then some d else none
  | ["move", d] => if isDirTok d then some d else none
  | ["move", "to", d] => if isDirTok d then some d else none
  | ["to", d] => if isDirTok d then some d else none
  | _ => none

/-- Move pattern
`^(?:move\s+)?(?:the\s+)?(robot)(?:\s+move(?:\s+to)?|\s+to)?\s+(dir)$`. -/
def p1 (ts : List String) : Option (String × String) :=
  match stripOptTok "the" (stripOptTok "move" ts) with
  | r :: rest => if isRobotTok r then (p1dirTail rest).map (fun d => (r, d)) else none
  | [] => none

/-- Reversed move pattern `^move\s+(dir)\s+(?:the\s+)?(robot)$`. -/
def p2 (ts : List String) : Option (String × String) :=
  match ts with
  | "move" :: d :: rest =>
    if isDirTok d then
      match stripOptTok "the" rest with
      | [r] => if isRobotTok r then some (r, d) else none
      | _ => none
    else none
  | _ => none

/-- The numeric tail `NUM\s+NUM(?:\s+NUM)?$` of the absolute move
pattern. -/
def p3nums : List String → Option (ℚ × ℚ × Option ℚ)
  | [a, b] =>
    match numVal a, numVal b with
    | some qa, some qb => some (qa, qb, none)
    | _, _ => none
  | [a, b, c] =>
    match numVal a, numVal b, numVal c with
    | some qa, some qb, some qc => some (qa, qb, some qc)
    | _, _, _ => none
  | _ => none

/-- Tail `(?:\s+move)?\s+to\s+NUM\s+NUM(?:\s+NUM)?$` after the robot of
the absolute move pattern. -/
def p3tail : List String → Option (ℚ × ℚ × Option ℚ)
  | "to" :: rest => p3nums rest
  | "move" :: "to" :: rest => p3nums rest
  | _ => none

/-- Absolute-coordinate move pattern
`^(?:move\s+)?(?:the\s+)?(robot)(?:\s+move)?\s+to\s+NUM\s+NUM(?:\s+NUM)?$`. -/
def p3 (ts : List String) : Option (String × ℚ × ℚ × Option ℚ) :=
  match stripOptTok "the" (stripOptTok "move" ts) with
  | r :: rest => if isRobotTok r then (p3tail rest).map (fun v => (r, v)) else none
  | [] => none

/-- Exactly one remaining `_ID_RE` token before the end anchor. -/
def idOnly : List String → Option String
  | [x] => if idTok x then some x else none
  | _ => none

/-- `(?:stack\s+)?ID$` with the backtracking preference of `re`. -/
def stackOptTail (ts : List String) : Option String :=
  (match ts with
    | "stack" :: rest => idOnly rest
    | _ => none) <|> idOnly ts

/-- `(?:from\s+)?(?:stack\s+)?ID$` with the backtracking preference of
`re`. -/
def fromOptTail (ts : List String) : Option String :=
  (match ts with
    | "from" :: rest => stackOptTail rest
    | _ => none) <|> stackOptTail ts

/-- Arm stack-pick pattern
`^arm\s+(pick|grab|take|get)\s+(?:from\s+)?(?:stack\s+)?ID$`. -/
def p4a (ts : List String) : Option String :=
  match ts with
  | "arm" :: v :: rest =>
    if v = "pick" || v = "grab" || v = "take" || v = "get" then fromOptTail rest else none
  | _ => none

/-- Stack-pick pattern `^(pick|grab|take|get)\s+from\s+stack\s+ID$`. -/
def p4b (ts : List String) : Option String :=
  match ts with
  | [v, "from", "stack", x] =>
    if (v = "pick" || v = "grab" || v = "take" || v = "get") && idTok x then some x else none
  | _ => none

/-- Core of the place pattern after the optional `arm`:
`(place|put|stack|add)\s+ID\s+(on|onto|to)\s+stack\s+ID$`. -/
def p5core : List String → Option (String × String)
  | [v, i, prep, "stack", s2] =>
    if (v = "place" || v = "put" || v = "stack" || v = "add") && idTok i &&
        (prep = "on" || prep = "onto" || prep = "to") && idTok s2 then
      some (i, s2)
    else none
  | _ => none

/-- Place pattern `^(?:arm\s+)?(place|put|stack|add)\s+ID\s+(on|onto|to)\s+stack\s+ID$`. -/
def p5 (ts : List String) : Option (String × String) :=
  (match ts with
    | "arm" :: rest => p5core rest
    | _ => none) <|> p5core ts

/-- The coordinate tail `(?:at|to)?\s*\(?\s*NUM\s*[, ]\s*NUM\s*\)?$` of the
drop pattern, on characters.  The separator `\s*[, ]\s*` is matched as: a
comma (optionally space-padded on either side) or a single space — on the
collapsed message these are the only forms the regex can accept. -/
def p6coords (cs : List Char) : Option (ℚ × ℚ) :=
  let cs3 := match matchLit "at".data cs with
    | some r => r
    | none =>
      match matchLit "to".data cs with
      | some r => r
      | none => cs
  let cs4 := cs3.dropWhile Char.isWhitespace
  let cs5 := match cs4 with
    | '(' :: r => r
    | _ => cs4
  let cs6 := cs5.dropWhile Char.isWhitespace
  match parseNum cs6 with
  | none => none
  | some (q1, cs7) =>
    let sep : Option (List Char) := match cs7 with
      | ',' :: r => some (r.dropWhile Char.isWhitespace)
      | ' ' :: ',' :: r => some (r.dropWhile Char.isWhitespace)
      | ' ' :: r => some r
      | _ => none
    match sep with
    | none => none
    | some cs8 =>
      match parseNum cs8 with
      | none => none
      | some (q2, cs9) =>
        let cs10 := cs9.dropWhile Char.isWhitespace
        let cs11 := match cs10 with
          | ')' :: r => r
          | _ => cs10
        if cs11 = [] then some (q1, q2) else none

/-- Drop pattern
`^(?:(?:ugv|ugx)\s+)?(drop|place|put|release)\s+ID\s+(?:at|to)?\s*\(?\s*NUM\s*[, ]\s*NUM\s*\)?$`,
matched on characters from the verb onward. -/
def p6afterRobot (cs : List Char) : Option (String × ℚ × ℚ) :=
  let verbRest : Option (List Char) :=
    match matchLit "drop ".data cs with
    | some r => some r
    | none =>
      match matchLit "place ".data cs with
      | some r => some r
      | none =>
        match matchLit "put ".data cs with
        | some r => some r
        | none => matchLit "release ".data cs
  match verbRest with
  | none => none
  | some cs1 =>
    let idc := cs1.takeWhile idChar
    let cs2 := cs1.dropWhile idChar
    if idc = [] then none
    else
      match cs2 with
      | ' ' :: cs3 => (p6coords cs3).map (fun qq => (String.mk idc, qq))
      | _ => none

/-- Full drop pattern including the optional leading `ugv`/`ugx`. -/
def p6 (cs : List Char) : Option (String × ℚ × ℚ) :=
  (match matchLit "ugv ".data cs with
    | some r => p6afterRobot r
    | none =>
      match matchLit "ugx ".data cs with
      | some r => p6afterRobot r
      | none => none) <|> p6afterRobot cs

/-- `(?:item\s+)?ID$` of the pick pattern. -/
def p7id (ts : List String) : Option String :=
  (match ts with
    | "item" :: rest => idOnly rest
    | _ => none) <|> idOnly ts

/-- `(?:\s+up)?\s+(?:item\s+)?ID$` of the pick pattern. -/
def p7up (ts : List String) : Option String :=
  (match ts with
    | "up" :: rest => p7id rest
    | _ => none) <|> p7id ts

/-- `(pick|grab|collect|take|get)(?:\s+up)?\s+(?:item\s+)?ID$`. -/
def p7verb : List String → Option String
  | v :: rest =>
    if v = "pick" || v = "grab" || v = "collect" || v = "take" || v = "get" then p7up rest
    else none
  | [] => none

/-- `(?:move\s+)?` before the pick verb. -/
def p7move (ts : List String) : Option String :=
  (match ts with
    | "move" :: rest => p7verb rest
    | _ => none) <|> p7verb ts

/-- Pick pattern
`^(?:(?:ugv|ugx)\s+)?(?:move\s+)?(pick|grab|collect|take|get)(?:\s+up)?\s+(?:item\s+)?ID$`. -/
def p7 (ts : List String) : Option String :=
  (match ts with
    | r :: rest => if r = "ugv" || r = "ugx" then p7move rest else none
    | [] => none) <|> p7move ts

/-- The three move patterns (directional, reversed directional, absolute
coordinates) applied in source order to the token view; in the absolute
pattern two numbers are assigned to `x`/`z` and three numbers to
`x`/`y`/`z` in order (`direct_commands.py` lines 53–66). -/
def parseMoveTokens (ts : List String) : Option ParsedCmd :=
  (match p1 ts with
    | some (r, d) =>
      (normalizeRobot r).map (fun robot => (⟨robot, "move", some d, none, none, none, none, none⟩ : ParsedCmd))
    | none => none) <|>
  (match p2 ts with
    | some (r, d) =>
      (normalizeRobot r).map (fun robot => (⟨robot, "move", some d, none, none, none, none, none⟩ : ParsedCmd))
    | none => none) <|>
  (match p3 ts with
    | some (r, qa, qb, qc) =>
      (normalizeRobot r).map (fun robot =>
        match qc with
        | none => (⟨robot, "move", none, none, none, some qa, none, some qb⟩ : ParsedCmd)
        | some q3 => (⟨robot, "move", none, none, none, some qa, some qb, some q3⟩ : ParsedCmd))
    | none => none)

/-- `parse_direct_warehouse_command`: pattern attempts in source order,
falling through on a failed match or a failed `normalize_robot`. -/
def parseDirect (message : String) : Option ParsedCmd :=
  let msg := collapseWsAux false (pyLower (pyStrip message)).data
  let msg := stripPolite msg
  let msg := dropTrailingPunct msg
  if msg = [] then none
  else if containsSub "toward".data msg || containsSub "towards".data msg then none
  else if containsSub "scan".data msg || containsSub "mapping".data msg ||
      containsSub "map ".data msg || containsSub "find items".data msg ||
      containsSub "find item".data msg then none
  else
    let ts := (splitSp msg).map String.mk
    parseMoveTokens ts <|>
    (match p4a ts with
      | some sid => some (⟨"arm", "pick_from_stack", none, none, some sid, none, none, none⟩ : ParsedCmd)
      | none => none) <|>
    (match p4b ts with
      | some sid => some (⟨"arm", "pick_from_stack", none, none, some sid, none, none, none⟩ : ParsedCmd)
      | none => none) <|>
    (match p5 ts with
      | some (iid, sid) => some (⟨"arm", "place_on_stack", none, some iid, some sid, none, none, none⟩ : ParsedCmd)
      | none => none) <|>
    (match p6 msg with
      | some (iid, qx, qz) => some (⟨"ugv", "drop", none, some iid, none, some qx, none, some qz⟩ : ParsedCmd)
      | none => none) <|>
    (if containsSub "stack".data msg then none
      else match p7 ts with
        | some iid => some (⟨"ugv", "pick", none, some iid, none, none, none, none⟩ : ParsedCmd)
        | none => none)

example : parseDirect "move uav south" =
    some ⟨"uav", "move", some "south", none, none, none, none, none⟩ := by decide
example : parseDirect "move the ugv north" =
    some ⟨"ugv", "move", some "north", none, none, none, none, none⟩ := by decide
example : parseDirect "move south ugx" =
    some ⟨"ugv", "move", some "south", none, none, none, none, none⟩ := by decide
example : parseDirect "move agv to south" =
    some ⟨"ugv", "move", some "south", none, none, none, none, none⟩ := by decide
example : parseDirect "pick up item-1" =
    some ⟨"ugv", "pick", none, some "item-1", none, none, none, none⟩ := by decide
example : parseDirect "put item-1 at 10 5" =
    some ⟨"ugv", "drop", none, some "item-1", none, some 10, none, some 5⟩ := by
  with_unfolding_all decide
example : parseDirect "arm pick stack-1" =
    some ⟨"arm", "pick_from_stack", none, none, some "stack-1", none, none, none⟩ := by decide
example : parseDirect "put item-3 on stack stack-1" =
    some ⟨"arm", "place_on_stack", none, some "item-3", some "stack-1", none, none, none⟩ := by
  decide
example : parseDirect "move towards arm" = none := by decide
example : parseDirect "scan the area" = none := by decide
example : parseDirect "Please move the UGV north!" =
    some ⟨"ugv", "move", some "north", none, none, none, none, none⟩ := by decide

/-! ## Store lemmas -/

theorem robots_upsertItem (s : WState) (iid : String) (p : V3) (sid : Option String) :
    (upsertItem s iid p sid).robots = s.robots := by
  unfold upsertItem
  cases h : updateFirstItem iid (fun it => { it with position := p, stack_id := sid }) s.items <;>
    rfl

theorem items_upsertRobot (s : WState) (rid : String) (a : Option String) (b c : Option V3)
    (st tk : Option (Option String)) : (upsertRobot s rid a b c st tk).items = s.items := by
  unfold upsertRobot
  cases h : updateFirstRobot rid (mergeRobot a b c st tk) s.robots <;> rfl

theorem updateFirstRobot_eq_none {rid : String} {f : Robot → Robot} :
    ∀ {l : List Robot}, updateFirstRobot rid f l = none →
      List.find? (fun x => x.id == rid) l = none := by
  intro l
  induction l with
  | nil => intro _; rfl
  | cons a rest ih =>
    intro h
    unfold updateFirstRobot at h
    by_cases ha : (a.id == rid) = true
    · simp [ha] at h
    · rw [if_neg (by simp [ha])] at h
      rw [List.find?_cons_of_neg _ (by simp [ha])]
      cases hh : updateFirstRobot rid f rest with
      | none => exact ih hh
      | some rest' => rw [hh] at h; simp [Option.map] at h

theorem find?_updateFirstRobot_self {rid : String} {f : Robot → Robot}
    (hf : ∀ r, (f r).id = r.id) :
    ∀ {l l' : List Robot}, updateFirstRobot rid f l = some l' →
      ∃ r, List.find? (fun x => x.id == rid) l = some r ∧
        List.find? (fun x => x.id == rid) l' = some (f r) := by
  intro l
  induction l with
  | nil => intro l' h; simp [updateFirstRobot] at h
  | cons a rest ih =>
    intro l' h
    unfold updateFirstRobot at h
    by_cases ha : (a.id == rid) = true
    · rw [if_pos ha] at h
      injection h with h
      refine ⟨a, List.find?_cons_of_pos _ ha, ?_⟩
      rw [← h]
      exact List.find?_cons_of_pos _ (by rw [hf a]; exact ha)
    · rw [if_neg (by simp [ha])] at h
      cases hh : updateFirstRobot rid f rest with
      | none => rw [hh] at h; simp [Option.map] at h
      | some rest' =>
        rw [hh] at h
        simp only [Option.map] at h
        injection h with h
        obtain ⟨r, h1, h2⟩ := ih hh
        refine ⟨r, ?_, ?_⟩
        · rw [List.find?_cons_of_neg _ (by simp [ha])]; exact h1
        · rw [← h, List.find?_cons_of_neg _ (by simp [ha])]; exact h2

theorem find?_updateFirstRobot_other {rid rid' : String} (hne : rid' ≠ rid)
    {f : Robot → Robot} (hf : ∀ r, (f r).id = r.id) :
    ∀ {l l' : List Robot}, updateFirstRobot rid f l = some l' →
      List.find? (fun x => x.id == rid') l' = List.find? (fun x => x.id == rid') l := by
  intro l
  induction l with
  | nil => intro l' h; simp [updateFirstRobot] at h
  | cons a rest ih =>
    intro l' h
    unfold updateFirstRobot at h
    by_cases ha : (a.id == rid) = true
    · rw [if_pos ha] at h
      injection h with h
      have haid : a.id = rid := by simpa using ha
      rw [← h]
      by_cases hb : (a.id == rid') = true
      · exact absurd (by simpa using hb : a.id = rid') (by rw [haid]; exact fun hc => hne hc.symm)
      · rw [List.find?_cons_of_neg _ (by rw [hf a]; simpa using hb),
          List.find?_cons_of_neg _ (by simpa using hb)]
    · rw [if_neg (by simp [ha])] at h
      cases hh : updateFirstRobot rid f rest with
      | none => rw [hh] at h; simp [Option.map] at h
      | some rest' =>
        rw [hh] at h
        simp only [Option.map] at h
        injection h with h
        rw [← h]
        by_cases hb : (a.id == rid') = true
        · have e1 : List.find? (fun x => x.id == rid') (a :: rest') = some a :=
            List.find?_cons_of_pos _ hb
          have e2 : List.find? (fun x => x.id == rid') (a :: rest) = some a :=
            List.find?_cons_of_pos _ hb
          rw [e1, e2]
        · rw [List.find?_cons_of_neg _ (by simpa using hb),
            List.find?_cons_of_neg _ (by simpa using hb)]
          exact ih hh

theorem find?_append_of_none {α : Type} {p : α → Bool} {l₁ l₂ : List α}
    (h : l₁.find? p = none) : (l₁ ++ l₂).find? p = l₂.find? p := by
  induction l₁ with
  | nil => rfl
  | cons a rest ih =>
    by_cases ha : p a = true
    · rw [List.find?_cons_of_pos _ ha] at h; exact absurd h (by simp)
    · rw [List.find?_cons_of_neg _ (by simp [ha])] at h
      rw [List.cons_append, List.find?_cons_of_neg _ (by simp [ha])]
      exact ih h

theorem updateFirstItem_eq_none {iid : String} {f : Item → Item} :
    ∀ {l : List Item}, updateFirstItem iid f l = none →
      List.find? (fun x => x.id == iid) l = none := by
  intro l
  induction l with
  | nil => intro _; rfl
  | cons a rest ih =>
    intro h
    unfold updateFirstItem at h
    by_cases ha : (a.id == iid) = true
    · simp [ha] at h
    · rw [if_neg (by simp [ha])] at h
      rw [List.find?_cons_of_neg _ (by simp [ha])]
      cases hh : updateFirstItem iid f rest with
      | none => exact ih hh
      | some rest' => rw [hh] at h; simp [Option.map] at h

theorem find?_updateFirstItem_self {iid : String} {f : Item → Item}
    (hf : ∀ it, (f it).id = it.id) :
    ∀ {l l' : List Item}, updateFirstItem iid f l = some l' →
      ∃ it, List.find? (fun x => x.id == iid) l = some it ∧
        List.find? (fun x => x.id == iid) l' = some (f it) := by
  intro l
  induction l with
  | nil => intro l' h; simp [updateFirstItem] at h
  | cons a rest ih =>
    intro l' h
    unfold updateFirstItem at h
    by_cases ha : (a.id == iid) = true
    · rw [if_pos ha] at h
      injection h with h
      refine ⟨a, List.find?_cons_of_pos _ ha, ?_⟩
      rw [← h]
      exact List.find?_cons_of_pos _ (by rw [hf a]; exact ha)
    · rw [if_neg (by simp [ha])] at h
      cases hh : updateFirstItem iid f rest with
      | none => rw [hh] at h; simp [Option.map] at h
      | some rest' =>
        rw [hh] at h
        simp only [Option.map] at h
        injection h with h
        obtain ⟨it, h1, h2⟩ := ih hh
        refine ⟨it, ?_, ?_⟩
        · rw [List.find?_cons_of_neg _ (by simp [ha])]; exact h1
        · rw [← h, List.find?_cons_of_neg _ (by simp [ha])]; exact h2

theorem find?_updateFirstItem_other {iid iid' : String} (hne : iid' ≠ iid)
    {f : Item → Item} (hf : ∀ it, (f it).id = it.id) :
    ∀ {l l' : List Item}, updateFirstItem iid f l = some l' →
      List.find? (fun x => x.id == iid') l' = List.find? (fun x => x.id == iid') l := by
  intro l
  induction l with
  | nil => intro l' h; simp [updateFirstItem] at h
  | cons a rest ih =>
    intro l' h
    unfold updateFirstItem at h
    by_cases ha : (a.id == iid) = true
    · rw [if_pos ha] at h
      injection h with h
      have haid : a.id = iid := by simpa using ha
      rw [← h]
      by_cases hb : (a.id == iid') = true
      · exact absurd (by simpa using hb : a.id = iid') (by rw [haid]; exact fun hc => hne hc.symm)
      · rw [List.find?_cons_of_neg _ (by rw [hf a]; simpa using hb),
          List.find?_cons_of_neg _ (by simpa using hb)]
    · rw [if_neg (by simp [ha])] at h
      cases hh : updateFirstItem iid f rest with
      | none => rw [hh] at h; simp [Option.map] at h
      | some rest' =>
        rw [hh] at h
        simp only [Option.map] at h
        injection h with h
        rw [← h]
        by_cases hb : (a.id == iid') = true
        · have e1 : List.find? (fun x => x.id == iid') (a :: rest') = some a :=
            List.find?_cons_of_pos _ hb
          have e2 : List.find? (fun x => x.id == iid') (a :: rest) = some a :=
            List.find?_cons_of_pos _ hb
          rw [e1, e2]
        · rw [List.find?_cons_of_neg _ (by simpa using hb),
            List.find?_cons_of_neg _ (by simpa using hb)]
          exact ih hh

/-! ## Upsert characterisation lemmas -/

theorem mergeRobot_id (a : Option String) (b c : Option V3)
    (st tk : Option (Option String)) (r : Robot) :
    (mergeRobot a b c st tk r).id = r.id := rfl

theorem itemSet_id (p : V3) (sid : Option String) (it : Item) :
    (({ it with position := p, stack_id := sid } : Item)).id = it.id := rfl

theorem findRobot_upsertRobot_self {s : WState} {rid : String} {r : Robot}
    (h : findRobot s rid = some r) (a : Option String) (b c : Option V3)
    (st tk : Option (Option String)) :
    findRobot (upsertRobot s rid a b c st tk) rid = some (mergeRobot a b c st tk r) := by
  unfold findRobot at h
  unfold upsertRobot
  cases hu : updateFirstRobot rid (mergeRobot a b c st tk) s.robots with
  | none => rw [updateFirstRobot_eq_none hu] at h; cases h
  | some rs =>
    obtain ⟨r0, h1, h2⟩ := find?_updateFirstRobot_self (mergeRobot_id a b c st tk) hu
    rw [h] at h1
    injection h1 with h1
    unfold findRobot
    simpa [← h1] using h2

theorem findRobot_upsertRobot_absent {s : WState} {rid : String}
    (h : findRobot s rid = none) (a : Option String) (b c : Option V3)
    (st tk : Option (Option String)) :
    findRobot (upsertRobot s rid a b c st tk) rid = some (newRobot rid a b c st tk) := by
  unfold findRobot at h ⊢
  unfold upsertRobot
  cases hu : updateFirstRobot rid (mergeRobot a b c st tk) s.robots with
  | some rs =>
    obtain ⟨r0, h1, _⟩ := find?_updateFirstRobot_self (mergeRobot_id a b c st tk) hu
    rw [h] at h1; cases h1
  | none =>
    show List.find? _ (s.robots ++ [newRobot rid a b c st tk]) = _
    rw [find?_append_of_none h]
    exact List.find?_cons_of_pos _ (by simp [newRobot])

theorem findRobot_upsertRobot_other {s : WState} {rid rid' : String} (hne : rid' ≠ rid)
    (a : Option String) (b c : Option V3) (st tk : Option (Option String)) :
    findRobot (upsertRobot s rid a b c st tk) rid' = findRobot s rid' := by
  unfold findRobot upsertRobot
  cases hu : updateFirstRobot rid (mergeRobot a b c st tk) s.robots with
  | some rs => exact find?_updateFirstRobot_other hne (mergeRobot_id a b c st tk) hu
  | none =>
    show List.find? _ (s.robots ++ [newRobot rid a b c st tk]) = _
    by_cases hfind : List.find? (fun x => x.id == rid') s.robots = none
    · rw [find?_append_of_none hfind, hfind]
      rw [List.find?_cons_of_neg _ (by simp [newRobot]; exact fun hc => hne hc.symm)]
      rfl
    · cases hf : List.find? (fun x => x.id == rid') s.robots with
      | none => exact absurd hf hfind
      | some r =>
        rw [List.find?_append]
        rw [hf]
        rfl

theorem findItem_upsertItem_self {s : WState} {iid : String} {it : Item}
    (h : findItem s iid = some it) (p : V3) (sid : Option String) :
    findItem (upsertItem s iid p sid) iid = some { it with position := p, stack_id := sid } := by
  unfold findItem at h
  unfold upsertItem
  cases hu : updateFirstItem iid (fun j => { j with position := p, stack_id := sid }) s.items with
  | none => rw [updateFirstItem_eq_none hu] at h; cases h
  | some its =>
    obtain ⟨it0, h1, h2⟩ := find?_updateFirstItem_self (itemSet_id p sid) hu
    rw [h] at h1
    injection h1 with h1
    unfold findItem
    simpa [← h1] using h2

theorem findItem_upsertItem_absent {s : WState} {iid : String}
    (h : findItem s iid = none) (p : V3) (sid : Option String) :
    findItem (upsertItem s iid p sid) iid =
      some { id := iid, position := p, stack_id := sid } := by
  unfold findItem at h ⊢
  unfold upsertItem
  cases hu : updateFirstItem iid (fun j => { j with position := p, stack_id := sid }) s.items with
  | some its =>
    obtain ⟨it0, h1, _⟩ := find?_updateFirstItem_self (itemSet_id p sid) hu
    rw [h] at h1; cases h1
  | none =>
    show List.find? _ (s.items ++ [_]) = _
    rw [find?_append_of_none h]
    exact List.find?_cons_of_pos _ (by simp)

theorem findItem_upsertItem_other {s : WState} {iid iid' : String} (hne : iid' ≠ iid)
    (p : V3) (sid : Option String) :
    findItem (upsertItem s iid p sid) iid' = findItem s iid' := by
  unfold findItem upsertItem
  cases hu : updateFirstItem iid (fun j => { j with position := p, stack_id := sid }) s.items with
  | some its => exact find?_updateFirstItem_other hne (itemSet_id p sid) hu
  | none =>
    show List.find? _ (s.items ++ [_]) = _
    by_cases hfind : List.find? (fun x => x.id == iid') s.items = none
    · rw [find?_append_of_none hfind, hfind]
      rw [List.find?_cons_of_neg _ (by simp; exact fun hc => hne hc.symm)]
      rfl
    · cases hf : List.find? (fun x => x.id == iid') s.items with
      | none => exact absurd hf hfind
      | some j =>
        rw [List.find?_append]
        rw [hf]
        rfl

theorem findRobot_upsertItem (s : WState) (iid : String) (p : V3) (sid : Option String)
    (rid : String) : findRobot (upsertItem s iid p sid) rid = findRobot s rid := by
  unfold findRobot
  rw [robots_upsertItem]

theorem findItem_upsertRobot (s : WState) (rid : String) (a : Option String)
    (b c : Option V3) (st tk : Option (Option String)) (iid : String) :
    findItem (upsertRobot s rid a b c st tk) iid = findItem s iid := by
  unfold findItem
  rw [items_upsertRobot]

theorem mergeRobot_position (q : V3) (r : Robot) :
    mergeRobot none (some q) none none none r = { r with position := q } := rfl

theorem mergeRobot_status_task (st tk : Option String) (r : Robot) :
    mergeRobot none none none (some st) (some tk) r =
      { r with status := st, current_task := tk } := rfl

/-! ## Error atomicity: every raise site returns the untouched state -/

theorem execPick_error {s : WState} {k rid : String} {iopt : Option String}
    {s' : WState} {e : WErr} (h : execPick s k rid iopt = (s', some e)) : s' = s := by
  unfold execPick at h
  repeat' first
    | split at h
    | simp only [Prod.mk.injEq] at h
  all_goals first
    | exact h.1.symm
    | exact absurd h.2 (by simp)

theorem execDrop_error {s : WState} {k rid : String} {iopt : Option String}
    {x z : Option ℚ} {s' : WState} {e : WErr}
    (h : execDrop s k rid iopt x z = (s', some e)) : s' = s := by
  unfold execDrop at h
  repeat' first
    | split at h
    | simp only [Prod.mk.injEq] at h
  all_goals first
    | exact h.1.symm
    | exact absurd h.2 (by simp)

theorem execPickFromStack_error {s : WState} {k rid : String} {sopt : Option String}
    {s' : WState} {e : WErr} (h : execPickFromStack s k rid sopt = (s', some e)) : s' = s := by
  unfold execPickFromStack at h
  repeat' first
    | split at h
    | simp only [Prod.mk.injEq] at h
  all_goals first
    | exact h.1.symm
    | exact absurd h.2 (by simp)

theorem execPlaceOnStack_error {s : WState} {k rid : String} {iopt sopt : Option String}
    {s' : WState} {e : WErr} (h : execPlaceOnStack s k rid iopt sopt = (s', some e)) : s' = s := by
  unfold execPlaceOnStack at h
  repeat' first
    | split at h
    | simp only [Prod.mk.injEq] at h
  all_goals first
    | exact h.1.symm
    | exact absurd h.2 (by simp)

theorem execMove_error {s : WState} {k rid : String} {c : V3} {dir : Option String}
    {x y z : Option ℚ} {s' : WState} {e : WErr}
    (h : execMove s k rid c dir x y z = (s', some e)) : s' = s := by
  unfold execMove at h
  repeat' first
    | split at h
    | simp only [Prod.mk.injEq] at h
  all_goals first
    | exact h.1.symm
    | exact absurd h.2 (by simp)

theorem execute_error_unchanged {s : WState} {robot action : String}
    {direction item_id stack_id : Option String} {x y z : Option ℚ} {s' : WState} {e : WErr}
    (h : execute s robot action direction item_id stack_id x y z = (s', some e)) : s' = s := by
  unfold execute at h
  repeat' first
    | split at h
    | simp only [Prod.mk.injEq] at h
  all_goals first
    | exact h.1.symm
    | exact execPick_error h
    | exact execDrop_error h
    | exact execPickFromStack_error h
    | exact execPlaceOnStack_error h
    | exact execMove_error h

/-- Claim C2: whenever `execute_warehouse_command` raises a validation
error (any of its raise sites, on any input), the world state after the
call is identical to the state before it: no robot or item field is
partially mutated. -/
theorem execute_error_atomic {s : WState} {robot action : String}
    {direction item_id stack_id : Option String} {x y z : Option ℚ} {s' : WState} {e : WErr}
    (h : execute s robot action direction item_id stack_id x y z = (s', some e)) : s' = s :=
  execute_error_unchanged h

/-! ## Success characterisation of the move branch -/

theorem execMove_ok {s : WState} {k rid : String} {c : V3} {dir : Option String}
    {x y z : Option ℚ} {s' : WState} (h : execMove s k rid c dir x y z = (s', none)) :
    ∃ tx ty tz : ℚ, moveTarget k c dir x y z = .inl (tx, ty, tz) ∧
      isWithinBounds tx ty tz = true ∧
      positionOccupiedByOther s rid tx ty tz 2 = none ∧
      s' = moveCommit s k rid
        (match findRobot s rid with
          | some r => r.current_task.getD ""
          | none => "") tx ty tz := by
  unfold execMove at h
  cases hmt : moveTarget k c dir x y z with
  | inr e => rw [hmt] at h; simp at h
  | inl t =>
    obtain ⟨tx, ty, tz⟩ := t
    simp only [hmt] at h
    by_cases hb : isWithinBounds tx ty tz = true
    · cases hocc : positionOccupiedByOther s rid tx ty tz 2 with
      | some occ =>
        rw [if_neg (by simp [hb]), hocc] at h
        simp at h
      | none =>
        rw [if_neg (by simp [hb]), hocc] at h
        simp only [Prod.mk.injEq] at h
        exact ⟨tx, ty, tz, rfl, hb, hocc, h.1.symm⟩
    · rw [if_pos (by simp [hb])] at h
      simp at h

/-- Position update on an existing robot. -/
theorem findRobot_updateRobotPosition_self {s : WState} {rid : String} {r : Robot}
    (hpre : findRobot s rid = some r) (p : V3) :
    findRobot (updateRobotPosition s rid p) rid = some { r with position := p } := by
  unfold updateRobotPosition
  rw [findRobot_upsertRobot_self hpre, mergeRobot_position]

/-- Status/task update on an existing robot. -/
theorem findRobot_updateRobotStatus_self {s : WState} {rid : String} {r : Robot}
    (hpre : findRobot s rid = some r) (st : String) (tk : Option String) :
    findRobot (updateRobotStatus s rid st (some tk)) rid =
      some { r with status := some st, current_task := tk } := by
  unfold updateRobotStatus
  rw [findRobot_upsertRobot_self hpre, mergeRobot_status_task]

theorem findRobot_updateRobotPosition_other {s : WState} {rid rid' : String}
    (hne : rid' ≠ rid) (p : V3) :
    findRobot (updateRobotPosition s rid p) rid' = findRobot s rid' := by
  unfold updateRobotPosition
  exact findRobot_upsertRobot_other hne none (some p) none none none

theorem findRobot_updateRobotStatus_other {s : WState} {rid rid' : String}
    (hne : rid' ≠ rid) (st : String) (tk : Option (Option String)) :
    findRobot (updateRobotStatus s rid st tk) rid' = findRobot s rid' := by
  unfold updateRobotStatus
  exact findRobot_upsertRobot_other hne none none none (some (some st)) tk

/-- The robot's record after a successful move commit: position set to the
target, and status/task updated according to the carried-item test. -/
theorem findRobot_moveCommit {s : WState} {rid : String} {r : Robot}
    (hpre : findRobot s rid = some r) (k task : String) (tx ty tz : ℚ) :
    findRobot (moveCommit s k rid task tx ty tz) rid =
      some { r with
        position := ⟨tx, ty, tz⟩
        status := some (if truthy (taskCarried task) then "working" else "idle")
        current_task := if truthy (taskCarried task) then some task else none } := by
  have h1 := findRobot_updateRobotPosition_self hpre ⟨tx, ty, tz⟩
  unfold moveCommit
  by_cases hc : truthy (taskCarried task) = true
  · rw [if_pos hc]
    by_cases hk : k = "ugv"
    · simp only [hk, eq_self_iff_true, if_true]
      rw [findRobot_updateRobotStatus_self (by rw [findRobot_upsertItem]; exact h1)]
      rw [if_pos hc, if_pos hc]
    · simp only [hk, if_false]
      rw [findRobot_updateRobotStatus_self (by rw [findRobot_upsertItem]; exact h1)]
      rw [if_pos hc, if_pos hc]
  · rw [if_neg hc]
    rw [findRobot_updateRobotStatus_self h1]
    rw [if_neg hc, if_neg hc]

/-! ## Dispatch of `execute` at the three literal robot names -/

theorem execute_uav_dispatch (s : WState) (dir i st : Option String) (x y z : Option ℚ) :
    execute s "uav" "move" dir i st x y z =
      execMove s "uav" "uav-1" (getRobotPosition s "uav-1") dir x y z := by
  with_unfolding_all rfl

theorem execute_ugv_dispatch (s : WState) (dir i st : Option String) (x y z : Option ℚ) :
    execute s "ugv" "move" dir i st x y z =
      execMove s "ugv" "ugv-1" (getRobotPosition s "ugv-1") dir x y z := by
  with_unfolding_all rfl

theorem execute_arm_dispatch (s : WState) (dir i st : Option String) (x y z : Option ℚ) :
    execute s "arm" "move" dir i st x y z =
      execMove s "arm" "arm-1" (getRobotPosition s "arm-1") dir x y z := by
  with_unfolding_all rfl

theorem getRobotPosition_of_find {s : WState} {rid : String} {r : Robot}
    (h : findRobot s rid = some r) : getRobotPosition s rid = r.position := by
  unfold getRobotPosition
  rw [h]

theorem moveTarget_north (k : String) (c : V3) :
    moveTarget k c (some "north") none none none =
      (if k = "uav" then .inl (c.x + 0, 5, c.z + -5)
       else if k = "ugv" then .inl (c.x + 0, 0, c.z + -5)
       else .inl (c.x + 0, c.y, c.z + -5)) := by
  with_unfolding_all rfl

theorem moveTarget_south (k : String) (c : V3) :
    moveTarget k c (some "south") none none none =
      (if k = "uav" then .inl (c.x + 0, 5, c.z + 5)
       else if k = "ugv" then .inl (c.x + 0, 0, c.z + 5)
       else .inl (c.x + 0, c.y, c.z + 5)) := by
  with_unfolding_all rfl

theorem moveTarget_east (k : String) (c : V3) :
    moveTarget k c (some "east") none none none =
      (if k = "uav" then .inl (c.x + 5, 5, c.z + 0)
       else if k = "ugv" then .inl (c.x + 5, 0, c.z + 0)
       else .inl (c.x + 5, c.y, c.z + 0)) := by
  with_unfolding_all rfl

theorem moveTarget_west (k : String) (c : V3) :
    moveTarget k c (some "west") none none none =
      (if k = "uav" then .inl (c.x + -5, 5, c.z + 0)
       else if k = "ugv" then .inl (c.x + -5, 0, c.z + 0)
       else .inl (c.x + -5, c.y, c.z + 0)) := by
  with_unfolding_all rfl

/-- Claim C1: for every robot in {uav, ugv, arm} and direction in
{north, south, east, west}, a successful directional `move` (no absolute
coordinates) displaces the robot exactly 5 units along the correct axis
(north = −z, south = +z, east = +x, west = −x), with the height set by the
fixed convention: 0 for the ground robot, 5 for the aerial robot, and the
arm keeps its pre-state height. -/
theorem directional_move_step (s s' : WState) (robot d rid : String) (r : Robot)
    (hrobot : robot = "uav" ∨ robot = "ugv" ∨ robot = "arm")
    (hd : d = "north" ∨ d = "south" ∨ d = "east" ∨ d = "west")
    (hrid : robotIdMap robot = some rid)
    (hpre : findRobot s rid = some r)
    (hexec : execute s robot "move" (some d) none none none none none = (s', none)) :
    ∃ r', findRobot s' rid = some r' ∧
      r'.position.x = r.position.x + (if d = "east" then 5 else if d = "west" then -5 else 0) ∧
      r'.position.z = r.position.z + (if d = "north" then -5 else if d = "south" then 5 else 0) ∧
      r'.position.y = (if robot = "ugv" then 0 else if robot = "uav" then 5 else r.position.y) := by
  rcases hrobot with rfl | rfl | rfl <;>
    [ rw [show robotIdMap "uav" = some "uav-1" from rfl] at hrid;
      rw [show robotIdMap "ugv" = some "ugv-1" from rfl] at hrid;
      rw [show robotIdMap "arm" = some "arm-1" from rfl] at hrid ] <;>
    injection hrid with hrid <;> subst hrid <;>
    [ rw [execute_uav_dispatch] at hexec;
      rw [execute_ugv_dispatch] at hexec;
      rw [execute_arm_dispatch] at hexec ] <;>
    obtain ⟨tx, ty, tz, hmt, hb, hocc, hs'⟩ := execMove_ok hexec <;>
    rw [getRobotPosition_of_find hpre] at hmt <;>
    rcases hd with rfl | rfl | rfl | rfl <;>
    simp only [moveTarget_north, moveTarget_south, moveTarget_east, moveTarget_west] at hmt <;>
    simp only [String.reduceEq, reduceIte] at hmt <;>
    injection hmt with hmt <;>
    injection hmt with h1 hmt <;>
    injection hmt with h2 h3 <;>
    refine ⟨_, by rw [hs']; exact findRobot_moveCommit hpre _ _ tx ty tz, ?_, ?_, ?_⟩ <;>
    simp [← h1, ← h2, ← h3]

/-- Witness for C1 at a concrete input: `move ugv north` from the seed
state lands the ground robot at `(5, 0, 0)`. -/
theorem directional_move_step_witness :
    ∃ r', findRobot (execute seedState "ugv" "move" (some "north") none none none none none).1
        "ugv-1" = some r' ∧
      r'.position.x = (5 : ℚ) + (if "north" = "east" then 5 else if "north" = "west" then -5 else 0) ∧
      r'.position.z = (5 : ℚ) + (if "north" = "north" then -5 else if "north" = "south" then 5 else 0) ∧
      r'.position.y = (if "ugv" = "ugv" then 0 else if "ugv" = "uav" then (5 : ℚ) else 0) := by
  exact directional_move_step seedState _ "ugv" "north" "ugv-1"
    ⟨"ugv-1", "ugv", ⟨5, 0, 5⟩, ⟨0, 0, 0⟩, some "idle", none⟩
    (by simp) (by simp) (by decide) (by decide)
    (by with_unfolding_all decide)

/-- Witness for C2 at a concrete input: the rejected `move uav up` leaves
the seed state unchanged. -/
theorem execute_error_atomic_witness :
    (execute seedState "uav" "move" (some "up") none none none none none).1 = seedState := by
  have h : execute seedState "uav" "move" (some "up") none none none none none =
      ((execute seedState "uav" "move" (some "up") none none none none none).1,
        some .badDirection) := by
    with_unfolding_all decide
  exact execute_error_atomic h

theorem updateFirstRobot_of_id {rid : String} {f : Robot → Robot} (hid : ∀ r, f r = r) :
    ∀ {l l' : List Robot}, updateFirstRobot rid f l = some l' → l' = l := by
  intro l
  induction l with
  | nil => intro l' h; simp [updateFirstRobot] at h
  | cons a rest ih =>
    intro l' h
    unfold updateFirstRobot at h
    by_cases ha : (a.id == rid) = true
    · rw [if_pos ha] at h
      injection h with h
      rw [← h, hid a]
    · rw [if_neg (by simp [ha])] at h
      cases hh : updateFirstRobot rid f rest with
      | none => rw [hh] at h; simp [Option.map] at h
      | some rest' =>
        rw [hh] at h
        simp only [Option.map] at h
        injection h with h
        rw [← h, ih hh]

theorem updateFirstRobot_isSome {rid : String} {f : Robot → Robot} {l : List Robot} {r : Robot}
    (h : List.find? (fun x => x.id == rid) l = some r) :
    ∃ l', updateFirstRobot rid f l = some l' := by
  cases hh : updateFirstRobot rid f l with
  | some l' => exact ⟨l', rfl⟩
  | none => rw [updateFirstRobot_eq_none hh] at h; cases h

/-- Claim C8: `upsert_robot` distinguishes an omitted `current_task` from
an explicitly cleared one.  On an existing robot, the call with every
field omitted leaves the state unchanged; the call passing
`current_task=None` clears exactly that field of that robot, leaving its
other fields, every other robot and the items untouched; and when the
robot's task was non-empty the two calls produce observably different
states. -/
theorem upsertRobot_unset_vs_cleared (s : WState) (rid rid' : String) (r : Robot)
    (hpre : findRobot s rid = some r) (hne : rid' ≠ rid) :
    upsertRobot s rid none none none none none = s ∧
    findRobot (upsertRobot s rid none none none none (some none)) rid =
      some { r with current_task := none } ∧
    findRobot (upsertRobot s rid none none none none (some none)) rid' = findRobot s rid' ∧
    (upsertRobot s rid none none none none (some none)).items = s.items ∧
    (r.current_task ≠ none → upsertRobot s rid none none none none (some none) ≠ s) := by
  refine ⟨?_, ?_, ?_, ?_, ?_⟩
  · unfold upsertRobot
    obtain ⟨l', hl'⟩ := updateFirstRobot_isSome (f := mergeRobot none none none none none) hpre
    rw [hl']
    rw [updateFirstRobot_of_id (fun x => rfl) hl']
  · have h := findRobot_upsertRobot_self hpre none none none none (some none)
    rw [h]
    rfl
  · exact findRobot_upsertRobot_other hne none none none none (some none)
  · exact items_upsertRobot s rid none none none none (some none)
  · intro htask heq
    have h := findRobot_upsertRobot_self hpre none none none none (some none)
    rw [heq, hpre] at h
    injection h with h
    have h2 := congrArg Robot.current_task h
    simp only [mergeRobot, Option.getD] at h2
    exact htask h2

/-- A robot record with a non-empty task, for the C8 witness. -/
def wRb8 : Robot :=
  { id := "r1", rtype := "ugv", position := ⟨1, 0, 1⟩, orientation := ⟨0, 0, 0⟩,
    status := some "working", current_task := some "carrying_item-1" }

/-- A two-robot state for the C8 witness. -/
def wSt8 : WState :=
  { robots := [wRb8,
      { id := "r2", rtype := "uav", position := ⟨9, 5, 9⟩, orientation := ⟨0, 0, 0⟩,
        status := some "idle", current_task := none }],
    items := [{ id := "item-1", position := ⟨1, 0, 1⟩, stack_id := none }] }

/-- Witness for C8 at a concrete state holding one busy robot. -/
theorem upsertRobot_unset_vs_cleared_witness :
    upsertRobot wSt8 "r1" none none none none none = wSt8 ∧
    findRobot (upsertRobot wSt8 "r1" none none none none (some none)) "r1" =
      some { wRb8 with current_task := none } ∧
    findRobot (upsertRobot wSt8 "r1" none none none none (some none)) "r2" =
      findRobot wSt8 "r2" ∧
    (upsertRobot wSt8 "r1" none none none none (some none)).items = wSt8.items ∧
    (wRb8.current_task ≠ none → upsertRobot wSt8 "r1" none none none none (some none) ≠ wSt8) := by
  exact upsertRobot_unset_vs_cleared wSt8 "r1" "r2" wRb8 (by decide) (by decide)

/-- An executor outcome allowed for the move branch: success, the unknown
robot error, or one of the move-validation errors. -/
def isMoveValidationErr : Option WErr → Prop
  | none => True
  | some .unknownRobot => True
  | some .badDirection => True
  | some .moveNoTarget => True
  | some (.moveOutOfBounds _ _ _) => True
  | some (.moveCollision _ _) => True
  | _ => False

theorem execute_move_eq (s : WState) (robot : String)
    (direction item_id stack_id : Option String) (x y z : Option ℚ) :
    execute s robot "move" direction item_id stack_id x y z =
      (match robotIdMap (pyLower (pyStrip robot)) with
        | none => (s, some .unknownRobot)
        | some rid => execMove s (pyLower (pyStrip robot)) rid (getRobotPosition s rid)
            direction x y z) := by
  unfold execute
  cases hmap : robotIdMap (pyLower (pyStrip robot)) with
  | none => simp only [hmap]
  | some rid =>
    simp only [hmap]
    rfl

theorem execute_nonspecial_eq (s : WState) (robot action : String)
    (direction item_id stack_id : Option String) (x y z : Option ℚ)
    (h1 : normAct action ≠ "pick") (h2 : normAct action ≠ "drop")
    (h3 : normAct action ≠ "pick_from_stack") (h4 : normAct action ≠ "place_on_stack") :
    execute s robot action direction item_id stack_id x y z =
      (match robotIdMap (pyLower (pyStrip robot)) with
        | none => (s, some .unknownRobot)
        | some rid => execMove s (pyLower (pyStrip robot)) rid (getRobotPosition s rid)
            direction x y z) := by
  unfold execute
  cases hmap : robotIdMap (pyLower (pyStrip robot)) with
  | none => simp only [hmap]
  | some rid =>
    simp only [hmap]
    rw [if_neg h1, if_neg h2, if_neg h3, if_neg h4]

theorem moveTarget_err {k : String} {c : V3} {dir : Option String} {x y z : Option ℚ}
    {e : WErr} (h : moveTarget k c dir x y z = .inr e) :
    e = .badDirection ∨ e = .moveNoTarget := by
  unfold moveTarget at h
  repeat' first
    | split at h
    | simp only [Sum.inl.injEq, Sum.inr.injEq, reduceCtorEq] at h
  all_goals first
    | exact Or.inl h.symm
    | exact Or.inr h.symm

theorem execMove_err_shape (s : WState) (k rid : String) (c : V3)
    (dir : Option String) (x y z : Option ℚ) :
    isMoveValidationErr (execMove s k rid c dir x y z).2 := by
  cases hmt : moveTarget k c dir x y z with
  | inr e =>
    unfold execMove
    rw [hmt]
    rcases moveTarget_err hmt with rfl | rfl <;> simp [isMoveValidationErr]
  | inl t =>
    obtain ⟨tx, ty, tz⟩ := t
    unfold execMove
    rw [hmt]
    repeat' split
    all_goals try contradiction
    all_goals simp [isMoveValidationErr]

/-- Claim C9 counterexample: the action string `"Pick"` is not one of the
four literals `pick`/`drop`/`pick_from_stack`/`place_on_stack`, yet the
command is not executed through the move branch — lowercasing routes it to
the `pick` branch, which here succeeds while the move branch would
reject. -/
theorem unknown_action_counterexample :
    execute seedState "ugv" "Pick" none (some "item-1") none none none none ≠
      execute seedState "ugv" "move" none (some "item-1") none none none none := by
  with_unfolding_all decide

/-- Claim C9 (amended): for every action string whose stripped, lowercased
form is not one of `pick`, `drop`, `pick_from_stack`, `place_on_stack` —
including the empty string, whitespace and arbitrary unrecognised strings —
`execute_warehouse_command` behaves exactly as `action="move"`: the command
goes through the move branch, and the only possible rejections are the
unknown-robot error or a move-validation failure, never an unknown-action
error. -/
theorem unknown_action_is_move (s : WState) (robot action : String)
    (direction item_id stack_id : Option String) (x y z : Option ℚ)
    (h1 : normAct action ≠ "pick") (h2 : normAct action ≠ "drop")
    (h3 : normAct action ≠ "pick_from_stack") (h4 : normAct action ≠ "place_on_stack") :
    execute s robot action direction item_id stack_id x y z =
      execute s robot "move" direction item_id stack_id x y z ∧
    isMoveValidationErr (execute s robot action direction item_id stack_id x y z).2 := by
  have he := execute_nonspecial_eq s robot action direction item_id stack_id x y z h1 h2 h3 h4
  constructor
  · rw [he, execute_move_eq]
  · rw [he]
    cases hmap : robotIdMap (pyLower (pyStrip robot)) with
    | none => simp [isMoveValidationErr]
    | some rid =>
      simp only []
      exact execMove_err_shape s (pyLower (pyStrip robot)) rid (getRobotPosition s rid)
        direction x y z

/-- Witness for C9 at a concrete input: the unrecognised action `"fly"`
behaves exactly as a move. -/
theorem unknown_action_is_move_witness :
    execute seedState "ugv" "fly" (some "north") none none none none none =
      execute seedState "ugv" "move" (some "north") none none none none none ∧
    isMoveValidationErr
      (execute seedState "ugv" "fly" (some "north") none none none none none).2 := by
  exact unknown_action_is_move seedState "ugv" "fly" (some "north") none none none none none
    (by decide) (by decide) (by decide) (by decide)

/-- Claim C10 counterexample: with action `pick` and `item_id` absent the
verifier does not pass for every pair of states — a state not containing
the robot is rejected with "robot not in state". -/
theorem verify_vacuous_counterexample :
    verifyCmd "ugv" "pick" ⟨[], []⟩ none none none none none none none ≠ none := by
  decide

/-- Claim C10 (amended): provided the robot key resolves and the robot is
present in the post state, `verify_warehouse_state_after_command` passes
vacuously when its key parameters are absent or the action unrecognised:
for `pick` with no `item_id` it returns `(True, "")` regardless of
everything else; for `drop` with no `item_id` it performs no carrying or
position check and passes; and for any action whose normalised form is
outside the five known actions it returns `(True, "")` for every pair of
states. -/
theorem verify_vacuous_pass (robot action : String) (s : WState) (prev : Option WState)
    (direction item_id stack_id : Option String) (x y z : Option ℚ) (rid : String) (r : Robot)
    (hmap : robotIdMap (pyLower (pyStrip robot)) = some rid)
    (hfind : findRobot s rid = some r) :
    (normActV action = "pick" → item_id = none →
      verifyCmd robot action s prev direction item_id stack_id x y z = none) ∧
    (normActV action = "drop" → item_id = none →
      verifyCmd robot action s prev direction item_id stack_id x y z = none) ∧
    (normActV action ≠ "move" → normActV action ≠ "pick" → normActV action ≠ "drop" →
      normActV action ≠ "pick_from_stack" → normActV action ≠ "place_on_stack" →
      verifyCmd robot action s prev direction item_id stack_id x y z = none) := by
  refine ⟨?_, ?_, ?_⟩
  · intro ha hi
    unfold verifyCmd
    rw [hmap]
    simp only []
    rw [hfind]
    simp [ha, hi, truthy]
  · intro ha hi
    unfold verifyCmd
    rw [hmap]
    simp only []
    rw [hfind]
    simp [ha, hi, truthy]
  · intro h1 h2 h3 h4 h5
    unfold verifyCmd
    rw [hmap]
    simp only []
    rw [hfind]
    simp [if_neg h1, if_neg h2, if_neg h3, if_neg h4, if_neg h5]

/-- Witness for C10 at concrete inputs on the seed state. -/
theorem verify_vacuous_pass_witness :
    (normActV "pick" = "pick" → none = (none : Option String) →
      verifyCmd "ugv" "pick" seedState none none none none none none none = none) ∧
    (normActV "pick" = "drop" → none = (none : Option String) →
      verifyCmd "ugv" "pick" seedState none none none none none none none = none) ∧
    (normActV "pick" ≠ "move" → normActV "pick" ≠ "pick" → normActV "pick" ≠ "drop" →
      normActV "pick" ≠ "pick_from_stack" → normActV "pick" ≠ "place_on_stack" →
      verifyCmd "ugv" "pick" seedState none none none none none none none = none) := by
  exact verify_vacuous_pass "ugv" "pick" seedState none none none none none none none
    "ugv-1" ⟨"ugv-1", "ugv", ⟨5, 0, 5⟩, ⟨0, 0, 0⟩, some "idle", none⟩
    (by decide) (by decide)

/-- Claim C7 counterexample: `move ugv to 3 4 5` does not parse with the
claimed mapping x=3, z=4, y=5. -/
theorem absolute_move_order_counterexample :
    parseDirect "move ugv to 3 4 5" ≠
      some ⟨"ugv", "move", none, none, none, some 3, some 5, some 4⟩ := by
  with_unfolding_all decide

/-- Claim C7 (amended): in the absolute-coordinate move pattern, with two
numbers the first is `x` and the second is `z`; with three numbers they
are taken as `x`, `y` and `z` in that order — so `move ugv to 3 4 5`
parses to x=3, y=4, z=5. -/
theorem absolute_move_number_order (r rn t1 t2 t3 : String) (q1 q2 q3 : ℚ)
    (hr : isRobotTok r = true) (hn : normalizeRobot r = some rn)
    (h1 : numVal t1 = some q1) (h2 : numVal t2 = some q2) (h3 : numVal t3 = some q3) :
    parseMoveTokens ["move", r, "to", t1, t2] =
      some ⟨rn, "move", none, none, none, some q1, none, some q2⟩ ∧
    parseMoveTokens ["move", r, "to", t1, t2, t3] =
      some ⟨rn, "move", none, none, none, some q1, some q2, some q3⟩ ∧
    parseDirect "move ugv to 3 4" =
      some ⟨"ugv", "move", none, none, none, some 3, none, some 4⟩ ∧
    parseDirect "move ugv to 3 4 5" =
      some ⟨"ugv", "move", none, none, none, some 3, some 4, some 5⟩ := by
  have hrl : r = "ugv" ∨ r = "ugx" ∨ r = "agv" ∨ r = "uav" ∨ r = "arm" := by
    simp [isRobotTok] at hr
    tauto
  refine ⟨?_, ?_, by with_unfolding_all decide, by with_unfolding_all decide⟩ <;>
    rcases hrl with rfl | rfl | rfl | rfl | rfl <;>
      simp [parseMoveTokens, p1, p2, p3, p1dirTail, p3tail, p3nums, stripOptTok,
        isRobotTok, isDirTok, h1, h2, h3, hn, Option.orElse]

/-- Witness for C7 at the concrete tokens of `move ugv to 3 4 [5]`. -/
theorem absolute_move_number_order_witness :
    parseMoveTokens ["move", "ugv", "to", "3", "4"] =
      some ⟨"ugv", "move", none, none, none, some 3, none, some 4⟩ ∧
    parseMoveTokens ["move", "ugv", "to", "3", "4", "5"] =
      some ⟨"ugv", "move", none, none, none, some 3, some 4, some 5⟩ ∧
    parseDirect "move ugv to 3 4" =
      some ⟨"ugv", "move", none, none, none, some 3, none, some 4⟩ ∧
    parseDirect "move ugv to 3 4 5" =
      some ⟨"ugv", "move", none, none, none, some 3, some 4, some 5⟩ := by
  exact absolute_move_number_order "ugv" "ugv" "3" "4" "5" 3 4 5 (by decide) (by decide)
    (by with_unfolding_all decide) (by with_unfolding_all decide)
    (by with_unfolding_all decide)

/-! ## Success characterisation of the pick/drop/stack branches -/

theorem execPick_ok {s : WState} {k rid : String} {iopt : Option String} {s' : WState}
    (h : execPick s k rid iopt = (s', none)) :
    k = "ugv" ∧ truthy iopt = true ∧ truthy (getRobotCarriedItem s rid) = false ∧
    ∃ item, findItem s (pyStrip (iopt.getD "")) = some item ∧
      truthy item.stack_id = false ∧
      ¬(truthy (getRobotHoldingItem s (pyStrip (iopt.getD ""))) = true ∧
        getRobotHoldingItem s (pyStrip (iopt.getD "")) ≠ some rid) ∧
      s' = pickCommit s rid (pyStrip (iopt.getD ""))
        ((getItemPosition s (pyStrip (iopt.getD ""))).getD ⟨0, 0, 0⟩) := by
  unfold execPick at h
  by_cases hk : k = "ugv"
  · simp only [if_neg (not_not_intro hk)] at h
    by_cases ht : truthy iopt = true
    · simp only [ht, not_true, if_neg (not_not_intro rfl)] at h
      by_cases hc : truthy (getRobotCarriedItem s rid) = true
      · simp only [if_pos hc] at h
        exact absurd (congrArg Prod.snd h) (by simp)
      · simp only [hc, if_neg] at h
        cases hfi : findItem s (pyStrip (iopt.getD "")) with
        | none =>
          simp only [hfi] at h
          exact absurd (congrArg Prod.snd h) (by simp)
        | some item =>
          simp only [hfi] at h
          by_cases hst : truthy item.stack_id = true
          · simp only [if_pos hst] at h
            exact absurd (congrArg Prod.snd h) (by simp)
          · simp only [hst, if_neg] at h
            by_cases hhb : truthy (getRobotHoldingItem s (pyStrip (iopt.getD ""))) = true ∧
                getRobotHoldingItem s (pyStrip (iopt.getD "")) ≠ some rid
            · simp only [if_pos hhb] at h
              exact absurd (congrArg Prod.snd h) (by simp)
            · simp only [if_neg hhb] at h
              refine ⟨hk, ht, by simpa using hc, item, rfl, by simpa using hst, hhb, ?_⟩
              exact (congrArg Prod.fst h).symm
    · simp only [if_pos ht] at h
      exact absurd (congrArg Prod.snd h) (by simp)
  · simp only [if_pos hk] at h
    exact absurd (congrArg Prod.snd h) (by simp)

theorem execDrop_ok {s : WState} {k rid : String} {iopt : Option String} {x z : Option ℚ}
    {s' : WState} (h : execDrop s k rid iopt x z = (s', none)) :
    k = "ugv" ∧ truthy iopt = true ∧ ¬(x = none ∨ z = none) ∧
    getRobotCarriedItem s rid = some (pyStrip (iopt.getD "")) ∧
    isWithinBounds (x.getD 0) 0 (z.getD 0) = true ∧
    positionOccupiedByOther s rid (x.getD 0) 0 (z.getD 0) 2 = none ∧
    s' = dropCommit s rid (pyStrip (iopt.getD "")) (x.getD 0) (z.getD 0) := by
  unfold execDrop at h
  by_cases hk : k = "ugv"
  · simp only [if_neg (not_not_intro hk)] at h
    by_cases ht : truthy iopt = true
    · simp only [ht, not_true, if_neg (not_not_intro rfl)] at h
      by_cases hxz : x = none ∨ z = none
      · simp only [if_pos hxz] at h
        exact absurd (congrArg Prod.snd h) (by simp)
      · simp only [if_neg hxz] at h
        by_cases hcar : getRobotCarriedItem s rid = some (pyStrip (iopt.getD ""))
        · simp only [if_neg (not_not_intro hcar)] at h
          by_cases hb : isWithinBounds (x.getD 0) 0 (z.getD 0) = true
          · simp only [hb, not_true, if_neg (not_not_intro rfl)] at h
            cases hocc : positionOccupiedByOther s rid (x.getD 0) 0 (z.getD 0) 2 with
            | some occ =>
              simp only [hocc] at h
              exact absurd (congrArg Prod.snd h) (by simp)
            | none =>
              simp only [hocc] at h
              exact ⟨hk, ht, hxz, hcar, hb, rfl, (congrArg Prod.fst h).symm⟩
          · simp only [hb, if_pos] at h
            exact absurd (congrArg Prod.snd h) (by simp)
        · simp only [if_pos hcar] at h
          exact absurd (congrArg Prod.snd h) (by simp)
    · simp only [if_pos ht] at h
      exact absurd (congrArg Prod.snd h) (by simp)
  · simp only [if_pos hk] at h
    exact absurd (congrArg Prod.snd h) (by simp)

theorem execPickFromStack_ok {s : WState} {k rid : String} {sopt : Option String}
    {s' : WState} (h : execPickFromStack s k rid sopt = (s', none)) :
    k = "arm" ∧ truthy sopt = true ∧ truthy (getRobotCarriedItem s rid) = false ∧
    ∃ top, (s.items.filter
        (fun it => it.stack_id == some (pyStrip (sopt.getD "")))).getLast? = some top ∧
      positionOccupiedByOther s rid top.position.x top.position.y top.position.z 2 = none ∧
      s' = pfsCommit s rid top.id top.position := by
  unfold execPickFromStack at h
  by_cases hk : k = "arm"
  · simp only [if_neg (not_not_intro hk)] at h
    by_cases ht : truthy sopt = true
    · simp only [ht, not_true, if_neg (not_not_intro rfl)] at h
      by_cases hc : truthy (getRobotCarriedItem s rid) = true
      · simp only [if_pos hc] at h
        exact absurd (congrArg Prod.snd h) (by simp)
      · simp only [hc, if_neg] at h
        cases htop : (s.items.filter
            (fun it => it.stack_id == some (pyStrip (sopt.getD "")))).getLast? with
        | none =>
          simp only [htop] at h
          exact absurd (congrArg Prod.snd h) (by simp)
        | some top =>
          simp only [htop] at h
          cases hocc : positionOccupiedByOther s rid top.position.x top.position.y
              top.position.z 2 with
          | some occ =>
            simp only [hocc] at h
            exact absurd (congrArg Prod.snd h) (by simp)
          | none =>
            simp only [hocc] at h
            exact ⟨hk, ht, by simpa using hc, top, rfl, hocc, (congrArg Prod.fst h).symm⟩
    · simp only [if_pos ht] at h
      exact absurd (congrArg Prod.snd h) (by simp)
  · simp only [if_pos hk] at h
    exact absurd (congrArg Prod.snd h) (by simp)

theorem execPlaceOnStack_ok {s : WState} {k rid : String} {iopt sopt : Option String}
    {s' : WState} (h : execPlaceOnStack s k rid iopt sopt = (s', none)) :
    k = "arm" ∧ truthy sopt = true ∧ truthy iopt = true ∧
    getRobotCarriedItem s rid = some (pyStrip (iopt.getD "")) ∧
    isWithinBounds (getStackBasePosition s (pyStrip (sopt.getD ""))).1
      ((1 / 2) * (stackHeight s (pyStrip (sopt.getD "")) + 1))
      (getStackBasePosition s (pyStrip (sopt.getD ""))).2 = true ∧
    positionOccupiedByOther s rid (getStackBasePosition s (pyStrip (sopt.getD ""))).1
      ((1 / 2) * (stackHeight s (pyStrip (sopt.getD "")) + 1))
      (getStackBasePosition s (pyStrip (sopt.getD ""))).2 2 = none ∧
    s' = placeCommit s rid (pyStrip (iopt.getD "")) (pyStrip (sopt.getD ""))
      ⟨(getStackBasePosition s (pyStrip (sopt.getD ""))).1,
        (1 / 2) * (stackHeight s (pyStrip (sopt.getD "")) + 1),
        (getStackBasePosition s (pyStrip (sopt.getD ""))).2⟩ := by
  unfold execPlaceOnStack at h
  by_cases hk : k = "arm"
  · simp only [if_neg (not_not_intro hk)] at h
    by_cases hts : truthy sopt = true ∧ truthy iopt = true
    · have hcond : ¬(¬truthy sopt = true ∨ ¬truthy iopt = true) :=
        fun hor => hor.elim (fun hna => hna hts.1) (fun hnb => hnb hts.2)
      simp only [if_neg hcond] at h
      by_cases hcar : getRobotCarriedItem s rid = some (pyStrip (iopt.getD ""))
      · simp only [if_neg (not_not_intro hcar)] at h
        by_cases hb : isWithinBounds (getStackBasePosition s (pyStrip (sopt.getD ""))).1
            ((1 / 2) * (stackHeight s (pyStrip (sopt.getD "")) + 1))
            (getStackBasePosition s (pyStrip (sopt.getD ""))).2 = true
        · simp only [hb, not_true, if_neg (not_not_intro rfl)] at h
          cases hocc : positionOccupiedByOther s rid
              (getStackBasePosition s (pyStrip (sopt.getD ""))).1
              ((1 / 2) * (stackHeight s (pyStrip (sopt.getD "")) + 1))
              (getStackBasePosition s (pyStrip (sopt.getD ""))).2 2 with
          | some occ =>
            simp only [hocc] at h
            exact absurd (congrArg Prod.snd h) (by simp)
          | none =>
            simp only [hocc] at h
            exact ⟨hk, hts.1, hts.2, hcar, hb, rfl, (congrArg Prod.fst h).symm⟩
        · simp only [hb, if_pos] at h
          exact absurd (congrArg Prod.snd h) (by simp)
      · simp only [if_pos hcar] at h
        exact absurd (congrArg Prod.snd h) (by simp)
    · have hcond : ¬truthy sopt = true ∨ ¬truthy iopt = true := by
        by_cases h1 : truthy sopt = true
        · right
          exact fun h2 => hts ⟨h1, h2⟩
        · left
          exact h1
      simp only [if_pos hcond] at h
      exact absurd (congrArg Prod.snd h) (by simp)
  · simp only [if_pos hk] at h
    exact absurd (congrArg Prod.snd h) (by simp)

theorem findRobot_pickCommit_self {s : WState} {rid : String} {r : Robot}
    (hpre : findRobot s rid = some r) (iid : String) (p : V3) :
    findRobot (pickCommit s rid iid p) rid =
      some { r with
        position := ⟨p.x, 0, p.z⟩
        status := some "working"
        current_task := some ("carrying_" ++ iid) } := by
  unfold pickCommit
  have h1 := findRobot_updateRobotPosition_self hpre ⟨p.x, 0, p.z⟩
  have h2 : findRobot (upsertItem (updateRobotPosition s rid ⟨p.x, 0, p.z⟩) iid
      ⟨p.x, 0, p.z⟩ none) rid = some { r with position := ⟨p.x, 0, p.z⟩ } := by
    rw [findRobot_upsertItem]
    exact h1
  exact findRobot_updateRobotStatus_self h2 _ _

theorem findRobot_dropCommit_self {s : WState} {rid : String} {r : Robot}
    (hpre : findRobot s rid = some r) (iid : String) (tx tz : ℚ) :
    findRobot (dropCommit s rid iid tx tz) rid =
      some { r with
        position := ⟨tx, 0, tz⟩
        status := some "idle"
        current_task := none } := by
  unfold dropCommit
  have h1 := findRobot_updateRobotPosition_self hpre ⟨tx, 0, tz⟩
  have h2 : findRobot (upsertItem (updateRobotPosition s rid ⟨tx, 0, tz⟩) iid
      ⟨tx, 0, tz⟩ none) rid = some { r with position := ⟨tx, 0, tz⟩ } := by
    rw [findRobot_upsertItem]
    exact h1
  exact findRobot_updateRobotStatus_self h2 _ _

theorem findRobot_pfsCommit_self {s : WState} {rid : String} {r : Robot}
    (hpre : findRobot s rid = some r) (tid : String) (p : V3) :
    findRobot (pfsCommit s rid tid p) rid =
      some { r with
        position := p
        status := some "working"
        current_task := some ("holding_" ++ tid) } := by
  unfold pfsCommit
  have h1 := findRobot_updateRobotPosition_self hpre p
  have h2 : findRobot (upsertItem (updateRobotPosition s rid p) tid p none) rid =
      some { r with position := p } := by
    rw [findRobot_upsertItem]
    exact h1
  exact findRobot_updateRobotStatus_self h2 _ _

theorem findRobot_placeCommit_self {s : WState} {rid : String} {r : Robot}
    (hpre : findRobot s rid = some r) (iid sid : String) (p : V3) :
    findRobot (placeCommit s rid iid sid p) rid =
      some { r with
        position := p
        status := some "idle"
        current_task := none } := by
  unfold placeCommit
  have h1 := findRobot_updateRobotPosition_self hpre p
  have h2 : findRobot (upsertItem (updateRobotPosition s rid p) iid p (some sid)) rid =
      some { r with position := p } := by
    rw [findRobot_upsertItem]
    exact h1
  exact findRobot_updateRobotStatus_self h2 _ _

/-! ## The collision helper names a real colliding robot -/

theorem positionOccupiedByOther_none {s : WState} {rid : String} {x y z tol : ℚ}
    (h : positionOccupiedByOther s rid x y z tol = none) :
    ∀ r ∈ s.robots, r.id ≠ rid → ¬ distSq x y z r.position < tol ^ 2 := by
  unfold positionOccupiedByOther at h
  intro r hr hne hd
  have := List.find?_eq_none.mp h r hr
  simp [hne, hd] at this

theorem positionOccupiedByOther_some {s : WState} {rid : String} {x y z tol : ℚ} {occ : Robot}
    (h : positionOccupiedByOther s rid x y z tol = some occ) :
    occ ∈ s.robots ∧ occ.id ≠ rid ∧ distSq x y z occ.position < tol ^ 2 := by
  unfold positionOccupiedByOther at h
  refine ⟨List.mem_of_find?_eq_some h, ?_, ?_⟩
  · have := List.find?_some h
    simp at this
    intro hc
    exact absurd hc this.1
  · have := List.find?_some h
    simp at this
    exact this.2

theorem findRobot_updateRobotPosition_any (s : WState) (rid : String) (p : V3) :
    ∃ r0, findRobot (updateRobotPosition s rid p) rid = some r0 ∧ r0.position = p := by
  cases hpre : findRobot s rid with
  | some r =>
    exact ⟨{ r with position := p }, findRobot_updateRobotPosition_self hpre p, rfl⟩
  | none =>
    refine ⟨newRobot rid none (some p) none none none, ?_, rfl⟩
    unfold updateRobotPosition
    exact findRobot_upsertRobot_absent hpre none (some p) none none none

theorem findRobot_dropCommit_position {s : WState} {rid iid : String} {tx tz : ℚ} {r' : Robot}
    (h : findRobot (dropCommit s rid iid tx tz) rid = some r') : r'.position = ⟨tx, 0, tz⟩ := by
  obtain ⟨r0, h0, hp⟩ := findRobot_updateRobotPosition_any s rid ⟨tx, 0, tz⟩
  unfold dropCommit at h
  have h2 : findRobot (upsertItem (updateRobotPosition s rid ⟨tx, 0, tz⟩) iid
      ⟨tx, 0, tz⟩ none) rid = some r0 := by
    rw [findRobot_upsertItem]
    exact h0
  rw [findRobot_updateRobotStatus_self h2] at h
  injection h with h
  rw [← h]
  exact hp

theorem findRobot_pfsCommit_position {s : WState} {rid tid : String} {p : V3} {r' : Robot}
    (h : findRobot (pfsCommit s rid tid p) rid = some r') : r'.position = p := by
  obtain ⟨r0, h0, hp⟩ := findRobot_updateRobotPosition_any s rid p
  unfold pfsCommit at h
  have h2 : findRobot (upsertItem (updateRobotPosition s rid p) tid p none) rid = some r0 := by
    rw [findRobot_upsertItem]
    exact h0
  rw [findRobot_updateRobotStatus_self h2] at h
  injection h with h
  rw [← h]
  exact hp

theorem findRobot_placeCommit_position {s : WState} {rid iid sid : String} {p : V3} {r' : Robot}
    (h : findRobot (placeCommit s rid iid sid p) rid = some r') : r'.position = p := by
  obtain ⟨r0, h0, hp⟩ := findRobot_updateRobotPosition_any s rid p
  unfold placeCommit at h
  have h2 : findRobot (upsertItem (updateRobotPosition s rid p) iid p (some sid)) rid =
      some r0 := by
    rw [findRobot_upsertItem]
    exact h0
  rw [findRobot_updateRobotStatus_self h2] at h
  injection h with h
  rw [← h]
  exact hp

theorem findRobot_moveCommit_position {s : WState} {k rid task : String} {tx ty tz : ℚ}
    {r' : Robot} (h : findRobot (moveCommit s k rid task tx ty tz) rid = some r') :
    r'.position = ⟨tx, ty, tz⟩ := by
  obtain ⟨r0, h0, hp⟩ := findRobot_updateRobotPosition_any s rid ⟨tx, ty, tz⟩
  unfold moveCommit at h
  by_cases hc : truthy (taskCarried task) = true
  · rw [if_pos hc] at h
    by_cases hk : k = "ugv"
    · simp only [hk, eq_self_iff_true, if_true] at h
      have h2 : findRobot (upsertItem (updateRobotPosition s rid ⟨tx, ty, tz⟩)
          ((taskCarried task).getD "") ⟨tx, 0, tz⟩ none) rid = some r0 := by
        rw [findRobot_upsertItem]
        exact h0
      rw [findRobot_updateRobotStatus_self h2] at h
      injection h with h
      rw [← h]
      exact hp
    · simp only [hk, if_false] at h
      have h2 : findRobot (upsertItem (updateRobotPosition s rid ⟨tx, ty, tz⟩)
          ((taskCarried task).getD "") ⟨tx, ty, tz⟩ none) rid = some r0 := by
        rw [findRobot_upsertItem]
        exact h0
      rw [findRobot_updateRobotStatus_self h2] at h
      injection h with h
      rw [← h]
      exact hp
  · rw [if_neg hc] at h
    rw [findRobot_updateRobotStatus_self h0] at h
    injection h with h
    rw [← h]
    exact hp

/-- Claim C5: for the actions `move`, `drop`, `pick_from_stack` and
`place_on_stack`, the executor enforces the 2.0-unit separation: a
successful command leaves the commanded robot's final position strictly at
least 2.0 units (Euclidean) away from every other robot; the collision
probe always names a robot of the state, other than the commanded one,
that lies strictly within 2.0 units of the queried target; and a rejected
command leaves the state unchanged. -/
theorem collision_rejection (s se s' : WState) (robot action : String)
    (direction item_id stack_id : Option String) (x y z : Option ℚ) (tx ty tz : ℚ)
    (rid : String) (r' occ other : Robot) (e : WErr)
    (hact : normAct action = "move" ∨ normAct action = "drop" ∨
      normAct action = "pick_from_stack" ∨ normAct action = "place_on_stack")
    (hmap : robotIdMap (pyLower (pyStrip robot)) = some rid) :
    (execute s robot action direction item_id stack_id x y z = (s', none) →
      findRobot s' rid = some r' → other ∈ s.robots → other.id ≠ rid →
      ¬ distSq r'.position.x r'.position.y r'.position.z other.position < 2 ^ 2) ∧
    (positionOccupiedByOther s rid tx ty tz 2 = some occ →
      occ ∈ s.robots ∧ occ.id ≠ rid ∧ distSq tx ty tz occ.position < 2 ^ 2) ∧
    (execute s robot action direction item_id stack_id x y z = (se, some e) → se = s) := by
  refine ⟨?_, fun hocc => positionOccupiedByOther_some hocc,
    fun he => execute_error_unchanged he⟩
  intro hexec hpost hmem hne hd
  rcases hact with ha | ha | ha | ha
  · unfold execute at hexec
    simp only [hmap, ha, String.reduceEq, reduceIte] at hexec
    obtain ⟨tx', ty', tz', hmt, hb, hocc, hs'⟩ := execMove_ok hexec
    rw [hs'] at hpost
    have hp := findRobot_moveCommit_position hpost
    exact positionOccupiedByOther_none hocc other hmem hne (by simpa [hp] using hd)
  · unfold execute at hexec
    simp only [hmap, ha, String.reduceEq, reduceIte] at hexec
    obtain ⟨hk, hti, hxz, hcar, hb, hocc, hs'⟩ := execDrop_ok hexec
    rw [hs'] at hpost
    have hp := findRobot_dropCommit_position hpost
    exact positionOccupiedByOther_none hocc other hmem hne (by simpa [hp] using hd)
  · unfold execute at hexec
    simp only [hmap, ha, String.reduceEq, reduceIte] at hexec
    obtain ⟨hk, hts, hc, top, htop, hocc, hs'⟩ := execPickFromStack_ok hexec
    rw [hs'] at hpost
    have hp := findRobot_pfsCommit_position hpost
    exact positionOccupiedByOther_none hocc other hmem hne (by simpa [hp] using hd)
  · unfold execute at hexec
    simp only [hmap, ha, String.reduceEq, reduceIte] at hexec
    obtain ⟨hk, hts, hti, hcar, hb, hocc, hs'⟩ := execPlaceOnStack_ok hexec
    rw [hs'] at hpost
    have hp := findRobot_placeCommit_position hpost
    exact positionOccupiedByOther_none hocc other hmem hne (by simpa [hp] using hd)

/-- The aerial robot's record after the C5 witness move. -/
def wRb5 : Robot :=
  { id := "uav-1", rtype := "uav", position := ⟨10, 5, 0⟩, orientation := ⟨0, 0, 0⟩,
    status := some "idle", current_task := none }

/-- The ground robot of the seed state, the colliding robot of the C5
witness probe. -/
def wRb5o : Robot :=
  { id := "ugv-1", rtype := "ugv", position := ⟨5, 0, 5⟩, orientation := ⟨0, 0, 0⟩,
    status := some "idle", current_task := none }

/-- Witness for C5 at a concrete input: a successful `move uav north` on
the seed state keeps the aerial robot at least 2 units from the ground
robot, the collision probe at `(6, 0, 5)` names the ground robot, and a
rejected command leaves the state unchanged. -/
theorem collision_rejection_witness :
    (execute seedState "uav" "move" (some "north") none none none none none =
        ((execute seedState "uav" "move" (some "north") none none none none none).1, none) →
      findRobot (execute seedState "uav" "move" (some "north") none none none none none).1
        "uav-1" = some wRb5 →
      wRb5o ∈ seedState.robots → wRb5o.id ≠ "uav-1" →
      ¬ distSq wRb5.position.x wRb5.position.y wRb5.position.z wRb5o.position < 2 ^ 2) ∧
    (positionOccupiedByOther seedState "uav-1" 6 0 5 2 = some wRb5o →
      wRb5o ∈ seedState.robots ∧ wRb5o.id ≠ "uav-1" ∧
        distSq 6 0 5 wRb5o.position < 2 ^ 2) ∧
    (execute seedState "uav" "move" (some "north") none none none none none =
        (seedState, some WErr.badDirection) → seedState = seedState) := by
  exact collision_rejection seedState seedState
    (execute seedState "uav" "move" (some "north") none none none none none).1
    "uav" "move" (some "north") none none none none none 6 0 5 "uav-1"
    wRb5 wRb5o wRb5o WErr.badDirection (Or.inl (by decide)) (by decide)

/-- Claim C5 counterexample: the drop target `(24, 10)` lies within 2.0
units of the arm's position `(25, 0, 10)`, yet the command is rejected
with the not-carrying error, which does not name the colliding robot. -/
theorem collision_rejection_naming_counterexample :
    distSq 24 0 10 (⟨25, 0, 10⟩ : V3) < 2 ^ 2 ∧
    (findRobot seedState "arm-1").map Robot.position = some ⟨25, 0, 10⟩ ∧
    execute seedState "ugv" "drop" none (some "item-1") none (some 24) none (some 10) =
      (seedState, some (.notCarrying "item-1" none)) := by
  refine ⟨by with_unfolding_all decide, by decide, by with_unfolding_all decide⟩

/-! ## Reachable states and the warehouse invariant -/

/-- A structured command: the keyword arguments of
`execute_warehouse_command`. -/
structure Cmd where
  robot : String
  action : String
  direction : Option String
  item_id : Option String
  stack_id : Option String
  x : Option ℚ
  y : Option ℚ
  z : Option ℚ
deriving DecidableEq, Repr

/-- Run one structured command. -/
def execCmd (s : WState) (c : Cmd) : WState × Option WErr :=
  execute s c.robot c.action c.direction c.item_id c.stack_id c.x c.y c.z

/-- States reachable from the seed state by successful commands. -/
inductive Reachable : WState → Prop where
  | seed : Reachable seedState
  | step {s s' : WState} (c : Cmd) : Reachable s → execCmd s c = (s', none) → Reachable s'

/-- The item ids of the seed state (no command ever creates another id). -/
def itemIds : List String := ["item-1", "item-2", "item-3"]

/-- Shape of a robot's `current_task`: clear, or the given prefix followed
by a seed item id. -/
def goodTask (pre : String) (t : Option String) : Prop :=
  t = none ∨ ∃ iid, iid ∈ itemIds ∧ t = some (pre ++ iid)

/-- The inductive invariant of reachable warehouse states: the three seed
robots and three seed items persist in order; the aerial robot never holds
anything; the ground robot's task is clear or `carrying_<id>`; the arm's
task is clear or `holding_<id>`; the ground robot and the arm never
reference the same item; a referenced item has no `stack_id`; a
ground-held item sits at the ground robot's `(x, 0, z)`; an arm-held item
sits exactly at the arm's position. -/
def WInv (s : WState) : Prop :=
  ∃ ru rg ra i1 i2 i3,
    s.robots = [ru, rg, ra] ∧
    ru.id = "uav-1" ∧ rg.id = "ugv-1" ∧ ra.id = "arm-1" ∧
    s.items = [i1, i2, i3] ∧
    i1.id = "item-1" ∧ i2.id = "item-2" ∧ i3.id = "item-3" ∧
    ru.current_task = none ∧
    goodTask "carrying_" rg.current_task ∧
    goodTask "holding_" ra.current_task ∧
    (∀ iid, rg.current_task = some ("carrying_" ++ iid) →
      ra.current_task ≠ some ("holding_" ++ iid)) ∧
    (∀ it ∈ s.items, ∀ iid,
      (rg.current_task = some ("carrying_" ++ iid) ∨
        ra.current_task = some ("holding_" ++ iid)) → it.id = iid → it.stack_id = none) ∧
    (∀ it ∈ s.items, ∀ iid, rg.current_task = some ("carrying_" ++ iid) → it.id = iid →
      it.position = ⟨rg.position.x, 0, rg.position.z⟩) ∧
    (∀ it ∈ s.items, ∀ iid, ra.current_task = some ("holding_" ++ iid) → it.id = iid →
      it.position = ra.position)

theorem WInv_seed : WInv seedState := by
  refine ⟨_, _, _, _, _, _, rfl, rfl, rfl, rfl, rfl, rfl, rfl, rfl, rfl,
    Or.inl rfl, Or.inl rfl, ?_, ?_, ?_, ?_⟩ <;> simp [seedState]

theorem findRobot_three_u {s : WState} {ru rg ra : Robot}
    (hrs : s.robots = [ru, rg, ra]) (hru : ru.id = "uav-1") :
    findRobot s "uav-1" = some ru := by
  unfold findRobot
  rw [hrs]
  simp [List.find?, hru]

theorem findRobot_three_g {s : WState} {ru rg ra : Robot}
    (hrs : s.robots = [ru, rg, ra]) (hru : ru.id = "uav-1") (hrg : rg.id = "ugv-1") :
    findRobot s "ugv-1" = some rg := by
  unfold findRobot
  rw [hrs]
  simp [List.find?, hru, hrg]

theorem findRobot_three_a {s : WState} {ru rg ra : Robot}
    (hrs : s.robots = [ru, rg, ra]) (hru : ru.id = "uav-1") (hrg : rg.id = "ugv-1")
    (hra : ra.id = "arm-1") :
    findRobot s "arm-1" = some ra := by
  unfold findRobot
  rw [hrs]
  simp [List.find?, hru, hrg, hra]

theorem upsertRobot_three_u {s : WState} {ru rg ra : Robot}
    (hrs : s.robots = [ru, rg, ra]) (hru : ru.id = "uav-1")
    (a : Option String) (b c : Option V3) (st tk : Option (Option String)) :
    (upsertRobot s "uav-1" a b c st tk).robots = [mergeRobot a b c st tk ru, rg, ra] := by
  have hupd : updateFirstRobot "uav-1" (mergeRobot a b c st tk) s.robots =
      some [mergeRobot a b c st tk ru, rg, ra] := by
    rw [hrs]
    simp [updateFirstRobot, hru]
  unfold upsertRobot
  rw [hupd]

theorem upsertRobot_three_g {s : WState} {ru rg ra : Robot}
    (hrs : s.robots = [ru, rg, ra]) (hru : ru.id = "uav-1") (hrg : rg.id = "ugv-1")
    (a : Option String) (b c : Option V3) (st tk : Option (Option String)) :
    (upsertRobot s "ugv-1" a b c st tk).robots = [ru, mergeRobot a b c st tk rg, ra] := by
  have hupd : updateFirstRobot "ugv-1" (mergeRobot a b c st tk) s.robots =
      some [ru, mergeRobot a b c st tk rg, ra] := by
    rw [hrs]
    simp [updateFirstRobot, hru, hrg]
  unfold upsertRobot
  rw [hupd]

theorem upsertRobot_three_a {s : WState} {ru rg ra : Robot}
    (hrs : s.robots = [ru, rg, ra]) (hru : ru.id = "uav-1") (hrg : rg.id = "ugv-1")
    (hra : ra.id = "arm-1")
    (a : Option String) (b c : Option V3) (st tk : Option (Option String)) :
    (upsertRobot s "arm-1" a b c st tk).robots = [ru, rg, mergeRobot a b c st tk ra] := by
  have hupd : updateFirstRobot "arm-1" (mergeRobot a b c st tk) s.robots =
      some [ru, rg, mergeRobot a b c st tk ra] := by
    rw [hrs]
    simp [updateFirstRobot, hru, hrg, hra]
  unfold upsertRobot
  rw [hupd]

theorem upsertItem_three_1 {s : WState} {i1 i2 i3 : Item}
    (hits : s.items = [i1, i2, i3]) (h1 : i1.id = "item-1") (p : V3) (sid : Option String) :
    (upsertItem s "item-1" p sid).items =
      [{ i1 with position := p, stack_id := sid }, i2, i3] := by
  have hupd : updateFirstItem "item-1" (fun it => { it with position := p, stack_id := sid })
      s.items = some [{ i1 with position := p, stack_id := sid }, i2, i3] := by
    rw [hits]
    simp [updateFirstItem, h1]
  unfold upsertItem
  rw [hupd]

theorem upsertItem_three_2 {s : WState} {i1 i2 i3 : Item}
    (hits : s.items = [i1, i2, i3]) (h1 : i1.id = "item-1") (h2 : i2.id = "item-2")
    (p : V3) (sid : Option String) :
    (upsertItem s "item-2" p sid).items =
      [i1, { i2 with position := p, stack_id := sid }, i3] := by
  have hupd : updateFirstItem "item-2" (fun it => { it with position := p, stack_id := sid })
      s.items = some [i1, { i2 with position := p, stack_id := sid }, i3] := by
    rw [hits]
    simp [updateFirstItem, h1, h2]
  unfold upsertItem
  rw [hupd]

theorem upsertItem_three_3 {s : WState} {i1 i2 i3 : Item}
    (hits : s.items = [i1, i2, i3]) (h1 : i1.id = "item-1") (h2 : i2.id = "item-2")
    (h3 : i3.id = "item-3") (p : V3) (sid : Option String) :
    (upsertItem s "item-3" p sid).items =
      [i1, i2, { i3 with position := p, stack_id := sid }] := by
  have hupd : updateFirstItem "item-3" (fun it => { it with position := p, stack_id := sid })
      s.items = some [i1, i2, { i3 with position := p, stack_id := sid }] := by
    rw [hits]
    simp [updateFirstItem, h1, h2, h3]
  unfold upsertItem
  rw [hupd]

theorem getRobotCarriedItem_eq {s : WState} {rid : String} {r : Robot}
    (hfr : findRobot s rid = some r) :
    getRobotCarriedItem s rid = taskCarried (r.current_task.getD "") := by
  unfold getRobotCarriedItem
  rw [hfr]

/-- Concatenation with a fixed left string is injective. -/
theorem str_append_cancel {s a b : String} (h : s ++ a = s ++ b) : a = b := by
  have hd : s.data ++ a.data = s.data ++ b.data := congrArg String.data h
  have h2 := List.append_cancel_left hd
  cases a
  cases b
  exact congrArg String.mk h2

theorem items_updateRobotPosition (s : WState) (rid : String) (p : V3) :
    (updateRobotPosition s rid p).items = s.items :=
  items_upsertRobot s rid none (some p) none none none

theorem items_updateRobotStatus (s : WState) (rid : String) (st : String)
    (tk : Option (Option String)) : (updateRobotStatus s rid st tk).items = s.items :=
  items_upsertRobot s rid none none none (some (some st)) tk

theorem findItem_mem {s : WState} {iid : String} {it : Item}
    (h : findItem s iid = some it) : it ∈ s.items ∧ it.id = iid := by
  unfold findItem at h
  refine ⟨List.mem_of_find?_eq_some h, ?_⟩
  have h2 := List.find?_some h
  simpa using h2

theorem getRobotHoldingItem_three {s : WState} {ru rg ra : Robot}
    (hrs : s.robots = [ru, rg, ra]) (iid : String) :
    getRobotHoldingItem s iid =
      if taskCarried (ru.current_task.getD "") == some iid then some ru.id
      else if taskCarried (rg.current_task.getD "") == some iid then some rg.id
      else if taskCarried (ra.current_task.getD "") == some iid then some ra.id
      else none := by
  unfold getRobotHoldingItem
  rw [hrs]
  cases c1 : (taskCarried (ru.current_task.getD "") == some iid) <;>
    cases c2 : (taskCarried (rg.current_task.getD "") == some iid) <;>
      cases c3 : (taskCarried (ra.current_task.getD "") == some iid) <;>
        simp [List.find?, c1, c2, c3]

/-- Facts about the item list after a full-update upsert of one of the
three seed item ids: the three ids persist in order, every other item is
unchanged, and every item carrying the updated id now has the new position
and stack. -/
theorem commit_items_facts {s : WState} {i1 i2 i3 : Item}
    (hits : s.items = [i1, i2, i3]) (h1 : i1.id = "item-1") (h2 : i2.id = "item-2")
    (h3 : i3.id = "item-3")
    {IID : String} (hIID : IID = "item-1" ∨ IID = "item-2" ∨ IID = "item-3")
    (Q : V3) (SID : Option String) :
    ∃ j1 j2 j3, (upsertItem s IID Q SID).items = [j1, j2, j3] ∧
      j1.id = "item-1" ∧ j2.id = "item-2" ∧ j3.id = "item-3" ∧
      (∀ jt ∈ (upsertItem s IID Q SID).items, jt.id ≠ IID → jt ∈ s.items) ∧
      (∀ jt ∈ (upsertItem s IID Q SID).items, jt.id = IID →
        jt.position = Q ∧ jt.stack_id = SID) := by
  rcases hIID with rfl | rfl | rfl
  · rw [upsertItem_three_1 hits h1 Q SID]
    refine ⟨_, i2, i3, rfl, h1, h2, h3, ?_, ?_⟩
    · intro jt hjt hne
      rw [hits]
      simp at hjt
      rcases hjt with rfl | rfl | rfl
      · exact absurd h1 hne
      · simp
      · simp
    · intro jt hjt hid
      simp at hjt
      rcases hjt with rfl | rfl | rfl
      · exact ⟨rfl, rfl⟩
      · rw [h2] at hid; exact absurd hid (by decide)
      · rw [h3] at hid; exact absurd hid (by decide)
  · rw [upsertItem_three_2 hits h1 h2 Q SID]
    refine ⟨i1, _, i3, rfl, h1, h2, h3, ?_, ?_⟩
    · intro jt hjt hne
      rw [hits]
      simp at hjt
      rcases hjt with rfl | rfl | rfl
      · simp
      · exact absurd h2 hne
      · simp
    · intro jt hjt hid
      simp at hjt
      rcases hjt with rfl | rfl | rfl
      · rw [h1] at hid; exact absurd hid (by decide)
      · exact ⟨rfl, rfl⟩
      · rw [h3] at hid; exact absurd hid (by decide)
  · rw [upsertItem_three_3 hits h1 h2 h3 Q SID]
    refine ⟨i1, i2, _, rfl, h1, h2, h3, ?_, ?_⟩
    · intro jt hjt hne
      rw [hits]
      simp at hjt
      rcases hjt with rfl | rfl | rfl
      · simp
      · simp
      · exact absurd h3 hne
    · intro jt hjt hid
      simp at hjt
      rcases hjt with rfl | rfl | rfl
      · rw [h1] at hid; exact absurd hid (by decide)
      · rw [h2] at hid; exact absurd hid (by decide)
      · exact ⟨rfl, rfl⟩

/-- Robots after the three-mutation commit shape used by the ground-robot
branches: position update, item upsert, status/task update. -/
theorem commit_robots_g {s : WState} {ru rg ra : Robot}
    (hrs : s.robots = [ru, rg, ra]) (hru : ru.id = "uav-1") (hrg : rg.id = "ugv-1")
    (P : V3) (IID : String) (Q : V3) (SID : Option String) (ST : String)
    (TK : Option String) :
    (updateRobotStatus (upsertItem (updateRobotPosition s "ugv-1" P) IID Q SID)
        "ugv-1" ST (some TK)).robots =
      [ru, { rg with position := P, status := some ST, current_task := TK }, ra] := by
  have hA : (updateRobotPosition s "ugv-1" P).robots = [ru, { rg with position := P }, ra] := by
    unfold updateRobotPosition
    rw [upsertRobot_three_g hrs hru hrg, mergeRobot_position]
  have hB : (upsertItem (updateRobotPosition s "ugv-1" P) IID Q SID).robots =
      [ru, { rg with position := P }, ra] := by
    rw [robots_upsertItem, hA]
  have hid : ({ rg with position := P } : Robot).id = "ugv-1" := hrg
  unfold updateRobotStatus
  rw [upsertRobot_three_g hB hru hid, mergeRobot_status_task]

/-- Robots after the three-mutation commit shape used by the arm
branches. -/
theorem commit_robots_a {s : WState} {ru rg ra : Robot}
    (hrs : s.robots = [ru, rg, ra]) (hru : ru.id = "uav-1") (hrg : rg.id = "ugv-1")
    (hra : ra.id = "arm-1")
    (P : V3) (IID : String) (Q : V3) (SID : Option String) (ST : String)
    (TK : Option String) :
    (updateRobotStatus (upsertItem (updateRobotPosition s "arm-1" P) IID Q SID)
        "arm-1" ST (some TK)).robots =
      [ru, rg, { ra with position := P, status := some ST, current_task := TK }] := by
  have hA : (updateRobotPosition s "arm-1" P).robots = [ru, rg, { ra with position := P }] := by
    unfold updateRobotPosition
    rw [upsertRobot_three_a hrs hru hrg hra, mergeRobot_position]
  have hB : (upsertItem (updateRobotPosition s "arm-1" P) IID Q SID).robots =
      [ru, rg, { ra with position := P }] := by
    rw [robots_upsertItem, hA]
  have hid : ({ ra with position := P } : Robot).id = "arm-1" := hra
  unfold updateRobotStatus
  rw [upsertRobot_three_a hB hru hrg hid, mergeRobot_status_task]

/-- A successful `pick` preserves the reachable-state invariant. -/
theorem WInv_execPick {s s' : WState} {k rid : String} {iopt : Option String}
    (hInv : WInv s) (h : execPick s k rid iopt = (s', none)) (hrid : rid = "ugv-1") :
    WInv s' := by
  subst hrid
  obtain ⟨ru, rg, ra, i1, i2, i3, hrs, hru, hrg, hra, hits, h1, h2, h3, hu, hgg, hga,
    hone, hstk, hpg, hpa⟩ := hInv
  obtain ⟨-, -, hc, item, hfi, hst, hhb, hs'⟩ := execPick_ok h
  have hfrg : findRobot s "ugv-1" = some rg := findRobot_three_g hrs hru hrg
  rw [getRobotCarriedItem_eq hfrg] at hc
  have hgN : rg.current_task = none := by
    rcases hgg with hN | ⟨iidg, hmemg, heq⟩
    · exact hN
    · exfalso
      rw [heq] at hc
      simp [itemIds] at hmemg
      rcases hmemg with rfl | rfl | rfl <;> exact absurd hc (by decide)
  obtain ⟨hmem_item, hid_item⟩ := findItem_mem hfi
  have hIID : pyStrip (iopt.getD "") = "item-1" ∨ pyStrip (iopt.getD "") = "item-2" ∨
      pyStrip (iopt.getD "") = "item-3" := by
    rw [hits] at hmem_item
    simp at hmem_item
    rcases hmem_item with he | he | he
    · exact Or.inl (hid_item.symm.trans ((congrArg Item.id he).trans h1))
    · exact Or.inr (Or.inl (hid_item.symm.trans ((congrArg Item.id he).trans h2)))
    · exact Or.inr (Or.inr (hid_item.symm.trans ((congrArg Item.id he).trans h3)))
  have hmemI : pyStrip (iopt.getD "") ∈ itemIds := by
    rcases hIID with he | he | he <;> rw [he] <;> simp [itemIds]
  have hp0 : (getItemPosition s (pyStrip (iopt.getD ""))).getD ⟨0, 0, 0⟩ = item.position := by
    unfold getItemPosition
    rw [hfi]
    rfl
  have haN : ra.current_task ≠ some ("holding_" ++ pyStrip (iopt.getD "")) := by
    intro haEq
    have hhold : getRobotHoldingItem s (pyStrip (iopt.getD "")) = some "arm-1" := by
      rw [getRobotHoldingItem_three hrs, hu, hgN, haEq]
      rcases hIID with he | he | he <;> rw [he] <;>
        rw [if_neg (by decide), if_neg (by decide), if_pos (by decide), hra]
    exact hhb ⟨by rw [hhold]; decide, by rw [hhold]; decide⟩
  rw [hp0] at hs'
  have hrobots : s'.robots = [ru, { rg with
      position := ⟨item.position.x, 0, item.position.z⟩, status := some "working",
      current_task := some ("carrying_" ++ pyStrip (iopt.getD "")) }, ra] := by
    rw [hs']
    exact commit_robots_g hrs hru hrg _ _ _ _ _ _
  have hitsA : (updateRobotPosition s "ugv-1"
      ⟨item.position.x, 0, item.position.z⟩).items = [i1, i2, i3] := by
    rw [items_updateRobotPosition, hits]
  obtain ⟨j1, j2, j3, hjits, hj1, hj2, hj3, hold_mem, hnew⟩ :=
    commit_items_facts hitsA h1 h2 h3 hIID ⟨item.position.x, 0, item.position.z⟩ none
  have hsitems : s'.items = [j1, j2, j3] := by
    rw [hs']
    simp only [pickCommit]
    rw [items_updateRobotStatus]
    exact hjits
  have hdec : ∀ iid : String, some ("carrying_" ++ pyStrip (iopt.getD "")) =
      some ("carrying_" ++ iid) → iid = pyStrip (iopt.getD "") := by
    intro iid hEq
    have h4 : "carrying_" ++ pyStrip (iopt.getD "") = "carrying_" ++ iid := by
      injection hEq
    exact (str_append_cancel h4).symm
  have hne_of : ∀ iid, ra.current_task = some ("holding_" ++ iid) →
      iid ≠ pyStrip (iopt.getD "") := by
    intro iid hca hEq
    exact haN (hEq ▸ hca)
  have hmemS : ∀ it, it ∈ s'.items → it.id ≠ pyStrip (iopt.getD "") → it ∈ s.items := by
    intro it hit hne
    rw [hsitems, ← hjits] at hit
    have h8 := hold_mem it hit hne
    rw [hitsA] at h8
    rw [hits]
    exact h8
  have hmemN : ∀ it, it ∈ s'.items → it.id = pyStrip (iopt.getD "") →
      it.position = ⟨item.position.x, 0, item.position.z⟩ ∧ it.stack_id = none := by
    intro it hit hid
    rw [hsitems, ← hjits] at hit
    exact hnew it hit hid
  refine ⟨ru, _, ra, j1, j2, j3, hrobots, hru, hrg, hra, hsitems, hj1, hj2, hj3, hu,
    Or.inr ⟨pyStrip (iopt.getD ""), hmemI, rfl⟩, hga, ?_, ?_, ?_, ?_⟩
  · intro iid hEq
    have h5 := hdec iid hEq
    rw [← h5] at haN
    exact haN
  · intro it hit iid hcase hid
    rcases hcase with hcg | hca
    · have h5 := hdec iid hcg
      rw [h5] at hid
      exact (hmemN it hit hid).2
    · have hne : it.id ≠ pyStrip (iopt.getD "") := by
        rw [hid]
        exact hne_of iid hca
      exact hstk it (hmemS it hit hne) iid (Or.inr hca) hid
  · intro it hit iid hcg hid
    have h5 := hdec iid hcg
    rw [h5] at hid
    have h7 := (hmemN it hit hid).1
    rw [h7]
  · intro it hit iid hca hid
    have hne : it.id ≠ pyStrip (iopt.getD "") := by
      rw [hid]
      exact hne_of iid hca
    exact hpa it (hmemS it hit hne) iid hca hid

/-- A successful `drop` preserves the reachable-state invariant. -/
theorem WInv_execDrop {s s' : WState} {k rid : String} {iopt : Option String}
    {x z : Option ℚ} (hInv : WInv s) (h : execDrop s k rid iopt x z = (s', none))
    (hrid : rid = "ugv-1") : WInv s' := by
  subst hrid
  obtain ⟨ru, rg, ra, i1, i2, i3, hrs, hru, hrg, hra, hits, h1, h2, h3, hu, hgg, hga,
    hone, hstk, hpg, hpa⟩ := hInv
  obtain ⟨-, -, -, hcar, -, -, hs'⟩ := execDrop_ok h
  have hfrg : findRobot s "ugv-1" = some rg := findRobot_three_g hrs hru hrg
  have hcar' : taskCarried (rg.current_task.getD "") = some (pyStrip (iopt.getD "")) := by
    rw [← getRobotCarriedItem_eq hfrg]
    exact hcar
  have hgfact : rg.current_task = some ("carrying_" ++ pyStrip (iopt.getD "")) ∧
      (pyStrip (iopt.getD "") = "item-1" ∨ pyStrip (iopt.getD "") = "item-2" ∨
        pyStrip (iopt.getD "") = "item-3") := by
    rcases hgg with hN | ⟨iidg, hmemg, heq⟩
    · exfalso
      rw [hN] at hcar'
      exact Option.noConfusion
        (show (none : Option String) = some (pyStrip (iopt.getD "")) from hcar')
    · rw [heq] at hcar'
      simp [itemIds] at hmemg
      rcases hmemg with rfl | rfl | rfl
      · have h10 : some "item-1" = some (pyStrip (iopt.getD "")) := hcar'
        injection h10 with h11
        exact ⟨by rw [heq, ← h11], Or.inl h11.symm⟩
      · have h10 : some "item-2" = some (pyStrip (iopt.getD "")) := hcar'
        injection h10 with h11
        exact ⟨by rw [heq, ← h11], Or.inr (Or.inl h11.symm)⟩
      · have h10 : some "item-3" = some (pyStrip (iopt.getD "")) := hcar'
        injection h10 with h11
        exact ⟨by rw [heq, ← h11], Or.inr (Or.inr h11.symm)⟩
  obtain ⟨hgtask, hIID⟩ := hgfact
  have hrobots : s'.robots = [ru, { rg with
      position := ⟨x.getD 0, 0, z.getD 0⟩, status := some "idle",
      current_task := none }, ra] := by
    rw [hs']
    exact commit_robots_g hrs hru hrg _ _ _ _ _ _
  have hitsA : (updateRobotPosition s "ugv-1" ⟨x.getD 0, 0, z.getD 0⟩).items =
      [i1, i2, i3] := by
    rw [items_updateRobotPosition, hits]
  obtain ⟨j1, j2, j3, hjits, hj1, hj2, hj3, hold_mem, hnew⟩ :=
    commit_items_facts hitsA h1 h2 h3 hIID ⟨x.getD 0, 0, z.getD 0⟩ none
  have hsitems : s'.items = [j1, j2, j3] := by
    rw [hs']
    simp only [dropCommit]
    rw [items_updateRobotStatus]
    exact hjits
  have hmemS : ∀ it, it ∈ s'.items → it.id ≠ pyStrip (iopt.getD "") → it ∈ s.items := by
    intro it hit hne
    rw [hsitems, ← hjits] at hit
    have h8 := hold_mem it hit hne
    rw [hitsA] at h8
    rw [hits]
    exact h8
  have hmemN : ∀ it, it ∈ s'.items → it.id = pyStrip (iopt.getD "") →
      it.position = ⟨x.getD 0, 0, z.getD 0⟩ ∧ it.stack_id = none := by
    intro it hit hid
    rw [hsitems, ← hjits] at hit
    exact hnew it hit hid
  refine ⟨ru, _, ra, j1, j2, j3, hrobots, hru, hrg, hra, hsitems, hj1, hj2, hj3, hu,
    Or.inl rfl, hga, ?_, ?_, ?_, ?_⟩
  · intro iid hEq
    exact absurd hEq (by simp)
  · intro it hit iid hcase hid
    rcases hcase with hcg | hca
    · exact absurd hcg (by simp)
    · by_cases hidI : it.id = pyStrip (iopt.getD "")
      · exact (hmemN it hit hidI).2
      · exact hstk it (hmemS it hit hidI) iid (Or.inr hca) hid
  · intro it hit iid hcg hid
    exact absurd hcg (by simp)
  · intro it hit iid hca hid
    have hne : it.id ≠ pyStrip (iopt.getD "") := by
      intro hEq
      exact hone (pyStrip (iopt.getD "")) hgtask ((hid.symm.trans hEq) ▸ hca)
    exact hpa it (hmemS it hit hne) iid hca hid

/-- A successful `pick_from_stack` preserves the reachable-state
invariant. -/
theorem WInv_execPickFromStack {s s' : WState} {k rid : String} {sopt : Option String}
    (hInv : WInv s) (h : execPickFromStack s k rid sopt = (s', none))
    (hrid : rid = "arm-1") : WInv s' := by
  subst hrid
  obtain ⟨ru, rg, ra, i1, i2, i3, hrs, hru, hrg, hra, hits, h1, h2, h3, hu, hgg, hga,
    hone, hstk, hpg, hpa⟩ := hInv
  obtain ⟨-, -, hc, top, htop, -, hs'⟩ := execPickFromStack_ok h
  have hfra : findRobot s "arm-1" = some ra := findRobot_three_a hrs hru hrg hra
  rw [getRobotCarriedItem_eq hfra] at hc
  have haN : ra.current_task = none := by
    rcases hga with hN | ⟨iida, hmema, heq⟩
    · exact hN
    · exfalso
      rw [heq] at hc
      simp [itemIds] at hmema
      rcases hmema with rfl | rfl | rfl <;> exact absurd hc (by decide)
  have htopfil : top ∈ s.items.filter
      (fun it => it.stack_id == some (pyStrip (sopt.getD ""))) := by
    obtain ⟨hne, heq⟩ := List.mem_getLast?_eq_getLast (Option.mem_def.mpr htop)
    rw [heq]
    exact List.getLast_mem hne
  have htopmem : top ∈ s.items := (List.mem_filter.mp htopfil).1
  have htopsid : (top.stack_id == some (pyStrip (sopt.getD ""))) = true :=
    (List.mem_filter.mp htopfil).2
  have hIID : top.id = "item-1" ∨ top.id = "item-2" ∨ top.id = "item-3" := by
    rw [hits] at htopmem
    simp at htopmem
    rcases htopmem with he | he | he
    · exact Or.inl ((congrArg Item.id he).trans h1)
    · exact Or.inr (Or.inl ((congrArg Item.id he).trans h2))
    · exact Or.inr (Or.inr ((congrArg Item.id he).trans h3))
  have htopmem' : top ∈ s.items := (List.mem_filter.mp htopfil).1
  have hmemI : top.id ∈ itemIds := by
    rcases hIID with he | he | he <;> rw [he] <;> simp [itemIds]
  have hgne : rg.current_task ≠ some ("carrying_" ++ top.id) := by
    intro hEq
    have h9 := hstk top htopmem' top.id (Or.inl hEq) rfl
    rw [h9] at htopsid
    exact absurd htopsid (by simp)
  have hrobots : s'.robots = [ru, rg, { ra with
      position := top.position, status := some "working",
      current_task := some ("holding_" ++ top.id) }] := by
    rw [hs']
    exact commit_robots_a hrs hru hrg hra _ _ _ _ _ _
  have hitsA : (updateRobotPosition s "arm-1" top.position).items = [i1, i2, i3] := by
    rw [items_updateRobotPosition, hits]
  obtain ⟨j1, j2, j3, hjits, hj1, hj2, hj3, hold_mem, hnew⟩ :=
    commit_items_facts hitsA h1 h2 h3 hIID top.position none
  have hsitems : s'.items = [j1, j2, j3] := by
    rw [hs']
    simp only [pfsCommit]
    rw [items_updateRobotStatus]
    exact hjits
  have hdec : ∀ iid : String, some ("holding_" ++ top.id) =
      some ("holding_" ++ iid) → iid = top.id := by
    intro iid hEq
    have h4 : "holding_" ++ top.id = "holding_" ++ iid := by
      injection hEq
    exact (str_append_cancel h4).symm
  have hmemS : ∀ it, it ∈ s'.items → it.id ≠ top.id → it ∈ s.items := by
    intro it hit hne
    rw [hsitems, ← hjits] at hit
    have h8 := hold_mem it hit hne
    rw [hitsA] at h8
    rw [hits]
    exact h8
  have hmemN : ∀ it, it ∈ s'.items → it.id = top.id →
      it.position = top.position ∧ it.stack_id = none := by
    intro it hit hid
    rw [hsitems, ← hjits] at hit
    exact hnew it hit hid
  refine ⟨ru, rg, _, j1, j2, j3, hrobots, hru, hrg, hra, hsitems, hj1, hj2, hj3, hu,
    hgg, Or.inr ⟨top.id, hmemI, rfl⟩, ?_, ?_, ?_, ?_⟩
  · intro iid hEq hEq2
    have h5 := hdec iid hEq2
    rw [h5] at hEq
    exact hgne hEq
  · intro it hit iid hcase hid
    rcases hcase with hcg | hca
    · have hne : it.id ≠ top.id := by
        intro hEq
        rw [hid.symm.trans hEq] at hcg
        exact hgne hcg
      exact hstk it (hmemS it hit hne) iid (Or.inl hcg) hid
    · have h5 := hdec iid hca
      rw [h5] at hid
      exact (hmemN it hit hid).2
  · intro it hit iid hcg hid
    have hne : it.id ≠ top.id := by
      intro hEq
      rw [hid.symm.trans hEq] at hcg
      exact hgne hcg
    exact hpg it (hmemS it hit hne) iid hcg hid
  · intro it hit iid hca hid
    have h5 := hdec iid hca
    rw [h5] at hid
    exact (hmemN it hit hid).1

/-- A successful `place_on_stack` preserves the reachable-state
invariant. -/
theorem WInv_execPlaceOnStack {s s' : WState} {k rid : String} {iopt sopt : Option String}
    (hInv : WInv s) (h : execPlaceOnStack s k rid iopt sopt = (s', none))
    (hrid : rid = "arm-1") : WInv s' := by
  subst hrid
  obtain ⟨ru, rg, ra, i1, i2, i3, hrs, hru, hrg, hra, hits, h1, h2, h3, hu, hgg, hga,
    hone, hstk, hpg, hpa⟩ := hInv
  obtain ⟨-, -, -, hcar, -, -, hs'0⟩ := execPlaceOnStack_ok h
  obtain ⟨P, hs'⟩ : ∃ P, s' = placeCommit s "arm-1" (pyStrip (iopt.getD ""))
      (pyStrip (sopt.getD "")) P := ⟨_, hs'0⟩
  have hfra : findRobot s "arm-1" = some ra := findRobot_three_a hrs hru hrg hra
  have hcar' : taskCarried (ra.current_task.getD "") = some (pyStrip (iopt.getD "")) := by
    rw [← getRobotCarriedItem_eq hfra]
    exact hcar
  have hafact : ra.current_task = some ("holding_" ++ pyStrip (iopt.getD "")) ∧
      (pyStrip (iopt.getD "") = "item-1" ∨ pyStrip (iopt.getD "") = "item-2" ∨
        pyStrip (iopt.getD "") = "item-3") := by
    rcases hga with hN | ⟨iida, hmema, heq⟩
    · exfalso
      rw [hN] at hcar'
      exact Option.noConfusion
        (show (none : Option String) = some (pyStrip (iopt.getD "")) from hcar')
    · rw [heq] at hcar'
      simp [itemIds] at hmema
      rcases hmema with rfl | rfl | rfl
      · have h10 : some "item-1" = some (pyStrip (iopt.getD "")) := hcar'
        injection h10 with h11
        exact ⟨by rw [heq, ← h11], Or.inl h11.symm⟩
      · have h10 : some "item-2" = some (pyStrip (iopt.getD "")) := hcar'
        injection h10 with h11
        exact ⟨by rw [heq, ← h11], Or.inr (Or.inl h11.symm)⟩
      · have h10 : some "item-3" = some (pyStrip (iopt.getD "")) := hcar'
        injection h10 with h11
        exact ⟨by rw [heq, ← h11], Or.inr (Or.inr h11.symm)⟩
  obtain ⟨hatask, hIID⟩ := hafact
  have hrobots : s'.robots = [ru, rg, { ra with
      position := P, status := some "idle", current_task := none }] := by
    rw [hs']
    exact commit_robots_a hrs hru hrg hra _ _ _ _ _ _
  have hitsA : (updateRobotPosition s "arm-1" P).items = [i1, i2, i3] := by
    rw [items_updateRobotPosition, hits]
  obtain ⟨j1, j2, j3, hjits, hj1, hj2, hj3, hold_mem, hnew⟩ :=
    commit_items_facts hitsA h1 h2 h3 hIID P (some (pyStrip (sopt.getD "")))
  have hsitems : s'.items = [j1, j2, j3] := by
    rw [hs']
    simp only [placeCommit]
    rw [items_updateRobotStatus]
    exact hjits
  have hmemS : ∀ it, it ∈ s'.items → it.id ≠ pyStrip (iopt.getD "") → it ∈ s.items := by
    intro it hit hne
    rw [hsitems, ← hjits] at hit
    have h8 := hold_mem it hit hne
    rw [hitsA] at h8
    rw [hits]
    exact h8
  have hgne : ∀ iid, rg.current_task = some ("carrying_" ++ iid) →
      iid ≠ pyStrip (iopt.getD "") := by
    intro iid hcg hEq
    exact hone iid hcg (by rw [hEq]; exact hatask)
  refine ⟨ru, rg, _, j1, j2, j3, hrobots, hru, hrg, hra, hsitems, hj1, hj2, hj3, hu,
    hgg, Or.inl rfl, ?_, ?_, ?_, ?_⟩
  · intro iid hcg hEq
    exact absurd hEq (by simp)
  · intro it hit iid hcase hid
    rcases hcase with hcg | hca
    · have hne : it.id ≠ pyStrip (iopt.getD "") := by
        rw [hid]
        exact hgne iid hcg
      exact hstk it (hmemS it hit hne) iid (Or.inl hcg) hid
    · exact absurd hca (by simp)
  · intro it hit iid hcg hid
    have hne : it.id ≠ pyStrip (iopt.getD "") := by
      rw [hid]
      exact hgne iid hcg
    exact hpg it (hmemS it hit hne) iid hcg hid
  · intro it hit iid hca hid
    exact absurd hca (by simp)

/-- Decoding facts for the three seed item ids: `carrying_`/`holding_`
tasks round-trip through `taskCarried` and are truthy. -/
theorem itemIds_decode : ∀ iid ∈ itemIds,
    truthy (taskCarried ("carrying_" ++ iid)) = true ∧
    (taskCarried ("carrying_" ++ iid)).getD "" = iid ∧
    truthy (taskCarried ("holding_" ++ iid)) = true ∧
    (taskCarried ("holding_" ++ iid)).getD "" = iid := by decide

/-- Robots after the two-mutation commit shape (position then status) of a
`move` with no carried item, aerial robot. -/
theorem commit1_robots_u {s : WState} {ru rg ra : Robot}
    (hrs : s.robots = [ru, rg, ra]) (hru : ru.id = "uav-1")
    (P : V3) (ST : String) (TK : Option String) :
    (updateRobotStatus (updateRobotPosition s "uav-1" P) "uav-1" ST (some TK)).robots =
      [{ ru with position := P, status := some ST, current_task := TK }, rg, ra] := by
  have hA : (updateRobotPosition s "uav-1" P).robots =
      [{ ru with position := P }, rg, ra] := by
    unfold updateRobotPosition
    rw [upsertRobot_three_u hrs hru, mergeRobot_position]
  have hid : ({ ru with position := P } : Robot).id = "uav-1" := hru
  unfold updateRobotStatus
  rw [upsertRobot_three_u hA hid, mergeRobot_status_task]

/-- Robots after the two-mutation commit shape of a `move` with no
carried item, ground robot. -/
theorem commit1_robots_g {s : WState} {ru rg ra : Robot}
    (hrs : s.robots = [ru, rg, ra]) (hru : ru.id = "uav-1") (hrg : rg.id = "ugv-1")
    (P : V3) (ST : String) (TK : Option String) :
    (updateRobotStatus (updateRobotPosition s "ugv-1" P) "ugv-1" ST (some TK)).robots =
      [ru, { rg with position := P, status := some ST, current_task := TK }, ra] := by
  have hA : (updateRobotPosition s "ugv-1" P).robots =
      [ru, { rg with position := P }, ra] := by
    unfold updateRobotPosition
    rw [upsertRobot_three_g hrs hru hrg, mergeRobot_position]
  have hid : ({ rg with position := P } : Robot).id = "ugv-1" := hrg
  unfold updateRobotStatus
  rw [upsertRobot_three_g hA hru hid, mergeRobot_status_task]

/-- Robots after the two-mutation commit shape of a `move` with no
carried item, arm. -/
theorem commit1_robots_a {s : WState} {ru rg ra : Robot}
    (hrs : s.robots = [ru, rg, ra]) (hru : ru.id = "uav-1") (hrg : rg.id = "ugv-1")
    (hra : ra.id = "arm-1") (P : V3) (ST : String) (TK : Option String) :
    (updateRobotStatus (updateRobotPosition s "arm-1" P) "arm-1" ST (some TK)).robots =
      [ru, rg, { ra with position := P, status := some ST, current_task := TK }] := by
  have hA : (updateRobotPosition s "arm-1" P).robots =
      [ru, rg, { ra with position := P }] := by
    unfold updateRobotPosition
    rw [upsertRobot_three_a hrs hru hrg hra, mergeRobot_position]
  have hid : ({ ra with position := P } : Robot).id = "arm-1" := hra
  unfold updateRobotStatus
  rw [upsertRobot_three_a hA hru hrg hid, mergeRobot_status_task]

/-- A successful `move` preserves the reachable-state invariant, for each
of the three robot keys. -/
theorem WInv_execMove {s s' : WState} {k rid : String} {c : V3} {dir : Option String}
    {x y z : Option ℚ} (hInv : WInv s) (h : execMove s k rid c dir x y z = (s', none))
    (hkr : (k = "uav" ∧ rid = "uav-1") ∨ (k = "ugv" ∧ rid = "ugv-1") ∨
      (k = "arm" ∧ rid = "arm-1")) : WInv s' := by
  obtain ⟨ru, rg, ra, i1, i2, i3, hrs, hru, hrg, hra, hits, h1, h2, h3, hu, hgg, hga,
    hone, hstk, hpg, hpa⟩ := hInv
  obtain ⟨tx, ty, tz, -, -, -, hs'⟩ := execMove_ok h
  rcases hkr with ⟨hk, hr⟩ | ⟨hk, hr⟩ | ⟨hk, hr⟩ <;> subst hk <;> subst hr
  · -- aerial robot: never carries anything
    have hfr : findRobot s "uav-1" = some ru := findRobot_three_u hrs hru
    simp only [hfr, hu, Option.getD_none] at hs'
    simp only [moveCommit] at hs'
    rw [if_neg (by decide)] at hs'
    have hrobots : s'.robots = [{ ru with
        position := ⟨tx, ty, tz⟩
        status := some "idle"
        current_task := none }, rg, ra] := by
      rw [hs']
      exact commit1_robots_u hrs hru _ _ _
    have hsitems : s'.items = [i1, i2, i3] := by
      rw [hs', items_updateRobotStatus, items_updateRobotPosition, hits]
    refine ⟨_, rg, ra, i1, i2, i3, hrobots, hru, hrg, hra, hsitems, h1, h2, h3, rfl,
      hgg, hga, hone, ?_, ?_, ?_⟩
    · intro it hit iid hcase hid
      rw [hsitems, ← hits] at hit
      exact hstk it hit iid hcase hid
    · intro it hit iid hcg hid
      rw [hsitems, ← hits] at hit
      exact hpg it hit iid hcg hid
    · intro it hit iid hca hid
      rw [hsitems, ← hits] at hit
      exact hpa it hit iid hca hid
  · -- ground robot
    have hfr : findRobot s "ugv-1" = some rg := findRobot_three_g hrs hru hrg
    simp only [hfr] at hs'
    rcases hgg with hN | ⟨iidg, hmemg, heq⟩
    · simp only [hN, Option.getD_none] at hs'
      simp only [moveCommit] at hs'
      rw [if_neg (by decide)] at hs'
      have hrobots : s'.robots = [ru, { rg with
          position := ⟨tx, ty, tz⟩
          status := some "idle"
          current_task := none }, ra] := by
        rw [hs']
        exact commit1_robots_g hrs hru hrg _ _ _
      have hsitems : s'.items = [i1, i2, i3] := by
        rw [hs', items_updateRobotStatus, items_updateRobotPosition, hits]
      refine ⟨ru, _, ra, i1, i2, i3, hrobots, hru, hrg, hra, hsitems, h1, h2, h3, hu,
        Or.inl rfl, hga, ?_, ?_, ?_, ?_⟩
      · intro iid hEq
        exact absurd hEq (by simp)
      · intro it hit iid hcase hid
        rw [hsitems, ← hits] at hit
        rcases hcase with hcg | hca
        · exact absurd hcg (by simp)
        · exact hstk it hit iid (Or.inr hca) hid
      · intro it hit iid hcg hid
        exact absurd hcg (by simp)
      · intro it hit iid hca hid
        rw [hsitems, ← hits] at hit
        exact hpa it hit iid hca hid
    · obtain ⟨htru, hgetD, -, -⟩ := itemIds_decode iidg hmemg
      have hIID : iidg = "item-1" ∨ iidg = "item-2" ∨ iidg = "item-3" := by
        simpa [itemIds] using hmemg
      simp only [heq, Option.getD_some] at hs'
      simp only [moveCommit] at hs'
      rw [if_pos htru, hgetD] at hs'
      have hrobots : s'.robots = [ru, { rg with
          position := ⟨tx, ty, tz⟩
          status := some "working"
          current_task := some ("carrying_" ++ iidg) }, ra] := by
        rw [hs']
        exact commit_robots_g hrs hru hrg _ _ _ _ _ _
      have hitsA : (updateRobotPosition s "ugv-1" ⟨tx, ty, tz⟩).items = [i1, i2, i3] := by
        rw [items_updateRobotPosition, hits]
      obtain ⟨j1, j2, j3, hjits, hj1, hj2, hj3, hold_mem, hnew⟩ :=
        commit_items_facts hitsA h1 h2 h3 hIID ⟨tx, 0, tz⟩ none
      have hsitems : s'.items = [j1, j2, j3] := by
        rw [hs', items_updateRobotStatus]
        exact hjits
      have hdec : ∀ iid : String, some ("carrying_" ++ iidg) =
          some ("carrying_" ++ iid) → iid = iidg := by
        intro iid hEq
        have h4 : "carrying_" ++ iidg = "carrying_" ++ iid := by
          injection hEq
        exact (str_append_cancel h4).symm
      have hane : ra.current_task ≠ some ("holding_" ++ iidg) := hone iidg heq
      have hmemS : ∀ it, it ∈ s'.items → it.id ≠ iidg → it ∈ s.items := by
        intro it hit hne
        rw [hsitems, ← hjits] at hit
        have h8 := hold_mem it hit hne
        rw [hitsA] at h8
        rw [hits]
        exact h8
      have hmemN : ∀ it, it ∈ s'.items → it.id = iidg →
          it.position = ⟨tx, 0, tz⟩ ∧ it.stack_id = none := by
        intro it hit hid
        rw [hsitems, ← hjits] at hit
        exact hnew it hit hid
      refine ⟨ru, _, ra, j1, j2, j3, hrobots, hru, hrg, hra, hsitems, hj1, hj2, hj3, hu,
        Or.inr ⟨iidg, hmemg, rfl⟩, hga, ?_, ?_, ?_, ?_⟩
      · intro iid hEq
        have h5 := hdec iid hEq
        rw [h5]
        exact hane
      · intro it hit iid hcase hid
        rcases hcase with hcg | hca
        · have h5 := hdec iid hcg
          rw [h5] at hid
          exact (hmemN it hit hid).2
        · have hne : it.id ≠ iidg := by
            intro hEq
            have h6 : iid = iidg := hid.symm.trans hEq
            exact hane (h6 ▸ hca)
          exact hstk it (hmemS it hit hne) iid (Or.inr hca) hid
      · intro it hit iid hcg hid
        have h5 := hdec iid hcg
        rw [h5] at hid
        have h7 := (hmemN it hit hid).1
        rw [h7]
      · intro it hit iid hca hid
        have hne : it.id ≠ iidg := by
          intro hEq
          have h6 : iid = iidg := hid.symm.trans hEq
          exact hane (h6 ▸ hca)
        exact hpa it (hmemS it hit hne) iid hca hid
  · -- arm
    have hfr : findRobot s "arm-1" = some ra := findRobot_three_a hrs hru hrg hra
    simp only [hfr] at hs'
    rcases hga with hN | ⟨iida, hmema, heq⟩
    · simp only [hN, Option.getD_none] at hs'
      simp only [moveCommit] at hs'
      rw [if_neg (by decide)] at hs'
      have hrobots : s'.robots = [ru, rg, { ra with
          position := ⟨tx, ty, tz⟩
          status := some "idle"
          current_task := none }] := by
        rw [hs']
        exact commit1_robots_a hrs hru hrg hra _ _ _
      have hsitems : s'.items = [i1, i2, i3] := by
        rw [hs', items_updateRobotStatus, items_updateRobotPosition, hits]
      refine ⟨ru, rg, _, i1, i2, i3, hrobots, hru, hrg, hra, hsitems, h1, h2, h3, hu,
        hgg, Or.inl rfl, ?_, ?_, ?_, ?_⟩
      · intro iid hcg hEq
        exact absurd hEq (by simp)
      · intro it hit iid hcase hid
        rw [hsitems, ← hits] at hit
        rcases hcase with hcg | hca
        · exact hstk it hit iid (Or.inl hcg) hid
        · exact absurd hca (by simp)
      · intro it hit iid hcg hid
        rw [hsitems, ← hits] at hit
        exact hpg it hit iid hcg hid
      · intro it hit iid hca hid
        exact absurd hca (by simp)
    · obtain ⟨-, -, htru, hgetD⟩ := itemIds_decode iida hmema
      have hIID : iida = "item-1" ∨ iida = "item-2" ∨ iida = "item-3" := by
        simpa [itemIds] using hmema
      simp only [heq, Option.getD_some] at hs'
      simp only [moveCommit] at hs'
      rw [if_pos htru, if_neg (by decide), hgetD] at hs'
      have hrobots : s'.robots = [ru, rg, { ra with
          position := ⟨tx, ty, tz⟩
          status := some "working"
          current_task := some ("holding_" ++ iida) }] := by
        rw [hs']
        exact commit_robots_a hrs hru hrg hra _ _ _ _ _ _
      have hitsA : (updateRobotPosition s "arm-1" ⟨tx, ty, tz⟩).items = [i1, i2, i3] := by
        rw [items_updateRobotPosition, hits]
      obtain ⟨j1, j2, j3, hjits, hj1, hj2, hj3, hold_mem, hnew⟩ :=
        commit_items_facts hitsA h1 h2 h3 hIID ⟨tx, ty, tz⟩ none
      have hsitems : s'.items = [j1, j2, j3] := by
        rw [hs', items_updateRobotStatus]
        exact hjits
      have hdec : ∀ iid : String, some ("holding_" ++ iida) =
          some ("holding_" ++ iid) → iid = iida := by
        intro iid hEq
        have h4 : "holding_" ++ iida = "holding_" ++ iid := by
          injection hEq
        exact (str_append_cancel h4).symm
      have hgne : ∀ iid, rg.current_task = some ("carrying_" ++ iid) → iid ≠ iida := by
        intro iid hcg hEq
        exact hone iid hcg (by rw [hEq]; exact heq)
      have hmemS : ∀ it, it ∈ s'.items → it.id ≠ iida → it ∈ s.items := by
        intro it hit hne
        rw [hsitems, ← hjits] at hit
        have h8 := hold_mem it hit hne
        rw [hitsA] at h8
        rw [hits]
        exact h8
      have hmemN : ∀ it, it ∈ s'.items → it.id = iida →
          it.position = ⟨tx, ty, tz⟩ ∧ it.stack_id = none := by
        intro it hit hid
        rw [hsitems, ← hjits] at hit
        exact hnew it hit hid
      refine ⟨ru, rg, _, j1, j2, j3, hrobots, hru, hrg, hra, hsitems, hj1, hj2, hj3, hu,
        hgg, Or.inr ⟨iida, hmema, rfl⟩, ?_, ?_, ?_, ?_⟩
      · intro iid hcg hEq
        have h5 := hdec iid hEq
        exact hgne iid hcg h5
      · intro it hit iid hcase hid
        rcases hcase with hcg | hca
        · have hne : it.id ≠ iida := by
            rw [hid]
            exact hgne iid hcg
          exact hstk it (hmemS it hit hne) iid (Or.inl hcg) hid
        · have h5 := hdec iid hca
          rw [h5] at hid
          exact (hmemN it hit hid).2
      · intro it hit iid hcg hid
        have hne : it.id ≠ iida := by
          rw [hid]
          exact hgne iid hcg
        exact hpg it (hmemS it hit hne) iid hcg hid
      · intro it hit iid hca hid
        have h5 := hdec iid hca
        rw [h5] at hid
        exact (hmemN it hit hid).1

theorem robotIdMap_inv {k rid : String} (h : robotIdMap k = some rid) :
    (k = "uav" ∧ rid = "uav-1") ∨ (k = "ugv" ∧ rid = "ugv-1") ∨
      (k = "arm" ∧ rid = "arm-1") := by
  unfold robotIdMap at h
  by_cases h1 : k = "uav"
  · rw [if_pos h1] at h
    exact Or.inl ⟨h1, (Option.some.inj h).symm⟩
  · rw [if_neg h1] at h
    by_cases h2 : k = "ugv"
    · rw [if_pos h2] at h
      exact Or.inr (Or.inl ⟨h2, (Option.some.inj h).symm⟩)
    · rw [if_neg h2] at h
      by_cases h3 : k = "arm"
      · rw [if_pos h3] at h
        exact Or.inr (Or.inr ⟨h3, (Option.some.inj h).symm⟩)
      · rw [if_neg h3] at h
        cases h

theorem rid_of_ugv {k rid : String}
    (hkr : (k = "uav" ∧ rid = "uav-1") ∨ (k = "ugv" ∧ rid = "ugv-1") ∨
      (k = "arm" ∧ rid = "arm-1")) (hk : k = "ugv") : rid = "ugv-1" := by
  rcases hkr with ⟨h5, h6⟩ | ⟨h5, h6⟩ | ⟨h5, h6⟩
  · exact absurd (h5.symm.trans hk) (by decide)
  · exact h6
  · exact absurd (h5.symm.trans hk) (by decide)

theorem rid_of_arm {k rid : String}
    (hkr : (k = "uav" ∧ rid = "uav-1") ∨ (k = "ugv" ∧ rid = "ugv-1") ∨
      (k = "arm" ∧ rid = "arm-1")) (hk : k = "arm") : rid = "arm-1" := by
  rcases hkr with ⟨h5, h6⟩ | ⟨h5, h6⟩ | ⟨h5, h6⟩
  · exact absurd (h5.symm.trans hk) (by decide)
  · exact absurd (h5.symm.trans hk) (by decide)
  · exact h6

/-- Every successful `execute_warehouse_command` call preserves the
reachable-state invariant. -/
theorem WInv_execute {s s' : WState} {robot action : String}
    {dir i st : Option String} {x y z : Option ℚ} (hInv : WInv s)
    (h : execute s robot action dir i st x y z = (s', none)) : WInv s' := by
  unfold execute at h
  cases hmap : robotIdMap (pyLower (pyStrip robot)) with
  | none =>
    simp only [hmap] at h
    exact absurd (congrArg Prod.snd h) (by simp)
  | some rid =>
    simp only [hmap] at h
    have hkr := robotIdMap_inv hmap
    by_cases hA : normAct action = "pick"
    · rw [if_pos hA] at h
      exact WInv_execPick hInv h (rid_of_ugv hkr (execPick_ok h).1)
    · rw [if_neg hA] at h
      by_cases hB : normAct action = "drop"
      · rw [if_pos hB] at h
        exact WInv_execDrop hInv h (rid_of_ugv hkr (execDrop_ok h).1)
      · rw [if_neg hB] at h
        by_cases hC : normAct action = "pick_from_stack"
        · rw [if_pos hC] at h
          exact WInv_execPickFromStack hInv h (rid_of_arm hkr (execPickFromStack_ok h).1)
        · rw [if_neg hC] at h
          by_cases hD : normAct action = "place_on_stack"
          · rw [if_pos hD] at h
            exact WInv_execPlaceOnStack hInv h (rid_of_arm hkr (execPlaceOnStack_ok h).1)
          · rw [if_neg hD] at h
            exact WInv_execMove hInv h hkr

/-- Every state reachable by successful commands satisfies the
invariant. -/
theorem Reachable_WInv {s : WState} (h : Reachable s) : WInv s := by
  induction h with
  | seed => exact WInv_seed
  | step c hr hstep ih => exact WInv_execute ih hstep

/-- Post-state of `pick item-1` by the ground robot from the seed
state. -/
def c3s1 : WState :=
  (execute seedState "ugv" "pick" none (some "item-1") none none none none).1

/-- Post-state of a subsequent absolute `move` of the ground robot to
`(10, 3, 5)` — an explicit `y = 3` for the ground robot. -/
def c3s2 : WState :=
  (execute c3s1 "ugv" "move" none none none (some 10) (some 3) (some 5)).1

/-- Claim C3 counterexample: two successful commands from the seed state
— `pick item-1` then an absolute move with explicit `y = 3` — reach a
state in which the ground robot's task still references `item-1`, yet the
robot sits at `(10, 3, 5)` while the carried item sits at `(10, 0, 5)`:
the held item's position does not equal its holder's position, refuting
the claim's third invariant as stated. -/
theorem held_item_colocation_counterexample :
    (execute seedState "ugv" "pick" none (some "item-1") none none none none).2 = none ∧
    (execute c3s1 "ugv" "move" none none none (some 10) (some 3) (some 5)).2 = none ∧
    (findRobot c3s2 "ugv-1").map (fun r => r.current_task) =
      some (some "carrying_item-1") ∧
    (findRobot c3s2 "ugv-1").map (fun r => r.position) = some ⟨10, 3, 5⟩ ∧
    (findItem c3s2 "item-1").map (fun it => it.position) = some ⟨10, 0, 5⟩ := by
  with_unfolding_all decide

/-- Claim C3 (amended): in every state reachable from the seed state by
successful commands, the held-item invariants hold in the corrected form:
the aerial robot never references an item and the ground robot and arm
never reference the same item (at most one holder); every referenced item
has `stack_id = none`; a ground-carried item sits at the holder's
`(x, 0, z)` (height `0`, not the holder's height); an arm-held item sits
exactly at the holder's position. -/
theorem reachable_held_item_invariants {s : WState} (h : Reachable s) :
    ∃ ru rg ra, s.robots = [ru, rg, ra] ∧
      ru.id = "uav-1" ∧ rg.id = "ugv-1" ∧ ra.id = "arm-1" ∧
      ru.current_task = none ∧
      (∀ iid, rg.current_task = some ("carrying_" ++ iid) →
        ra.current_task ≠ some ("holding_" ++ iid)) ∧
      (∀ it ∈ s.items, ∀ iid,
        (rg.current_task = some ("carrying_" ++ iid) ∨
          ra.current_task = some ("holding_" ++ iid)) → it.id = iid →
        it.stack_id = none) ∧
      (∀ it ∈ s.items, ∀ iid, rg.current_task = some ("carrying_" ++ iid) →
        it.id = iid → it.position = ⟨rg.position.x, 0, rg.position.z⟩) ∧
      (∀ it ∈ s.items, ∀ iid, ra.current_task = some ("holding_" ++ iid) →
        it.id = iid → it.position = ra.position) := by
  obtain ⟨ru, rg, ra, i1, i2, i3, hrs, hru, hrg, hra, hits, h1, h2, h3, hu, hgg, hga,
    hone, hstk, hpg, hpa⟩ := Reachable_WInv h
  exact ⟨ru, rg, ra, hrs, hru, hrg, hra, hu, hone, hstk, hpg, hpa⟩

theorem reachable_held_item_invariants_witness :
    ∃ ru rg ra, seedState.robots = [ru, rg, ra] ∧
      ru.id = "uav-1" ∧ rg.id = "ugv-1" ∧ ra.id = "arm-1" ∧
      ru.current_task = none ∧
      (∀ iid, rg.current_task = some ("carrying_" ++ iid) →
        ra.current_task ≠ some ("holding_" ++ iid)) ∧
      (∀ it ∈ seedState.items, ∀ iid,
        (rg.current_task = some ("carrying_" ++ iid) ∨
          ra.current_task = some ("holding_" ++ iid)) → it.id = iid →
        it.stack_id = none) ∧
      (∀ it ∈ seedState.items, ∀ iid, rg.current_task = some ("carrying_" ++ iid) →
        it.id = iid → it.position = ⟨rg.position.x, 0, rg.position.z⟩) ∧
      (∀ it ∈ seedState.items, ∀ iid, ra.current_task = some ("holding_" ++ iid) →
        it.id = iid → it.position = ra.position) :=
  reachable_held_item_invariants Reachable.seed

/-- Effect of `updateFirstItem` on a `countP`: only the first item with
the given id changes, swapping its contribution for the updated one's. -/
theorem countP_updateFirstItem {iid : String} {f : Item → Item} (q : Item → Bool) :
    ∀ {l l' : List Item}, updateFirstItem iid f l = some l' →
    ∃ it0, l.find? (fun it => it.id == iid) = some it0 ∧
      l'.countP q + (if q it0 then 1 else 0) =
        l.countP q + (if q (f it0) then 1 else 0)
  | [], l', h => by simp [updateFirstItem] at h
  | it :: rest, l', h => by
    unfold updateFirstItem at h
    by_cases hb : (it.id == iid) = true
    · rw [if_pos hb] at h
      injection h with h'
      subst h'
      refine ⟨it, List.find?_cons_of_pos _ hb, ?_⟩
      simp only [List.countP_cons]
      omega
    · rw [if_neg hb] at h
      cases hrec : updateFirstItem iid f rest with
      | none =>
        rw [hrec] at h
        cases h
      | some rest' =>
        rw [hrec] at h
        injection h with h'
        subst h'
        obtain ⟨it0, hf, hcount⟩ := countP_updateFirstItem q hrec
        refine ⟨it0, ?_, ?_⟩
        · have hstep : List.find? (fun it => it.id == iid) (it :: rest) =
              List.find? (fun it => it.id == iid) rest :=
            List.find?_cons_of_neg rest hb
          rw [hstep]
          exact hf
        · simp only [List.countP_cons]
          omega

/-- Effect of `upsert_item` on a `countP` when the id is present. -/
theorem countP_upsertItem {s : WState} {iid : String} {item : Item}
    (hfi : findItem s iid = some item) (p : V3) (sd : Option String) (q : Item → Bool) :
    (upsertItem s iid p sd).items.countP q + (if q item then 1 else 0) =
      s.items.countP q +
        (if q { item with position := p, stack_id := sd } then 1 else 0) := by
  unfold findItem at hfi
  unfold upsertItem
  cases hupd : updateFirstItem iid
      (fun it => { it with position := p, stack_id := sd }) s.items with
  | none =>
    rw [updateFirstItem_eq_none hupd] at hfi
    cases hfi
  | some its =>
    obtain ⟨it0, hf, hcount⟩ := countP_updateFirstItem q hupd
    have he : it0 = item := Option.some.inj (hf.symm.trans hfi)
    subst he
    exact hcount

/-- A falsy `stack_id` (None or empty) never matches a nonempty stack
id. -/
theorem beq_some_of_falsy {o : Option String} {sid : String} (h : truthy o = false)
    (hsid : sid ≠ "") : (o == some sid) = false := by
  cases o with
  | none => rfl
  | some t =>
    simp [truthy] at h
    subst h
    rw [beq_eq_false_iff_ne]
    intro hEq
    exact hsid (Option.some.inj hEq).symm

theorem taskCarried_pre : ∀ iid ∈ itemIds,
    taskCarried ("carrying_" ++ iid) = some iid ∧
    taskCarried ("holding_" ++ iid) = some iid := by decide

/-- Decoding a `carrying_` task of invariant shape. -/
theorem taskCarried_decode_c {t : Option String} {iid : String}
    (hgood : goodTask "carrying_" t) (h : taskCarried (t.getD "") = some iid) :
    t = some ("carrying_" ++ iid) ∧ iid ∈ itemIds := by
  rcases hgood with hN | ⟨iid0, hmem, heq⟩
  · exfalso
    rw [hN] at h
    exact Option.noConfusion (show (none : Option String) = some iid from h)
  · rw [heq, Option.getD_some, (taskCarried_pre iid0 hmem).1] at h
    injection h with h'
    rw [← h']
    exact ⟨heq, hmem⟩

/-- Decoding a `holding_` task of invariant shape. -/
theorem taskCarried_decode_h {t : Option String} {iid : String}
    (hgood : goodTask "holding_" t) (h : taskCarried (t.getD "") = some iid) :
    t = some ("holding_" ++ iid) ∧ iid ∈ itemIds := by
  rcases hgood with hN | ⟨iid0, hmem, heq⟩
  · exfalso
    rw [hN] at h
    exact Option.noConfusion (show (none : Option String) = some iid from h)
  · rw [heq, Option.getD_some, (taskCarried_pre iid0 hmem).2] at h
    injection h with h'
    rw [← h']
    exact ⟨heq, hmem⟩

/-- With the three distinct seed ids, `findItem` at a member's id returns
that member. -/
theorem findItem_three_of_mem {s : WState} {i1 i2 i3 : Item}
    (hits : s.items = [i1, i2, i3]) (h1 : i1.id = "item-1") (h2 : i2.id = "item-2")
    (h3 : i3.id = "item-3") {it : Item} (hmem : it ∈ s.items) :
    findItem s it.id = some it := by
  unfold findItem
  rw [hits] at hmem ⊢
  simp at hmem
  rcases hmem with rfl | rfl | rfl
  · simp [List.find?]
  · simp [List.find?, h1, h2]
  · simp [List.find?, h1, h2, h3]

/-- With the three seed ids present, `findItem` at one of them
succeeds. -/
theorem findItem_of_itemIds {s : WState} {i1 i2 i3 : Item}
    (hits : s.items = [i1, i2, i3]) (h1 : i1.id = "item-1") (h2 : i2.id = "item-2")
    (h3 : i3.id = "item-3") {iid : String} (hIID : iid ∈ itemIds) :
    ∃ it, findItem s iid = some it ∧ it ∈ s.items ∧ it.id = iid := by
  simp [itemIds] at hIID
  rcases hIID with rfl | rfl | rfl
  · refine ⟨i1, ?_, by rw [hits]; simp, h1⟩
    rw [← h1]
    exact findItem_three_of_mem hits h1 h2 h3 (by rw [hits]; simp)
  · refine ⟨i2, ?_, by rw [hits]; simp, h2⟩
    rw [← h2]
    exact findItem_three_of_mem hits h1 h2 h3 (by rw [hits]; simp)
  · refine ⟨i3, ?_, by rw [hits]; simp, h3⟩
    rw [← h3]
    exact findItem_three_of_mem hits h1 h2 h3 (by rw [hits]; simp)

/-- Stack height after the three-mutation commit shape: the updated
item's old contribution is swapped for its new one. -/
theorem stackHeight_commit {s : WState} {iid : String} {item : Item}
    (hfi : findItem s iid = some item) (rid : String) (P Q : V3) (sd : Option String)
    (ST : String) (TK : Option (Option String)) (sid : String)
    (hold : (item.stack_id == some sid) = false) :
    stackHeight (updateRobotStatus (upsertItem (updateRobotPosition s rid P) iid Q sd)
        rid ST TK) sid =
      stackHeight s sid + (if sd = some sid then 1 else 0) := by
  have hfiA : findItem (updateRobotPosition s rid P) iid = some item := by
    unfold updateRobotPosition
    rw [findItem_upsertRobot]
    exact hfi
  have hc := countP_upsertItem hfiA Q sd (fun it => it.stack_id == some sid)
  unfold stackHeight
  rw [items_updateRobotStatus]
  have hsA : (updateRobotPosition s rid P).items = s.items :=
    items_updateRobotPosition s rid P
  rw [hsA] at hc
  simp only [hold] at hc
  simp at hc
  rw [hc]

/-- A `move` commit never changes a stack height, provided any carried
item does not count toward the stack. -/
theorem stackHeight_moveCommit (s : WState) (k rid : String) (task : String)
    (tx ty tz : ℚ) (sid : String)
    (hheld : truthy (taskCarried task) = true →
      ∃ item, findItem s ((taskCarried task).getD "") = some item ∧
        (item.stack_id == some sid) = false) :
    stackHeight (moveCommit s k rid task tx ty tz) sid = stackHeight s sid := by
  by_cases htr : truthy (taskCarried task) = true
  · obtain ⟨item, hfi, hold⟩ := hheld htr
    simp only [moveCommit]
    rw [if_pos htr]
    by_cases hk : k = "ugv"
    · rw [if_pos hk]
      have h10 : stackHeight (updateRobotStatus (upsertItem
          (updateRobotPosition s rid ⟨tx, ty, tz⟩) ((taskCarried task).getD "")
          ⟨tx, 0, tz⟩ none) rid "working" (some (some task))) sid =
          stackHeight s sid + (if (none : Option String) = some sid then 1 else 0) :=
        stackHeight_commit hfi rid _ _ none "working" (some (some task)) sid hold
      rw [h10]
      simp
    · rw [if_neg hk]
      have h10 : stackHeight (updateRobotStatus (upsertItem
          (updateRobotPosition s rid ⟨tx, ty, tz⟩) ((taskCarried task).getD "")
          ⟨tx, ty, tz⟩ none) rid "working" (some (some task))) sid =
          stackHeight s sid + (if (none : Option String) = some sid then 1 else 0) :=
        stackHeight_commit hfi rid _ _ none "working" (some (some task)) sid hold
      rw [h10]
      simp
  · simp only [moveCommit]
    rw [if_neg htr]
    unfold stackHeight
    rw [items_updateRobotStatus, items_updateRobotPosition]

/-- No successful command other than a `pick_from_stack` on `sid` itself
ever decreases the height of a nonempty-named stack, on invariant
states. -/
theorem stackHeight_execute_mono {s s' : WState} {robot action : String}
    {dir i st : Option String} {x y z : Option ℚ} {sid : String}
    (hInv : WInv s) (h : execute s robot action dir i st x y z = (s', none))
    (hsid : sid ≠ "")
    (hnp : ¬(normAct action = "pick_from_stack" ∧ pyStrip (st.getD "") = sid)) :
    stackHeight s sid ≤ stackHeight s' sid := by
  obtain ⟨ru, rg, ra, i1, i2, i3, hrs, hru, hrg, hra, hits, h1, h2, h3, hu, hgg, hga,
    hone, hstk, hpg, hpa⟩ := hInv
  unfold execute at h
  cases hmap : robotIdMap (pyLower (pyStrip robot)) with
  | none =>
    simp only [hmap] at h
    exact absurd (congrArg Prod.snd h) (by simp)
  | some rid =>
    simp only [hmap] at h
    have hkr := robotIdMap_inv hmap
    by_cases hA : normAct action = "pick"
    · rw [if_pos hA] at h
      obtain ⟨-, -, -, item, hfi, hst', -, hs'⟩ := execPick_ok h
      have hold : (item.stack_id == some sid) = false := beq_some_of_falsy hst' hsid
      have h10 : stackHeight (pickCommit s rid (pyStrip (i.getD ""))
          ((getItemPosition s (pyStrip (i.getD ""))).getD ⟨0, 0, 0⟩)) sid =
          stackHeight s sid + (if (none : Option String) = some sid then 1 else 0) :=
        stackHeight_commit hfi rid _ _ none "working"
          (some (some ("carrying_" ++ pyStrip (i.getD "")))) sid hold
      rw [hs', h10]
      simp
    · rw [if_neg hA] at h
      by_cases hB : normAct action = "drop"
      · rw [if_pos hB] at h
        obtain ⟨hk, -, -, hcar, -, -, hs'⟩ := execDrop_ok h
        have hrid := rid_of_ugv hkr hk
        subst hrid
        have hfrg : findRobot s "ugv-1" = some rg := findRobot_three_g hrs hru hrg
        rw [getRobotCarriedItem_eq hfrg] at hcar
        obtain ⟨htask, hmem⟩ := taskCarried_decode_c hgg hcar
        obtain ⟨item, hfi, hitmem, hitid⟩ := findItem_of_itemIds hits h1 h2 h3 hmem
        have hstk0 : item.stack_id = none :=
          hstk item hitmem _ (Or.inl htask) hitid
        have hold : (item.stack_id == some sid) = false := by
          rw [hstk0]
          rfl
        have h10 : stackHeight (dropCommit s "ugv-1" (pyStrip (i.getD ""))
            (x.getD 0) (z.getD 0)) sid =
            stackHeight s sid + (if (none : Option String) = some sid then 1 else 0) :=
          stackHeight_commit hfi "ugv-1" _ _ none "idle" (some none) sid hold
        rw [hs', h10]
        simp
      · rw [if_neg hB] at h
        by_cases hC : normAct action = "pick_from_stack"
        · rw [if_pos hC] at h
          obtain ⟨-, -, -, top, htop, -, hs'⟩ := execPickFromStack_ok h
          have hsid' : pyStrip (st.getD "") ≠ sid := fun hEq => hnp ⟨hC, hEq⟩
          have htopfil : top ∈ s.items.filter
              (fun it => it.stack_id == some (pyStrip (st.getD ""))) := by
            obtain ⟨hne, heq⟩ := List.mem_getLast?_eq_getLast (Option.mem_def.mpr htop)
            rw [heq]
            exact List.getLast_mem hne
          have htopmem : top ∈ s.items := (List.mem_filter.mp htopfil).1
          have htopeq : top.stack_id = some (pyStrip (st.getD "")) := by
            simpa using (List.mem_filter.mp htopfil).2
          have hold : (top.stack_id == some sid) = false := by
            rw [htopeq, beq_eq_false_iff_ne]
            intro hEq
            exact hsid' (Option.some.inj hEq)
          have hfi := findItem_three_of_mem hits h1 h2 h3 htopmem
          have h10 : stackHeight (pfsCommit s rid top.id top.position) sid =
              stackHeight s sid + (if (none : Option String) = some sid then 1 else 0) :=
            stackHeight_commit hfi rid _ _ none "working"
              (some (some ("holding_" ++ top.id))) sid hold
          rw [hs', h10]
          simp
        · rw [if_neg hC] at h
          by_cases hD : normAct action = "place_on_stack"
          · rw [if_pos hD] at h
            obtain ⟨hk, -, -, hcar, -, -, hs'⟩ := execPlaceOnStack_ok h
            have hrid := rid_of_arm hkr hk
            subst hrid
            have hfra : findRobot s "arm-1" = some ra := findRobot_three_a hrs hru hrg hra
            rw [getRobotCarriedItem_eq hfra] at hcar
            obtain ⟨htask, hmem⟩ := taskCarried_decode_h hga hcar
            obtain ⟨item, hfi, hitmem, hitid⟩ := findItem_of_itemIds hits h1 h2 h3 hmem
            have hstk0 : item.stack_id = none :=
              hstk item hitmem _ (Or.inr htask) hitid
            have hold : (item.stack_id == some sid) = false := by
              rw [hstk0]
              rfl
            have h10 : stackHeight (placeCommit s "arm-1" (pyStrip (i.getD ""))
                (pyStrip (st.getD ""))
                ⟨(getStackBasePosition s (pyStrip (st.getD ""))).1,
                  (1 / 2) * (stackHeight s (pyStrip (st.getD "")) + 1),
                  (getStackBasePosition s (pyStrip (st.getD ""))).2⟩) sid =
                stackHeight s sid +
                  (if (some (pyStrip (st.getD "")) : Option String) = some sid
                    then 1 else 0) :=
              stackHeight_commit hfi "arm-1" _ _ (some (pyStrip (st.getD ""))) "idle"
                (some none) sid hold
            rw [hs', h10]
            split <;> omega
          · rw [if_neg hD] at h
            obtain ⟨tx, ty, tz, -, -, -, hs'⟩ := execMove_ok h
            rcases hkr with ⟨hk, hr⟩ | ⟨hk, hr⟩ | ⟨hk, hr⟩ <;> subst hr
            · simp only [findRobot_three_u hrs hru, hu, Option.getD_none] at hs'
              have h10 := stackHeight_moveCommit s (pyLower (pyStrip robot)) "uav-1" ""
                tx ty tz sid (fun htr => absurd htr (by decide))
              rw [hs', h10]
            · simp only [findRobot_three_g hrs hru hrg] at hs'
              have hheld : truthy (taskCarried (rg.current_task.getD "")) = true →
                  ∃ item, findItem s
                      ((taskCarried (rg.current_task.getD "")).getD "") = some item ∧
                    (item.stack_id == some sid) = false := by
                intro htr
                cases htc : taskCarried (rg.current_task.getD "") with
                | none =>
                  rw [htc] at htr
                  exact absurd htr (by decide)
                | some cid =>
                  obtain ⟨htask, hmem⟩ := taskCarried_decode_c hgg htc
                  obtain ⟨item, hfi, hitmem, hitid⟩ :=
                    findItem_of_itemIds hits h1 h2 h3 hmem
                  have hstk0 : item.stack_id = none :=
                    hstk item hitmem cid (Or.inl htask) hitid
                  refine ⟨item, ?_, by rw [hstk0]; rfl⟩
                  rw [Option.getD_some]
                  exact hfi
              have h10 := stackHeight_moveCommit s (pyLower (pyStrip robot)) "ugv-1"
                (rg.current_task.getD "") tx ty tz sid hheld
              rw [hs', h10]
            · simp only [findRobot_three_a hrs hru hrg hra] at hs'
              have hheld : truthy (taskCarried (ra.current_task.getD "")) = true →
                  ∃ item, findItem s
                      ((taskCarried (ra.current_task.getD "")).getD "") = some item ∧
                    (item.stack_id == some sid) = false := by
                intro htr
                cases htc : taskCarried (ra.current_task.getD "") with
                | none =>
                  rw [htc] at htr
                  exact absurd htr (by decide)
                | some cid =>
                  obtain ⟨htask, hmem⟩ := taskCarried_decode_h hga htc
                  obtain ⟨item, hfi, hitmem, hitid⟩ :=
                    findItem_of_itemIds hits h1 h2 h3 hmem
                  have hstk0 : item.stack_id = none :=
                    hstk item hitmem cid (Or.inr htask) hitid
                  refine ⟨item, ?_, by rw [hstk0]; rfl⟩
                  rw [Option.getD_some]
                  exact hfi
              have h10 := stackHeight_moveCommit s (pyLower (pyStrip robot)) "arm-1"
                (ra.current_task.getD "") tx ty tz sid hheld
              rw [hs', h10]

/-- Characterisation of a successful `place_on_stack` command on an
invariant state: the stack grows by exactly one, and the placed item ends
up on the stack at height `0.5 * (pre-height + 1)`. -/
theorem execCmd_place_char {s s' : WState} {c : Cmd} (hInv : WInv s)
    (h : execCmd s c = (s', none)) (ha : normAct c.action = "place_on_stack") :
    stackHeight s' (pyStrip (c.stack_id.getD "")) =
      stackHeight s (pyStrip (c.stack_id.getD "")) + 1 ∧
    ∃ it ∈ s'.items, it.id = pyStrip (c.item_id.getD "") ∧
      it.stack_id = some (pyStrip (c.stack_id.getD "")) ∧
      it.position.y =
        (1 / 2 : ℚ) * ((stackHeight s (pyStrip (c.stack_id.getD "")) : ℚ) + 1) := by
  obtain ⟨ru, rg, ra, i1, i2, i3, hrs, hru, hrg, hra, hits, h1, h2, h3, hu, hgg, hga,
    hone, hstk, hpg, hpa⟩ := hInv
  unfold execCmd execute at h
  cases hmap : robotIdMap (pyLower (pyStrip c.robot)) with
  | none =>
    simp only [hmap] at h
    exact absurd (congrArg Prod.snd h) (by simp)
  | some rid =>
    simp only [hmap] at h
    have hkr := robotIdMap_inv hmap
    rw [if_neg (by intro hEq; rw [ha] at hEq; exact absurd hEq (by decide)),
      if_neg (by intro hEq; rw [ha] at hEq; exact absurd hEq (by decide)),
      if_neg (by intro hEq; rw [ha] at hEq; exact absurd hEq (by decide)),
      if_pos ha] at h
    obtain ⟨hk, -, -, hcar, -, -, hs'⟩ := execPlaceOnStack_ok h
    have hrid := rid_of_arm hkr hk
    subst hrid
    have hfra : findRobot s "arm-1" = some ra := findRobot_three_a hrs hru hrg hra
    rw [getRobotCarriedItem_eq hfra] at hcar
    obtain ⟨htask, hmem⟩ := taskCarried_decode_h hga hcar
    obtain ⟨item, hfi, hitmem, hitid⟩ := findItem_of_itemIds hits h1 h2 h3 hmem
    have hstk0 : item.stack_id = none :=
      hstk item hitmem _ (Or.inr htask) hitid
    have hold : (item.stack_id == some (pyStrip (c.stack_id.getD ""))) = false := by
      rw [hstk0]
      rfl
    constructor
    · have h10 : stackHeight (placeCommit s "arm-1" (pyStrip (c.item_id.getD ""))
          (pyStrip (c.stack_id.getD ""))
          ⟨(getStackBasePosition s (pyStrip (c.stack_id.getD ""))).1,
            (1 / 2) * (stackHeight s (pyStrip (c.stack_id.getD "")) + 1),
            (getStackBasePosition s (pyStrip (c.stack_id.getD ""))).2⟩)
          (pyStrip (c.stack_id.getD "")) =
          stackHeight s (pyStrip (c.stack_id.getD "")) +
            (if (some (pyStrip (c.stack_id.getD "")) : Option String) =
              some (pyStrip (c.stack_id.getD "")) then 1 else 0) :=
        stackHeight_commit hfi "arm-1" _ _ (some (pyStrip (c.stack_id.getD ""))) "idle"
          (some none) (pyStrip (c.stack_id.getD "")) hold
      rw [hs', h10]
      simp
    · have hIID : pyStrip (c.item_id.getD "") = "item-1" ∨
          pyStrip (c.item_id.getD "") = "item-2" ∨
          pyStrip (c.item_id.getD "") = "item-3" := by
        simpa [itemIds] using hmem
      have hitsA : (updateRobotPosition s "arm-1"
          ⟨(getStackBasePosition s (pyStrip (c.stack_id.getD ""))).1,
            (1 / 2) * (stackHeight s (pyStrip (c.stack_id.getD "")) + 1),
            (getStackBasePosition s (pyStrip (c.stack_id.getD ""))).2⟩).items =
          [i1, i2, i3] := by
        rw [items_updateRobotPosition, hits]
      obtain ⟨j1, j2, j3, hjits, hj1, hj2, hj3, hold_mem, hnew⟩ :=
        commit_items_facts hitsA h1 h2 h3 hIID
          ⟨(getStackBasePosition s (pyStrip (c.stack_id.getD ""))).1,
            (1 / 2) * (stackHeight s (pyStrip (c.stack_id.getD "")) + 1),
            (getStackBasePosition s (pyStrip (c.stack_id.getD ""))).2⟩
          (some (pyStrip (c.stack_id.getD "")))
      have hsitems : s'.items = [j1, j2, j3] := by
        rw [hs']
        simp only [placeCommit]
        rw [items_updateRobotStatus]
        exact hjits
      rw [hjits] at hnew
      rcases hIID with he | he | he
      · have hid : j1.id = pyStrip (c.item_id.getD "") := by rw [hj1, he]
        obtain ⟨hpos, hsid'⟩ := hnew j1 (by simp) hid
        refine ⟨j1, by rw [hsitems]; simp, hid, hsid', ?_⟩
        rw [hpos]
      · have hid : j2.id = pyStrip (c.item_id.getD "") := by rw [hj2, he]
        obtain ⟨hpos, hsid'⟩ := hnew j2 (by simp) hid
        refine ⟨j2, by rw [hsitems]; simp, hid, hsid', ?_⟩
        rw [hpos]
      · have hid : j3.id = pyStrip (c.item_id.getD "") := by rw [hj3, he]
        obtain ⟨hpos, hsid'⟩ := hnew j3 (by simp) hid
        refine ⟨j3, by rw [hsitems]; simp, hid, hsid', ?_⟩
        rw [hpos]

/-- A run of commands, each succeeding. -/
inductive ExecSeq : WState → List Cmd → WState → Prop where
  | nil (s : WState) : ExecSeq s [] s
  | cons {s s1 s2 : WState} {cs : List Cmd} (c : Cmd) :
      execCmd s c = (s1, none) → ExecSeq s1 cs s2 → ExecSeq s (c :: cs) s2

/-- Along a successful run containing no `pick_from_stack` on `sid`, the
height of stack `sid` never decreases, and the invariant persists. -/
theorem stackHeight_seq_mono {sid : String} (hsid : sid ≠ "") :
    ∀ {s s2 : WState} {cs : List Cmd}, ExecSeq s cs s2 → WInv s →
    (∀ c ∈ cs, ¬(normAct c.action = "pick_from_stack" ∧
      pyStrip (c.stack_id.getD "") = sid)) →
    stackHeight s sid ≤ stackHeight s2 sid ∧ WInv s2 := by
  intro s s2 cs hseq
  induction hseq with
  | nil =>
    intro hInv _
    exact ⟨le_rfl, hInv⟩
  | cons c hstep hrest ih =>
    intro hInv hnp
    have hInv1 := WInv_execute hInv hstep
    have hmono1 := stackHeight_execute_mono hInv hstep hsid (hnp c (by simp))
    obtain ⟨hmono2, hInv2⟩ := ih hInv1 (fun c' hc' => hnp c' (by simp [hc']))
    exact ⟨le_trans hmono1 hmono2, hInv2⟩

/-- Claim C4 (amended): on any state satisfying the warehouse invariant
(in particular any reachable state), each successful `place_on_stack`
assigns the placed item the height `y = 0.5 * (pre-height + 1)` on its
stack, and two successive successful placements onto the same nonempty
stack id assign strictly increasing `y` provided no successful
`pick_from_stack` on that stack id occurs in between; the unconditional
"any sequence of commands between the two placements" of the original
claim is refuted by the counterexample. -/
theorem place_on_stack_y_monotone {s0 s1 s2 s3 : WState} {c1 c2 : Cmd} {cs : List Cmd}
    {sid : String} (hInv : WInv s0) (hsid : sid ≠ "")
    (h1 : execCmd s0 c1 = (s1, none)) (ha1 : normAct c1.action = "place_on_stack")
    (hst1 : pyStrip (c1.stack_id.getD "") = sid)
    (hseq : ExecSeq s1 cs s2)
    (hnp : ∀ c ∈ cs, ¬(normAct c.action = "pick_from_stack" ∧
      pyStrip (c.stack_id.getD "") = sid))
    (h2 : execCmd s2 c2 = (s3, none)) (ha2 : normAct c2.action = "place_on_stack")
    (hst2 : pyStrip (c2.stack_id.getD "") = sid) :
    (∃ it ∈ s1.items, it.id = pyStrip (c1.item_id.getD "") ∧ it.stack_id = some sid ∧
      it.position.y = (1 / 2 : ℚ) * ((stackHeight s0 sid : ℚ) + 1)) ∧
    (∃ it ∈ s3.items, it.id = pyStrip (c2.item_id.getD "") ∧ it.stack_id = some sid ∧
      it.position.y = (1 / 2 : ℚ) * ((stackHeight s2 sid : ℚ) + 1)) ∧
    (1 / 2 : ℚ) * ((stackHeight s0 sid : ℚ) + 1) <
      (1 / 2 : ℚ) * ((stackHeight s2 sid : ℚ) + 1) := by
  obtain ⟨hinc1, hitem1⟩ := execCmd_place_char hInv h1 ha1
  rw [hst1] at hinc1 hitem1
  have hInv1 := WInv_execute hInv h1
  obtain ⟨hmono, hInv2⟩ := stackHeight_seq_mono hsid hseq hInv1 hnp
  obtain ⟨hinc2, hitem2⟩ := execCmd_place_char hInv2 h2 ha2
  rw [hst2] at hitem2
  refine ⟨hitem1, hitem2, ?_⟩
  have hlt : stackHeight s0 sid < stackHeight s2 sid := by omega
  have hltq : (stackHeight s0 sid : ℚ) < (stackHeight s2 sid : ℚ) := by
    exact_mod_cast hlt
  linarith

/-- A warehouse state satisfying the invariant, built so that two
placements onto `stack-1` can happen with only a `pick_from_stack` on a
different stack (`stack-9`) in between: the arm starts out holding
`item-1`, `item-2` sits on `stack-1` and `item-3` on `stack-9`. -/
def c4w0 : WState :=
  { robots := [
      { id := "uav-1"
        rtype := "aerial"
        position := ⟨10, 5, 5⟩
        orientation := ⟨0, 0, 0⟩
        status := some "idle"
        current_task := none },
      { id := "ugv-1"
        rtype := "ground"
        position := ⟨5, 0, 5⟩
        orientation := ⟨0, 0, 0⟩
        status := some "idle"
        current_task := none },
      { id := "arm-1"
        rtype := "arm"
        position := ⟨30, 2, 15⟩
        orientation := ⟨0, 0, 0⟩
        status := some "working"
        current_task := some ("holding_" ++ "item-1") }]
    items := [
      { id := "item-1", position := ⟨30, 2, 15⟩, stack_id := none },
      { id := "item-2", position := ⟨20, 1 / 2, 10⟩, stack_id := some "stack-1" },
      { id := "item-3", position := ⟨40, 1 / 2, 25⟩, stack_id := some "stack-9" }] }

theorem WInv_c4w0 : WInv c4w0 := by
  refine ⟨_, _, _, _, _, _, rfl, rfl, rfl, rfl, rfl, rfl, rfl, rfl, rfl, Or.inl rfl,
    Or.inr ⟨"item-1", by decide, rfl⟩, ?_, ?_, ?_, ?_⟩
  · intro iid h
    exact absurd h (by simp [c4w0])
  · intro it hit iid hcase hid
    rcases hcase with hcg | hca
    · exact absurd hcg (by simp [c4w0])
    · have h5 : some ("holding_" ++ "item-1") = some ("holding_" ++ iid) := hca
      have h4 : "holding_" ++ "item-1" = "holding_" ++ iid := by injection h5
      have h6 := str_append_cancel h4
      rw [← h6] at hid
      simp [c4w0] at hit
      rcases hit with rfl | rfl | rfl
      · rfl
      · exact absurd hid (by decide)
      · exact absurd hid (by decide)
  · intro it hit iid hcg hid
    exact absurd hcg (by simp [c4w0])
  · intro it hit iid hca hid
    have h5 : some ("holding_" ++ "item-1") = some ("holding_" ++ iid) := hca
    have h4 : "holding_" ++ "item-1" = "holding_" ++ iid := by injection h5
    have h6 := str_append_cancel h4
    rw [← h6] at hid
    simp [c4w0] at hit
    rcases hit with rfl | rfl | rfl
    · rfl
    · exact absurd hid (by decide)
    · exact absurd hid (by decide)

/-- First placement: the arm puts `item-1` onto `stack-1`. -/
def c4c1 : Cmd := ⟨"arm", "place_on_stack", none, some "item-1", some "stack-1",
  none, none, none⟩

/-- Intervening command: a `pick_from_stack` on the other stack. -/
def c4cm : Cmd := ⟨"arm", "pick_from_stack", none, none, some "stack-9",
  none, none, none⟩

/-- Second placement: the arm puts `item-3` onto `stack-1`. -/
def c4c2 : Cmd := ⟨"arm", "place_on_stack", none, some "item-3", some "stack-1",
  none, none, none⟩

def c4w1 : WState := (execCmd c4w0 c4c1).1

def c4w2 : WState := (execCmd c4w1 c4cm).1

def c4w3 : WState := (execCmd c4w2 c4c2).1

theorem place_on_stack_y_monotone_witness :
    (∃ it ∈ c4w1.items, it.id = pyStrip ((c4c1.item_id).getD "") ∧
      it.stack_id = some "stack-1" ∧
      it.position.y = (1 / 2 : ℚ) * ((stackHeight c4w0 "stack-1" : ℚ) + 1)) ∧
    (∃ it ∈ c4w3.items, it.id = pyStrip ((c4c2.item_id).getD "") ∧
      it.stack_id = some "stack-1" ∧
      it.position.y = (1 / 2 : ℚ) * ((stackHeight c4w2 "stack-1" : ℚ) + 1)) ∧
    (1 / 2 : ℚ) * ((stackHeight c4w0 "stack-1" : ℚ) + 1) <
      (1 / 2 : ℚ) * ((stackHeight c4w2 "stack-1" : ℚ) + 1) :=
  place_on_stack_y_monotone WInv_c4w0 (by decide)
    (by with_unfolding_all decide) (by decide) (by decide)
    (ExecSeq.cons c4cm (by with_unfolding_all decide) (ExecSeq.nil c4w2))
    (by decide)
    (by with_unfolding_all decide) (by decide) (by decide)

def c4x1 : WState :=
  (execute seedState "arm" "pick_from_stack" none none (some "stack-1")
    none none none).1

def c4x2 : WState :=
  (execute c4x1 "arm" "place_on_stack" none (some "item-3") (some "stack-1")
    none none none).1

def c4x3 : WState :=
  (execute c4x2 "arm" "pick_from_stack" none none (some "stack-1")
    none none none).1

def c4x4 : WState :=
  (execute c4x3 "arm" "place_on_stack" none (some "item-3") (some "stack-1")
    none none none).1

/-- Claim C4 counterexample: from the seed state, the four successful
commands `pick_from_stack stack-1`, `place_on_stack item-3 stack-1`,
`pick_from_stack stack-1`, `place_on_stack item-3 stack-1` contain two
successive successful placements onto the same stack, yet both place the
item at `y = 1/2`: the second `y` is not strictly greater than the first,
refuting the claim's "for any sequence of commands between the two
placements". -/
theorem place_on_stack_y_counterexample :
    (execute seedState "arm" "pick_from_stack" none none (some "stack-1")
      none none none).2 = none ∧
    (execute c4x1 "arm" "place_on_stack" none (some "item-3") (some "stack-1")
      none none none).2 = none ∧
    (execute c4x2 "arm" "pick_from_stack" none none (some "stack-1")
      none none none).2 = none ∧
    (execute c4x3 "arm" "place_on_stack" none (some "item-3") (some "stack-1")
      none none none).2 = none ∧
    (findItem c4x2 "item-3").map (fun it => (it.position.y, it.stack_id)) =
      some (1 / 2, some "stack-1") ∧
    (findItem c4x4 "item-3").map (fun it => (it.position.y, it.stack_id)) =
      some (1 / 2, some "stack-1") := by
  with_unfolding_all decide

theorem pyStartsWith_append (p t : String) : pyStartsWith (p ++ t) p = true := by
  unfold pyStartsWith
  have hd : (p ++ t).data = p.data ++ t.data := by
    cases p
    cases t
    rfl
  rw [hd]
  exact List.isPrefixOf_iff_prefix.mpr (List.prefix_append _ _)

theorem offBy_self (a : ℚ) : offBy a a = false := by
  simp [offBy, vTol]

/-- `taskCarried` on a `carrying_` task exposes the replace-and-trim
decode. -/
theorem taskCarried_carrying_eq (t : String) :
    taskCarried ("carrying_" ++ t) =
      some (String.mk (trimChars (removeAll "carrying_".data
        ("carrying_" ++ t).data))) := by
  unfold taskCarried
  rw [if_pos (pyStartsWith_append "carrying_" t)]

theorem startsWith_holding_not_carrying (t : String) :
    pyStartsWith ("holding_" ++ t) "carrying_" = false := by
  unfold pyStartsWith
  have hd : ("holding_" ++ t).data = 'h' :: ("olding_".data ++ t.data) := by
    cases t
    rfl
  rw [hd]
  rfl

/-- `taskCarried` on a `holding_` task exposes the replace-and-trim
decode. -/
theorem taskCarried_holding_eq (t : String) :
    taskCarried ("holding_" ++ t) =
      some (String.mk (trimChars (removeAll "holding_".data
        ("holding_" ++ t).data))) := by
  unfold taskCarried
  rw [if_neg, if_pos (pyStartsWith_append "holding_" t)]
  rw [startsWith_holding_not_carrying]
  exact Bool.false_ne_true

/-- An item id that round-trips through Python's strip and the
`replace`-based task decodes: such ids are unaffected by the executor's
`strip()` and survive the verifier's `carrying_`/`holding_`
reconstruction. -/
def CleanId (iid : String) : Prop :=
  pyStrip iid = iid ∧ taskCarried ("carrying_" ++ iid) = some iid ∧
    taskCarried ("holding_" ++ iid) = some iid

theorem cleanId_decode_c {iid : String} (h : CleanId iid) :
    String.mk (trimChars (removeAll "carrying_".data ("carrying_" ++ iid).data)) =
      iid := by
  have h2 := h.2.1
  rw [taskCarried_carrying_eq] at h2
  injection h2

theorem cleanId_decode_h {iid : String} (h : CleanId iid) :
    String.mk (trimChars (removeAll "holding_".data ("holding_" ++ iid).data)) =
      iid := by
  have h2 := h.2.2
  rw [taskCarried_holding_eq] at h2
  injection h2

theorem normActV_of_ne_move {action : String} (h : normAct action ≠ "move") :
    normActV action = normAct action := by
  have hblank : ¬ pyLower (pyStrip action) = "" := by
    intro hb
    apply h
    simp only [normAct]
    rw [if_pos hb]
  have ha : action ≠ "" := by
    intro hb
    apply hblank
    rw [hb]
    decide
  simp only [normActV, normAct]
  rw [if_neg ha, if_neg hblank]

theorem normAct_of_V {action X : String} (h : normActV action = X) (hne : X ≠ "move")
    (hne2 : X ≠ "") : normAct action = X := by
  simp only [normActV] at h
  by_cases ha : action = ""
  · rw [if_pos ha] at h
    have h2 : "move" = X := h
    exact absurd h2.symm hne
  · rw [if_neg ha] at h
    simp only [normAct, h]
    rw [if_neg hne2]

/-- The verifier passes a post-`pick` state: task records the item, the
decode matches, and the item sits at the robot with no stack. -/
theorem verify_pick_none {s' prev : WState} {robot action : String}
    {dir iopt sopt : Option String} {x y z : Option ℚ} {rid : String} {rQ : Robot}
    {itQ : Item}
    (hmapv : robotIdMap (pyLower (pyStrip robot)) = some rid)
    (hfr : findRobot s' rid = some rQ)
    (hact : normActV action = "pick")
    (ht : truthy iopt = true)
    (htask : rQ.current_task = some ("carrying_" ++ iopt.getD ""))
    (hdecode : String.mk (trimChars (removeAll "carrying_".data
      ("carrying_" ++ iopt.getD "").data)) = iopt.getD "")
    (hfi : findItem s' (iopt.getD "") = some itQ)
    (hpos : itQ.position = rQ.position)
    (hstk : itQ.stack_id = none) :
    verifyCmd robot action s' (some prev) dir iopt sopt x y z = none := by
  unfold verifyCmd
  simp only [hmapv, hfr, hact]
  simp only [String.reduceEq, reduceIte]
  rw [if_neg (not_not_intro ht)]
  simp only [htask, Option.getD_some]
  rw [if_neg (not_not_intro (pyStartsWith_append "carrying_" (iopt.getD "")))]
  simp only [hdecode]
  rw [if_neg (not_not_intro rfl)]
  simp only [hfi]
  simp [hpos, offBy_self, hstk]

/-- The verifier passes a post-`drop` state: the task is cleared and the
item sits on the floor at the given coordinates. -/
theorem verify_drop_none {s' prev : WState} {robot action : String}
    {dir iopt sopt : Option String} {x y z : Option ℚ} {rid : String} {rQ : Robot}
    {itQ : Item}
    (hmapv : robotIdMap (pyLower (pyStrip robot)) = some rid)
    (hfr : findRobot s' rid = some rQ)
    (hact : normActV action = "drop")
    (ht : truthy iopt = true)
    (hx : x ≠ none) (hz : z ≠ none)
    (htask : rQ.current_task = none)
    (hfi : findItem s' (iopt.getD "") = some itQ)
    (hpos : itQ.position = ⟨x.getD 0, 0, z.getD 0⟩)
    (hstk : itQ.stack_id = none) :
    verifyCmd robot action s' (some prev) dir iopt sopt x y z = none := by
  unfold verifyCmd
  simp only [hmapv, hfr, hact]
  simp only [String.reduceEq, reduceIte]
  simp only [htask, Option.getD_none]
  rw [if_neg (fun hcond => hcond.2.1 rfl)]
  rw [if_pos ⟨ht, hx, hz⟩]
  simp only [hfi]
  simp [hpos, offBy_self, hstk]

/-- The verifier passes a post-`pick_from_stack` state. -/
theorem verify_pfs_none {s' prev : WState} {robot action : String}
    {dir iopt sopt : Option String} {x y z : Option ℚ} {rid tid : String} {rQ : Robot}
    {itQ : Item}
    (hmapv : robotIdMap (pyLower (pyStrip robot)) = some rid)
    (hfr : findRobot s' rid = some rQ)
    (hact : normActV action = "pick_from_stack")
    (htask : rQ.current_task = some ("holding_" ++ tid))
    (hdecode : String.mk (trimChars (removeAll "holding_".data
      ("holding_" ++ tid).data)) = tid)
    (hfi : findItem s' tid = some itQ)
    (hstk : itQ.stack_id = none) :
    verifyCmd robot action s' (some prev) dir iopt sopt x y z = none := by
  unfold verifyCmd
  simp only [hmapv, hfr, hact]
  simp only [String.reduceEq, reduceIte]
  simp only [htask, Option.getD_some]
  rw [if_neg (not_not_intro (pyStartsWith_append "holding_" tid))]
  simp only [hdecode, hfi]
  simp [hstk]

/-- The verifier passes a post-`place_on_stack` state. -/
theorem verify_place_none {s' prev : WState} {robot action : String}
    {dir iopt sopt : Option String} {x y z : Option ℚ} {rid : String} {rQ : Robot}
    {itQ : Item}
    (hmapv : robotIdMap (pyLower (pyStrip robot)) = some rid)
    (hfr : findRobot s' rid = some rQ)
    (hact : normActV action = "place_on_stack")
    (hti : truthy iopt = true) (hts : truthy sopt = true)
    (htask : rQ.current_task = none)
    (hfi : findItem s' (iopt.getD "") = some itQ)
    (hsid : itQ.stack_id = sopt)
    (hy : 0 < itQ.position.y) :
    verifyCmd robot action s' (some prev) dir iopt sopt x y z = none := by
  unfold verifyCmd
  simp only [hmapv, hfr, hact]
  simp only [String.reduceEq, reduceIte]
  rw [if_pos ⟨hti, hts⟩]
  simp only [hfi]
  rw [if_neg (not_not_intro hsid)]
  rw [if_neg (not_le.mpr hy)]
  simp only [htask, Option.getD_none]
  rw [if_neg (fun hcond => hcond.1 rfl)]

/-- The verifier passes a `move` with absolute coordinates, no direction
given, landing exactly on the expected target. -/
theorem verify_move_abs_none {rid : String} {pos pp : V3} {dir : Option String}
    {x y z : Option ℚ}
    (hb : isWithinBounds pos.x pos.y pos.z = true)
    (hx : x ≠ none) (hz : z ≠ none) (hdir : truthy dir = false)
    (hpos : pos = ⟨x.getD 0,
      (match y with
        | some v => v
        | none => if rid = "ugv-1" then 0 else if rid = "uav-1" then 5 else pp.y),
      z.getD 0⟩) :
    verifyMove rid pos (some pp) dir x y z = none := by
  unfold verifyMove
  rw [if_neg (not_not_intro hb), if_pos (show x ≠ none ∧ z ≠ none from ⟨hx, hz⟩)]
  simp [hdir, hpos, offBy_self]

/-- The verifier passes a directional `move` with no absolute
coordinates, landing exactly on the expected step target. -/
theorem verify_move_dir_none {rid : String} {pos pp : V3} {dir : Option String}
    {x y z : Option ℚ}
    (hb : isWithinBounds pos.x pos.y pos.z = true)
    (hxz : ¬(x ≠ none ∧ z ≠ none))
    (hpos : pos = ⟨pp.x + (if pyLower (pyStrip (dir.getD "")) = "east" then 5
        else if pyLower (pyStrip (dir.getD "")) = "west" then -5 else 0),
      (if rid = "arm-1" then pp.y else if rid = "ugv-1" then 0 else 5),
      pp.z + (if pyLower (pyStrip (dir.getD "")) = "north" then -5
        else if pyLower (pyStrip (dir.getD "")) = "south" then 5 else 0)⟩) :
    verifyMove rid pos (some pp) dir x y z = none := by
  unfold verifyMove
  rw [if_neg (not_not_intro hb), if_neg hxz]
  by_cases htr : truthy dir = true
  · simp [htr, hpos, offBy_self]
  · have hf : truthy dir = false := by
      revert htr
      cases truthy dir <;> simp
    simp [hf]

/-- The verifier passes vacuously for an action outside its five known
forms. -/
theorem verify_unknown_none {s' prev : WState} {robot action : String}
    {dir iopt sopt : Option String} {x y z : Option ℚ} {rid : String} {rQ : Robot}
    (hmapv : robotIdMap (pyLower (pyStrip robot)) = some rid)
    (hfr : findRobot s' rid = some rQ)
    (h1 : normActV action ≠ "move") (h2 : normActV action ≠ "pick")
    (h3 : normActV action ≠ "drop") (h4 : normActV action ≠ "pick_from_stack")
    (h5 : normActV action ≠ "place_on_stack") :
    verifyCmd robot action s' (some prev) dir iopt sopt x y z = none := by
  unfold verifyCmd
  simp only [hmapv, hfr]
  rw [if_neg h1, if_neg h2, if_neg h3, if_neg h4, if_neg h5]

theorem normAct_move_of_V {action : String} (h : normActV action = "move") :
    normAct action = "move" := by
  simp only [normActV] at h
  by_cases ha : action = ""
  · rw [ha]
    decide
  · rw [if_neg ha] at h
    simp only [normAct, h]
    rw [if_neg (by decide)]

theorem some_getD_of_truthy {o : Option String} (h : truthy o = true) :
    some (o.getD "") = o := by
  cases o with
  | none => exact absurd h (by decide)
  | some t => rfl

/-- The verifier's `move` branch, exposed. -/
theorem verifyCmd_move_eq {s' prev : WState} {robot action : String}
    {dir iopt sopt : Option String} {x y z : Option ℚ} {rid : String} {rQ : Robot}
    (hmapv : robotIdMap (pyLower (pyStrip robot)) = some rid)
    (hfr : findRobot s' rid = some rQ)
    (hact : normActV action = "move") :
    verifyCmd robot action s' (some prev) dir iopt sopt x y z =
      verifyMove rid rQ.position ((findRobot prev rid).map (fun r => r.position))
        dir x y z := by
  unfold verifyCmd
  simp only [hmapv, hfr, hact]
  simp only [String.reduceEq, reduceIte]

/-- The verifier passes the post state of any successful `move`, provided
absolute coordinates and a direction were not both supplied. -/
theorem verify_move_branch {s s' : WState} {robot action rid : String} {rPre rQ : Robot}
    {dir iopt sopt : Option String} {x y z : Option ℚ} {tx ty tz : ℚ}
    (hmap : robotIdMap (pyLower (pyStrip robot)) = some rid)
    (hfrPre : findRobot s rid = some rPre)
    (hv : normActV action = "move")
    (hkr : (pyLower (pyStrip robot) = "uav" ∧ rid = "uav-1") ∨
      (pyLower (pyStrip robot) = "ugv" ∧ rid = "ugv-1") ∨
      (pyLower (pyStrip robot) = "arm" ∧ rid = "arm-1"))
    (hmt : moveTarget (pyLower (pyStrip robot)) rPre.position dir x y z =
      .inl (tx, ty, tz))
    (hbnd : isWithinBounds tx ty tz = true)
    (hfr' : findRobot s' rid = some rQ) (hrq : rQ.position = ⟨tx, ty, tz⟩)
    (hmove : ¬(x ≠ none ∧ z ≠ none ∧ truthy dir = true)) :
    verifyCmd robot action s' (some s) dir iopt sopt x y z = none := by
  rw [verifyCmd_move_eq hmap hfr' hv]
  simp only [hfrPre, Option.map_some']
  have hb : isWithinBounds rQ.position.x rQ.position.y rQ.position.z = true := by
    rw [hrq]
    exact hbnd
  rcases hkr with ⟨hk, hr⟩ | ⟨hk, hr⟩ | ⟨hk, hr⟩ <;> subst hr <;> rw [hk] at hmt <;>
      simp only [moveTarget] at hmt <;> by_cases hxz : x ≠ none ∧ z ≠ none
  · -- uav, absolute
    rw [if_pos hxz] at hmt
    have hdir : truthy dir = false := by
      cases htr2 : truthy dir with
      | false => rfl
      | true => exact absurd ⟨hxz.1, hxz.2, htr2⟩ hmove
    injection hmt with hmt'
    simp only [Prod.mk.injEq] at hmt'
    refine verify_move_abs_none hb hxz.1 hxz.2 hdir ?_
    rw [hrq, ← hmt'.1, ← hmt'.2.1, ← hmt'.2.2]
    cases y <;> simp
  · -- uav, directional
    rw [if_neg hxz] at hmt
    by_cases htr : truthy dir = true
    · rw [if_pos htr] at hmt
      by_cases hd1 : pyLower (pyStrip (dir.getD "")) = "north"
      · simp only [hd1, String.reduceEq, reduceIte] at hmt
        injection hmt with hmt'
        simp only [Prod.mk.injEq] at hmt'
        refine verify_move_dir_none hb hxz ?_
        rw [hrq, ← hmt'.1, ← hmt'.2.1, ← hmt'.2.2]
        simp [hd1]
      · by_cases hd2 : pyLower (pyStrip (dir.getD "")) = "south"
        · simp only [hd2, String.reduceEq, reduceIte] at hmt
          injection hmt with hmt'
          simp only [Prod.mk.injEq] at hmt'
          refine verify_move_dir_none hb hxz ?_
          rw [hrq, ← hmt'.1, ← hmt'.2.1, ← hmt'.2.2]
          simp [hd2, hd1]
        · by_cases hd3 : pyLower (pyStrip (dir.getD "")) = "east"
          · simp only [hd3, String.reduceEq, reduceIte] at hmt
            injection hmt with hmt'
            simp only [Prod.mk.injEq] at hmt'
            refine verify_move_dir_none hb hxz ?_
            rw [hrq, ← hmt'.1, ← hmt'.2.1, ← hmt'.2.2]
            simp [hd3, hd2, hd1]
          · by_cases hd4 : pyLower (pyStrip (dir.getD "")) = "west"
            · simp only [hd4, String.reduceEq, reduceIte] at hmt
              injection hmt with hmt'
              simp only [Prod.mk.injEq] at hmt'
              refine verify_move_dir_none hb hxz ?_
              rw [hrq, ← hmt'.1, ← hmt'.2.1, ← hmt'.2.2]
              simp [hd4, hd3, hd2, hd1]
            · rw [if_neg hd1, if_neg hd2, if_neg hd3, if_neg hd4] at hmt
              exact absurd hmt (by simp)
    · rw [if_neg htr] at hmt
      exact absurd hmt (by simp)
  · -- ugv, absolute
    rw [if_pos hxz] at hmt
    have hdir : truthy dir = false := by
      cases htr2 : truthy dir with
      | false => rfl
      | true => exact absurd ⟨hxz.1, hxz.2, htr2⟩ hmove
    injection hmt with hmt'
    simp only [Prod.mk.injEq] at hmt'
    refine verify_move_abs_none hb hxz.1 hxz.2 hdir ?_
    rw [hrq, ← hmt'.1, ← hmt'.2.1, ← hmt'.2.2]
    cases y <;> simp
  · -- ugv, directional
    rw [if_neg hxz] at hmt
    by_cases htr : truthy dir = true
    · rw [if_pos htr] at hmt
      by_cases hd1 : pyLower (pyStrip (dir.getD "")) = "north"
      · simp only [hd1, String.reduceEq, reduceIte] at hmt
        injection hmt with hmt'
        simp only [Prod.mk.injEq] at hmt'
        refine verify_move_dir_none hb hxz ?_
        rw [hrq, ← hmt'.1, ← hmt'.2.1, ← hmt'.2.2]
        simp [hd1]
      · by_cases hd2 : pyLower (pyStrip (dir.getD "")) = "south"
        · simp only [hd2, String.reduceEq, reduceIte] at hmt
          injection hmt with hmt'
          simp only [Prod.mk.injEq] at hmt'
          refine verify_move_dir_none hb hxz ?_
          rw [hrq, ← hmt'.1, ← hmt'.2.1, ← hmt'.2.2]
          simp [hd2, hd1]
        · by_cases hd3 : pyLower (pyStrip (dir.getD "")) = "east"
          · simp only [hd3, String.reduceEq, reduceIte] at hmt
            injection hmt with hmt'
            simp only [Prod.mk.injEq] at hmt'
            refine verify_move_dir_none hb hxz ?_
            rw [hrq, ← hmt'.1, ← hmt'.2.1, ← hmt'.2.2]
            simp [hd3, hd2, hd1]
          · by_cases hd4 : pyLower (pyStrip (dir.getD "")) = "west"
            · simp only [hd4, String.reduceEq, reduceIte] at hmt
              injection hmt with hmt'
              simp only [Prod.mk.injEq] at hmt'
              refine verify_move_dir_none hb hxz ?_
              rw [hrq, ← hmt'.1, ← hmt'.2.1, ← hmt'.2.2]
              simp [hd4, hd3, hd2, hd1]
            · rw [if_neg hd1, if_neg hd2, if_neg hd3, if_neg hd4] at hmt
              exact absurd hmt (by simp)
    · rw [if_neg htr] at hmt
      exact absurd hmt (by simp)
  · -- arm, absolute
    rw [if_pos hxz] at hmt
    have hdir : truthy dir = false := by
      cases htr2 : truthy dir with
      | false => rfl
      | true => exact absurd ⟨hxz.1, hxz.2, htr2⟩ hmove
    injection hmt with hmt'
    simp only [Prod.mk.injEq] at hmt'
    refine verify_move_abs_none hb hxz.1 hxz.2 hdir ?_
    rw [hrq, ← hmt'.1, ← hmt'.2.1, ← hmt'.2.2]
    cases y <;> simp
  · -- arm, directional
    rw [if_neg hxz] at hmt
    by_cases htr : truthy dir = true
    · rw [if_pos htr] at hmt
      by_cases hd1 : pyLower (pyStrip (dir.getD "")) = "north"
      · simp only [hd1, String.reduceEq, reduceIte] at hmt
        injection hmt with hmt'
        simp only [Prod.mk.injEq] at hmt'
        refine verify_move_dir_none hb hxz ?_
        rw [hrq, ← hmt'.1, ← hmt'.2.1, ← hmt'.2.2]
        simp [hd1]
      · by_cases hd2 : pyLower (pyStrip (dir.getD "")) = "south"
        · simp only [hd2, String.reduceEq, reduceIte] at hmt
          injection hmt with hmt'
          simp only [Prod.mk.injEq] at hmt'
          refine verify_move_dir_none hb hxz ?_
          rw [hrq, ← hmt'.1, ← hmt'.2.1, ← hmt'.2.2]
          simp [hd2, hd1]
        · by_cases hd3 : pyLower (pyStrip (dir.getD "")) = "east"
          · simp only [hd3, String.reduceEq, reduceIte] at hmt
            injection hmt with hmt'
            simp only [Prod.mk.injEq] at hmt'
            refine verify_move_dir_none hb hxz ?_
            rw [hrq, ← hmt'.1, ← hmt'.2.1, ← hmt'.2.2]
            simp [hd3, hd2, hd1]
          · by_cases hd4 : pyLower (pyStrip (dir.getD "")) = "west"
            · simp only [hd4, String.reduceEq, reduceIte] at hmt
              injection hmt with hmt'
              simp only [Prod.mk.injEq] at hmt'
              refine verify_move_dir_none hb hxz ?_
              rw [hrq, ← hmt'.1, ← hmt'.2.1, ← hmt'.2.2]
              simp [hd4, hd3, hd2, hd1]
            · rw [if_neg hd1, if_neg hd2, if_neg hd3, if_neg hd4] at hmt
              exact absurd hmt (by simp)
    · rw [if_neg htr] at hmt
      exact absurd hmt (by simp)

/-- Claim C6 (amended): on an invariant state, for every command on which
`execute_warehouse_command` succeeds, the verifier run with the same
arguments, the pre-state snapshot and the post state returns `(True, "")`
— provided the `item_id` argument is a clean id (strip-fixed and
`replace`-decode round-tripping), the `stack_id` argument is strip-fixed,
the pre-state item ids are clean, and a `move` is not given both absolute
coordinates and a truthy direction.  The last proviso is what the
counterexample violates: the executor prefers absolute coordinates while
the verifier checks both expectations. -/
theorem execute_verify_refinement {s s' : WState} {robot action : String}
    {dir iopt sopt : Option String} {x y z : Option ℚ}
    (hInv : WInv s)
    (h : execute s robot action dir iopt sopt x y z = (s', none))
    (hci : CleanId (iopt.getD ""))
    (hitems : ∀ it ∈ s.items, CleanId it.id)
    (hcs : pyStrip (sopt.getD "") = sopt.getD "")
    (hmove : normAct action = "move" → ¬(x ≠ none ∧ z ≠ none ∧ truthy dir = true)) :
    verifyCmd robot action s' (some s) dir iopt sopt x y z = none := by
  obtain ⟨ru, rg, ra, i1, i2, i3, hrs, hru, hrg, hra, hits, h1, h2, h3, hu, hgg, hga,
    hone, hstk, hpg, hpa⟩ := hInv
  unfold execute at h
  cases hmap : robotIdMap (pyLower (pyStrip robot)) with
  | none =>
    simp only [hmap] at h
    exact absurd (congrArg Prod.snd h) (by simp)
  | some rid =>
    simp only [hmap] at h
    have hkr := robotIdMap_inv hmap
    by_cases hA : normAct action = "pick"
    · rw [if_pos hA] at h
      obtain ⟨hk, ht, hc, item, hfi, hst, hhb, hs'⟩ := execPick_ok h
      have hrid := rid_of_ugv hkr hk
      subst hrid
      rw [hci.1] at hfi hs'
      have hfrg : findRobot s "ugv-1" = some rg := findRobot_three_g hrs hru hrg
      have hp0 : (getItemPosition s (iopt.getD "")).getD ⟨0, 0, 0⟩ = item.position := by
        unfold getItemPosition
        rw [hfi]
        rfl
      rw [hp0] at hs'
      have hfr' : findRobot s' "ugv-1" = some { rg with
          position := ⟨item.position.x, 0, item.position.z⟩
          status := some "working"
          current_task := some ("carrying_" ++ iopt.getD "") } := by
        rw [hs']
        exact findRobot_pickCommit_self hfrg _ _
      have hfiA : findItem (updateRobotPosition s "ugv-1"
          ⟨item.position.x, 0, item.position.z⟩) (iopt.getD "") = some item := by
        unfold updateRobotPosition
        rw [findItem_upsertRobot]
        exact hfi
      have hfi' : findItem s' (iopt.getD "") = some { item with
          position := ⟨item.position.x, 0, item.position.z⟩
          stack_id := none } := by
        rw [hs']
        simp only [pickCommit, updateRobotStatus]
        rw [findItem_upsertRobot]
        exact findItem_upsertItem_self hfiA _ _
      exact verify_pick_none hmap hfr'
        (by rw [normActV_of_ne_move (by rw [hA]; decide), hA]) ht rfl
        (cleanId_decode_c hci) hfi' rfl rfl
    · rw [if_neg hA] at h
      by_cases hB : normAct action = "drop"
      · rw [if_pos hB] at h
        obtain ⟨hk, ht, hxz, hcar, hb, hocc, hs'⟩ := execDrop_ok h
        have hrid := rid_of_ugv hkr hk
        subst hrid
        rw [hci.1] at hcar hs'
        have hfrg : findRobot s "ugv-1" = some rg := findRobot_three_g hrs hru hrg
        rw [getRobotCarriedItem_eq hfrg] at hcar
        obtain ⟨htk, hmem⟩ := taskCarried_decode_c hgg hcar
        obtain ⟨item, hfi, hitmem, hitid⟩ := findItem_of_itemIds hits h1 h2 h3 hmem
        have hfr' : findRobot s' "ugv-1" = some { rg with
            position := ⟨x.getD 0, 0, z.getD 0⟩
            status := some "idle"
            current_task := none } := by
          rw [hs']
          exact findRobot_dropCommit_self hfrg _ _ _
        have hfiA : findItem (updateRobotPosition s "ugv-1"
            ⟨x.getD 0, 0, z.getD 0⟩) (iopt.getD "") = some item := by
          unfold updateRobotPosition
          rw [findItem_upsertRobot]
          exact hfi
        have hfi' : findItem s' (iopt.getD "") = some { item with
            position := ⟨x.getD 0, 0, z.getD 0⟩
            stack_id := none } := by
          rw [hs']
          simp only [dropCommit, updateRobotStatus]
          rw [findItem_upsertRobot]
          exact findItem_upsertItem_self hfiA _ _
        exact verify_drop_none hmap hfr'
          (by rw [normActV_of_ne_move (by rw [hB]; decide), hB]) ht
          (fun hn => hxz (Or.inl hn)) (fun hn => hxz (Or.inr hn)) rfl hfi' rfl rfl
      · rw [if_neg hB] at h
        by_cases hC : normAct action = "pick_from_stack"
        · rw [if_pos hC] at h
          obtain ⟨hk, hts, hc, top, htop, hocc, hs'⟩ := execPickFromStack_ok h
          have hrid := rid_of_arm hkr hk
          subst hrid
          have htopfil : top ∈ s.items.filter
              (fun it => it.stack_id == some (pyStrip (sopt.getD ""))) := by
            obtain ⟨hne, heq⟩ := List.mem_getLast?_eq_getLast (Option.mem_def.mpr htop)
            rw [heq]
            exact List.getLast_mem hne
          have htopmem : top ∈ s.items := (List.mem_filter.mp htopfil).1
          have hcid : CleanId top.id := hitems top htopmem
          have hfra : findRobot s "arm-1" = some ra := findRobot_three_a hrs hru hrg hra
          have hfr' : findRobot s' "arm-1" = some { ra with
              position := top.position
              status := some "working"
              current_task := some ("holding_" ++ top.id) } := by
            rw [hs']
            exact findRobot_pfsCommit_self hfra _ _
          have hfi0 : findItem s top.id = some top :=
            findItem_three_of_mem hits h1 h2 h3 htopmem
          have hfiA : findItem (updateRobotPosition s "arm-1" top.position) top.id =
              some top := by
            unfold updateRobotPosition
            rw [findItem_upsertRobot]
            exact hfi0
          have hfi' : findItem s' top.id = some { top with
              position := top.position
              stack_id := none } := by
            rw [hs']
            simp only [pfsCommit, updateRobotStatus]
            rw [findItem_upsertRobot]
            exact findItem_upsertItem_self hfiA _ _
          exact verify_pfs_none hmap hfr'
            (by rw [normActV_of_ne_move (by rw [hC]; decide), hC]) rfl
            (cleanId_decode_h hcid) hfi' rfl
        · rw [if_neg hC] at h
          by_cases hD : normAct action = "place_on_stack"
          · rw [if_pos hD] at h
            obtain ⟨hk, hts, hti, hcar, hb, hocc, hs'⟩ := execPlaceOnStack_ok h
            have hrid := rid_of_arm hkr hk
            subst hrid
            rw [hci.1] at hcar hs'
            rw [hcs] at hs'
            have hfra : findRobot s "arm-1" = some ra := findRobot_three_a hrs hru hrg hra
            rw [getRobotCarriedItem_eq hfra] at hcar
            obtain ⟨htk, hmem⟩ := taskCarried_decode_h hga hcar
            obtain ⟨item, hfi, hitmem, hitid⟩ := findItem_of_itemIds hits h1 h2 h3 hmem
            have hfr' : findRobot s' "arm-1" = some { ra with
                position := ⟨(getStackBasePosition s (sopt.getD "")).1,
                  (1 / 2) * (stackHeight s (sopt.getD "") + 1),
                  (getStackBasePosition s (sopt.getD "")).2⟩
                status := some "idle"
                current_task := none } := by
              rw [hs']
              exact findRobot_placeCommit_self hfra _ _ _
            have hfiA : findItem (updateRobotPosition s "arm-1"
                ⟨(getStackBasePosition s (sopt.getD "")).1,
                  (1 / 2) * (stackHeight s (sopt.getD "") + 1),
                  (getStackBasePosition s (sopt.getD "")).2⟩) (iopt.getD "") =
                some item := by
              unfold updateRobotPosition
              rw [findItem_upsertRobot]
              exact hfi
            have hfi' : findItem s' (iopt.getD "") = some { item with
                position := ⟨(getStackBasePosition s (sopt.getD "")).1,
                  (1 / 2) * (stackHeight s (sopt.getD "") + 1),
                  (getStackBasePosition s (sopt.getD "")).2⟩
                stack_id := some (sopt.getD "") } := by
              rw [hs']
              simp only [placeCommit, updateRobotStatus]
              rw [findItem_upsertRobot]
              exact findItem_upsertItem_self hfiA _ _
            have hy : (0 : ℚ) <
                (1 / 2) * ((stackHeight s (sopt.getD "") : ℚ) + 1) := by
              positivity
            exact verify_place_none hmap hfr'
              (by rw [normActV_of_ne_move (by rw [hD]; decide), hD]) hti hts rfl hfi'
              (some_getD_of_truthy hts) hy
          · rw [if_neg hD] at h
            obtain ⟨tx, ty, tz, hmt, hbnd, hocc, hs'⟩ := execMove_ok h
            have hfrPre : ∃ rr, findRobot s rid = some rr := by
              rcases hkr with ⟨hk, hr⟩ | ⟨hk, hr⟩ | ⟨hk, hr⟩ <;> subst hr
              · exact ⟨ru, findRobot_three_u hrs hru⟩
              · exact ⟨rg, findRobot_three_g hrs hru hrg⟩
              · exact ⟨ra, findRobot_three_a hrs hru hrg hra⟩
            obtain ⟨rPre, hfrPre⟩ := hfrPre
            simp only [hfrPre] at hs'
            have hfr' : findRobot s' rid = some { rPre with
                position := ⟨tx, ty, tz⟩
                status := some (if truthy (taskCarried (rPre.current_task.getD ""))
                  then "working" else "idle")
                current_task := if truthy (taskCarried (rPre.current_task.getD ""))
                  then some (rPre.current_task.getD "") else none } := by
              rw [hs']
              exact findRobot_moveCommit hfrPre _ _ _ _ _
            by_cases hv : normActV action = "move"
            · rw [getRobotPosition_of_find hfrPre] at hmt
              exact verify_move_branch hmap hfrPre hv hkr hmt hbnd hfr' rfl
                (hmove (normAct_move_of_V hv))
            · exact verify_unknown_none hmap hfr' hv
                (fun h5 => hA (normAct_of_V h5 (by decide) (by decide)))
                (fun h5 => hB (normAct_of_V h5 (by decide) (by decide)))
                (fun h5 => hC (normAct_of_V h5 (by decide) (by decide)))
                (fun h5 => hD (normAct_of_V h5 (by decide) (by decide)))

/-- Claim C6 counterexample: `move ugv` with direction `north` and
absolute coordinates `x=10, z=20` both given succeeds in the executor
(absolute coordinates win), but the verifier, run with the same
arguments on the pre/post snapshots, also checks the directional
expectation and fails with a directional mismatch. -/
theorem execute_verify_counterexample :
    (execute seedState "ugv" "move" (some "north") none none (some 10) none
      (some 20)).2 = none ∧
    verifyCmd "ugv" "move"
      (execute seedState "ugv" "move" (some "north") none none (some 10) none
        (some 20)).1
      (some seedState) (some "north") none none (some 10) none (some 20) =
      some .directionalMismatch := by
  with_unfolding_all decide

def c6w1 : WState :=
  (execute seedState "ugv" "pick" none (some "item-1") none none none none).1

theorem execute_verify_refinement_witness :
    verifyCmd "ugv" "pick" c6w1 (some seedState) none (some "item-1") none
      none none none = none :=
  execute_verify_refinement WInv_seed (by with_unfolding_all decide)
    ⟨by decide, by decide, by decide⟩
    (by
      intro it hit
      simp [seedState] at hit
      rcases hit with rfl | rfl | rfl <;> exact ⟨by decide, by decide, by decide⟩)
    (by decide) (fun h5 => absurd h5 (by decide))
